import Mathlib

/-!
# Verification of the landing-page editor core (bot.py)

Shallow embedding of the core text-processing logic of the "Belkorchi LP
Editor": the Record Literal Codec (`js_apps_to_python` fallback path and
`python_apps_to_js`), the Field Extractor/Rewriter regex patterns used by
`LPData.load` / `LPData.save`, and the surrounding error-handling flow.

Python strings are modelled as Lean `String` / `List Char`.  Python's
regular-expression behaviour for the specific patterns appearing in the
source is modelled by deterministic scanners; the determinism of each
pattern (no observable backtracking) is argued in the doc comment of the
corresponding definition.  The model is exact on ASCII text; Python's
Unicode-aware `\b`, `\s` and `str.strip` semantics are approximated by
their ASCII restrictions, and the theorems below restrict their domains
accordingly.
-/

namespace LP

/-! ## Python values

Model of the Python values that flow through the codec: the results of the
restricted `eval` in `js_apps_to_python` and the record dictionaries that
`python_apps_to_js` consumes.  Dictionaries are insertion-ordered
association lists, as in Python 3.7+. -/

inductive PyVal where
  | str (s : String)
  | int (n : Int)
  | bool (b : Bool)
  | none
  | list (xs : List PyVal)
  | dict (kvs : List (PyVal × PyVal))

/-- A Python dictionary: insertion-ordered key/value pairs. -/
abbrev Pydict := List (PyVal × PyVal)

/-- Python `==` between a dict key and the string literal the code passes
to `.get`: only a string key can equal a string. -/
def keyEq : PyVal → String → Bool
  | .str s, k => s == k
  | _, _ => false

/-- `d.get(k, default)` for a string key `k` (first matching key wins;
keys of a Python dict are unique by construction). -/
def dictGet (d : Pydict) (k : String) (dflt : PyVal) : PyVal :=
  match d.find? (fun kv => keyEq kv.1 k) with
  | Option.some kv => kv.2
  | Option.none => dflt

/-- Python truthiness (`bool(v)`), as used by
`bool(app.get("trending", False))` in `python_apps_to_js`. -/
def pyTruthy : PyVal → Bool
  | .str s => !(s == "")
  | .int n => !(n == 0)
  | .bool b => b
  | .none => false
  | .list xs => !xs.isEmpty
  | .dict kvs => !kvs.isEmpty

/-- One-level `repr(v)`: exact on scalar values; the rendering of
containers nested inside containers is elided (no theorem below reaches
that case — the encoder only ever interpolates strings and booleans). -/
def pyReprShallow : PyVal → String
  | .str s => "\x27" ++ s ++ "\x27"
  | .int n => toString n
  | .bool b => if b then "True" else "False"
  | .none => "None"
  | .list _ => "[...]"
  | .dict _ => "\x7b...\x7d"

/-- Python `str(v)` as used in f-string interpolation.  Exact on scalar
values (the only shapes the theorems below interpolate); container
rendering is one level deep via `pyReprShallow`. -/
def pyStrOf : PyVal → String
  | .str s => s
  | .int n => toString n
  | .bool b => if b then "True" else "False"
  | .none => "None"
  | .list xs => "[" ++ String.intercalate ", " (xs.map pyReprShallow) ++ "]"
  | .dict _ => "\x7b...\x7d"

/-- Python iteration (`for x in v`) for the value shapes reaching
`py_list`: lists yield their elements, strings their characters; the
encoder is only ever applied to list-valued `platforms` in the theorems
below. -/
def pyIter : PyVal → List PyVal
  | .list xs => xs
  | .str s => s.data.map (fun c => PyVal.str (String.mk [c]))
  | .dict kvs => kvs.map (·.1)
  | _ => []

/-! ## Records

One entry of the embedded `APPS` array literal, as assembled by the
editing dialog (`AppDialog.ok`, bot.py lines 847-854): exactly the six
keys name, icon, locker_id, platforms, trending, featured, in that
order. -/

structure AppRecord where
  name : String
  icon : String
  locker_id : String
  platforms : List String
  trending : Bool
  featured : Bool
deriving DecidableEq

/-- The Python dict the editing shell builds for a record
(bot.py lines 847-854): six string-keyed entries in fixed order. -/
def recordDict (r : AppRecord) : Pydict :=
  [(PyVal.str "name", PyVal.str r.name),
   (PyVal.str "icon", PyVal.str r.icon),
   (PyVal.str "locker_id", PyVal.str r.locker_id),
   (PyVal.str "platforms", PyVal.list (r.platforms.map PyVal.str)),
   (PyVal.str "trending", PyVal.bool r.trending),
   (PyVal.str "featured", PyVal.bool r.featured)]

/-! ## Encoder: `python_apps_to_js` (bot.py lines 111-133)

Builds a list of text lines and joins them with newlines, exactly as the
source does. -/

/-- `py_list` (bot.py lines 116-117): render a platforms value as a
bracketed comma-separated list of double-quoted entries. -/
def py_list (lst : List PyVal) : String :=
  "[" ++ String.intercalate ", " (lst.map (fun x => "\"" ++ pyStrOf x ++ "\"")) ++ "]"

/-- The lines the loop body of `python_apps_to_js` emits for one record
(bot.py lines 121-131). -/
def recordLines (app : Pydict) : List String :=
  ["  \x7b",
   "    name: \"" ++ pyStrOf (dictGet app "name" (PyVal.str "")) ++ "\",",
   "    icon: \"" ++ pyStrOf (dictGet app "icon" (PyVal.str "")) ++ "\",",
   "    locker_id: \"" ++ pyStrOf (dictGet app "locker_id" (PyVal.str "")) ++ "\",",
   "    platforms: " ++ py_list (pyIter (dictGet app "platforms" (PyVal.list []))) ++ ",",
   "    trending: " ++ (if pyTruthy (dictGet app "trending" (PyVal.bool false)) then "true" else "false") ++ ",",
   "    featured: " ++ (if pyTruthy (dictGet app "featured" (PyVal.bool false)) then "true" else "false"),
   "  \x7d,"]

/-- `python_apps_to_js` (bot.py lines 111-133): wrap the per-record lines
in a `const APPS = [ ... ];` declaration and join with newlines. -/
def python_apps_to_js (apps : List Pydict) : String :=
  String.intercalate "\n"
    (["const APPS = ["] ++ apps.foldr (fun a acc => recordLines a ++ acc) [] ++ ["];"])

/-- Encoding a record list: the composition the editor performs (records
are held in memory as the dicts of `recordDict`). -/
def encodeApps (rs : List AppRecord) : String :=
  python_apps_to_js (rs.map recordDict)

/-! ### Closed form of the encoder (claim C9) -/

/-- Separator-prefixed concatenation: `sepcat s [a, b] = s ++ a ++ s ++ b`. -/
def sepcat (s : String) : List String → String
  | [] => ""
  | a :: as => s ++ a ++ sepcat s as

/-- The record block exactly as the specification describes the emitted
object: fields in the fixed order name, icon, locker_id, platforms,
trending, featured; string values double-quoted with no internal
escaping; platform arrays as a bracketed comma-separated list of
double-quoted strings; booleans as bare true/false. -/
def recordBlockSpec (r : AppRecord) : String :=
  "\n" ++ "  \x7b"
  ++ "\n" ++ ("    name: \"" ++ r.name ++ "\",")
  ++ "\n" ++ ("    icon: \"" ++ r.icon ++ "\",")
  ++ "\n" ++ ("    locker_id: \"" ++ r.locker_id ++ "\",")
  ++ "\n" ++ ("    platforms: "
       ++ ("[" ++ String.intercalate ", " (r.platforms.map (fun p => "\"" ++ p ++ "\"")) ++ "]") ++ ",")
  ++ "\n" ++ ("    trending: " ++ (if r.trending then "true" else "false") ++ ",")
  ++ "\n" ++ ("    featured: " ++ (if r.featured then "true" else "false"))
  ++ "\n" ++ "  \x7d,"

/-- The whole encoder output as the specification describes it: one
object per record, in sequence order, wrapped in a
`const APPS = [ ... ];` declaration. -/
def renderAppsSpec (rs : List AppRecord) : String :=
  "const APPS = [" ++ rs.foldr (fun r acc => recordBlockSpec r ++ acc) "" ++ "\n" ++ "];"

/-! ## Normalization passes of `js_apps_to_python` (bot.py lines 96-104)

The fallback decoding path first strips the input, then rewrites bare
`true`/`false`/`null` word tokens to `True`/`False`/`None`, then quotes
bare identifier keys.  The three word rewrites model
`re.sub(r'\btrue\b', 'True', s)` etc., and the key-quoting models
`re.sub(r'(\b[a-zA-Z_][a-zA-Z0-9_]*\b)\s*:', ..., s)`; both scans are
deterministic for these patterns (maximal-munch of the identifier cannot
be shortened by backtracking, because the boundary assertion fails inside
a run of word characters).  Word characters and whitespace are taken in
their ASCII reading (`re` on `str` is Unicode-aware; the theorems below
restrict values to ASCII, where the two readings agree). -/

/-- Python `\s` (ASCII): space, tab, newline, carriage return, vertical
tab, form feed. -/
def pySpace (c : Char) : Bool :=
  c = ' ' || c = '\t' || c = '\n' || c = '\r' || c = '\x0b' || c = '\x0c'

/-- Python `\w` (ASCII): letters, digits, underscore. -/
def isWordChar (c : Char) : Bool :=
  c.isAlpha || c.isDigit || c = '_'

/-- First character of `[a-zA-Z_][a-zA-Z0-9_]*`. -/
def identStart (c : Char) : Bool := c.isAlpha || c = '_'

/-- Python `str.strip()` (ASCII whitespace). -/
def pyStrip (cs : List Char) : List Char :=
  ((cs.dropWhile pySpace).reverse.dropWhile pySpace).reverse

/-- The `\b` assertion after a match: the next character, if any, is not a
word character. -/
def noWordAhead : List Char → Bool
  | [] => true
  | c :: _ => !isWordChar c

/-- Scanner for one pass of `re.sub(r'\bW\b', repl, ·)`, `W = w0 :: wr` a
word of word characters.  The scan walks the text one character at a time;
`prevW` records whether the character before the current position is a
word character (the left `\b`).  When a match fires, the replacement is
emitted and the remaining `wr.length` matched characters are consumed
without being emitted, recorded by the `skip` counter (this keeps the
recursion structural).  After a match the scan resumes with the matched
word's last character (`wr.getLastD w0`) as the previous character. -/
def substWordAux (w0 : Char) (wr repl : List Char) : Nat → Bool → List Char → List Char
  | _, _, [] => []
  | Nat.succ skip, pw, _ :: cs => substWordAux w0 wr repl skip pw cs
  | 0, prevW, c :: cs =>
    if !prevW && c == w0 && wr.isPrefixOf cs && noWordAhead (cs.drop wr.length) then
      repl ++ substWordAux w0 wr repl wr.length (isWordChar (wr.getLastD w0)) cs
    else
      c :: substWordAux w0 wr repl 0 (isWordChar c) cs

/-- One pass of `re.sub(r'\bW\b', repl, ·)`. -/
def substWord (w0 : Char) (wr repl : List Char) (p : Bool) (cs : List Char) : List Char :=
  substWordAux w0 wr repl 0 p cs

/-- Head-test used by the key-quoting scan: does the remaining text start
with a colon? -/
def headIsColon : List Char → Bool
  | [] => false
  | d :: _ => d == ':'

/-- Scanner for `re.sub(r'(\b[a-zA-Z_][a-zA-Z0-9_]*\b)\s*:', '"\1":', ·)`
(the `quote_keys` rewrite, bot.py lines 101-104): at a position opening an
identifier with a word boundary on its left, read the maximal identifier;
if optional whitespace followed by a colon comes next, the whole match
(identifier, whitespace, colon) is replaced by the quoted identifier and a
colon; otherwise the scan resumes directly after the identifier (inside
which no new match can start, the boundary assertion failing there).  The
`skip` counter consumes already-emitted or replaced characters, keeping
the recursion structural. -/
def quoteKeysAux : Nat → Bool → List Char → List Char
  | _, _, [] => []
  | Nat.succ skip, pw, _ :: cs => quoteKeysAux skip pw cs
  | 0, prevW, c :: cs =>
    if !prevW && identStart c then
      let idT := cs.takeWhile isWordChar
      let rest := cs.dropWhile isWordChar
      let rest2 := rest.dropWhile pySpace
      if headIsColon rest2 then
        '"' :: c :: idT ++ '"' :: ':' ::
          quoteKeysAux (idT.length + (rest.length - rest2.length) + 1) false cs
      else
        c :: idT ++ quoteKeysAux idT.length true cs
    else
      c :: quoteKeysAux 0 (isWordChar c) cs

/-- One pass of the `quote_keys` rewrite. -/
def quoteKeys (p : Bool) (cs : List Char) : List Char :=
  quoteKeysAux 0 p cs

/-- The full normalization pipeline of the fallback decode path
(bot.py lines 96-104): strip, rewrite `true`, `false`, `null`, then quote
identifier keys. -/
def normalizeJs (cs : List Char) : List Char :=
  quoteKeys false
    (substWord 'n' "ull".data "None".data false
      (substWord 'f' "alse".data "False".data false
        (substWord 't' "rue".data "True".data false (pyStrip cs))))

/-! ## The restricted `eval` of the fallback path (bot.py line 107)

`eval(s, {"__builtins__": {}})` parses `s` as a Python expression and
evaluates it with an empty global namespace.  The grammar fragment
modelled here covers everything the normalized literals can contain
(strings, non-negative decimal integers, `True`/`False`/`None`, lists,
dicts) plus enough genuine expression syntax — identifier references and
the binary `+` operator — to witness that the construct is an expression
evaluator rather than a pure literal reader.  Unmodelled Python forms
(floats, hex literals, other operators, comprehensions, attribute access,
...) simply fail to parse in the model; no theorem below depends on them.
Error messages are coarse stand-ins for CPython's (`str(e)` texts differ
in wording, not in presence).  A name lookup fails at evaluation time with
a NameError-style message, since the globals are empty. -/

inductive PyExpr where
  | str (s : String)
  | int (n : Nat)
  | bool (b : Bool)
  | none
  | name (s : String)
  | list (es : List PyExpr)
  | dict (kvs : List (PyExpr × PyExpr))
  | add (a b : PyExpr)

/-- Python string-literal escape: the standard single-character escapes;
an unknown escape keeps the backslash (as CPython does, with a warning). -/
def escChar (c : Char) : List Char :=
  if c = 'n' then ['\n'] else if c = 't' then ['\t'] else if c = 'r' then ['\r']
  else if c = '\\' then ['\\'] else if c = '\'' then ['\''] else if c = '"' then ['"']
  else if c = '0' then ['\x00'] else ['\\', c]

/-- Body of a double-quoted string literal, after the opening quote.
A raw newline ends the line and leaves the literal unterminated
(SyntaxError), as in Python. -/
def parseStrBody : List Char → Option (List Char × List Char)
  | [] => Option.none
  | '"' :: r => Option.some ([], r)
  | '\n' :: _ => Option.none
  | '\\' :: r =>
      match r with
      | [] => Option.none
      | e :: r2 => (parseStrBody r2).map (fun p => (escChar e ++ p.1, p.2))
  | c :: r => (parseStrBody r).map (fun p => (c :: p.1, p.2))

/-- Validity of a decimal integer token with Python 3.6 underscore
grouping: digits with single underscores between digit groups. -/
def digitsTail : List Char → Bool
  | [] => true
  | '_' :: c :: cs => c.isDigit && digitsTail (c :: cs)
  | '_' :: [] => false
  | c :: cs => c.isDigit && digitsTail cs

def digitsOk : List Char → Bool
  | [] => false
  | c :: cs => c.isDigit && digitsTail cs

def digitsToNat (cs : List Char) : Nat :=
  (cs.filter (fun c => !(c == '_'))).foldl (fun a c => a * 10 + (c.toNat - 48)) 0

/-- Token class of a numeric literal: digits and grouping underscores. -/
def numChar (c : Char) : Bool := c.isDigit || c == '_'

def skipWs (cs : List Char) : List Char := cs.dropWhile pySpace

mutual

/-- Expression: a sum of primaries (`primary (+ primary)*`), the fragment
of Python's expression grammar needed below. -/
def parseExpr : Nat → List Char → Except String (PyExpr × List Char)
  | 0, _ => Except.error "invalid syntax"
  | Nat.succ fuel, cs =>
    match parsePrimary fuel cs with
    | Except.error e => Except.error e
    | Except.ok (e, r) => parseSumTail fuel e r

def parseSumTail : Nat → PyExpr → List Char → Except String (PyExpr × List Char)
  | 0, _, _ => Except.error "invalid syntax"
  | Nat.succ fuel, acc, cs =>
    match skipWs cs with
    | '+' :: r =>
      match parsePrimary fuel r with
      | Except.error e => Except.error e
      | Except.ok (e2, r2) => parseSumTail fuel (PyExpr.add acc e2) r2
    | _ => Except.ok (acc, cs)

def parsePrimary : Nat → List Char → Except String (PyExpr × List Char)
  | 0, _ => Except.error "invalid syntax"
  | Nat.succ fuel, cs =>
    match skipWs cs with
    | [] => Except.error "unexpected EOF while parsing"
    | '"' :: r =>
        match parseStrBody r with
        | Option.some (s, r2) => Except.ok (PyExpr.str (String.mk s), r2)
        | Option.none => Except.error "unterminated string literal"
    | '[' :: r =>
        match parseElems fuel r with
        | Except.error e => Except.error e
        | Except.ok (es, r2) => Except.ok (PyExpr.list es, r2)
    | '\x7b' :: r =>
        match parseEntries fuel r with
        | Except.error e => Except.error e
        | Except.ok (kvs, r2) => Except.ok (PyExpr.dict kvs, r2)
    | c :: r =>
        if c.isDigit then
          if digitsOk ((c :: r).takeWhile numChar) then
            Except.ok (PyExpr.int (digitsToNat ((c :: r).takeWhile numChar)),
              (c :: r).dropWhile numChar)
          else Except.error "invalid decimal literal"
        else if identStart c then
          if (c :: r).takeWhile isWordChar = "True".data then
            Except.ok (PyExpr.bool true, (c :: r).dropWhile isWordChar)
          else if (c :: r).takeWhile isWordChar = "False".data then
            Except.ok (PyExpr.bool false, (c :: r).dropWhile isWordChar)
          else if (c :: r).takeWhile isWordChar = "None".data then
            Except.ok (PyExpr.none, (c :: r).dropWhile isWordChar)
          else
            Except.ok (PyExpr.name (String.mk ((c :: r).takeWhile isWordChar)),
              (c :: r).dropWhile isWordChar)
        else Except.error "invalid syntax"

/-- Elements of a list display, after the opening bracket; a trailing
comma before the closing bracket is allowed, as in Python. -/
def parseElems : Nat → List Char → Except String (List PyExpr × List Char)
  | 0, _ => Except.error "invalid syntax"
  | Nat.succ fuel, cs =>
    match skipWs cs with
    | ']' :: r => Except.ok ([], r)
    | _ =>
      match parseExpr fuel cs with
      | Except.error e => Except.error e
      | Except.ok (e, r) =>
        match skipWs r with
        | ',' :: r2 =>
            match parseElems fuel r2 with
            | Except.error e2 => Except.error e2
            | Except.ok (es, r3) => Except.ok (e :: es, r3)
        | ']' :: r2 => Except.ok ([e], r2)
        | _ => Except.error "invalid syntax"

/-- Entries of a dict display, after the opening brace; a trailing comma
is allowed. -/
def parseEntries : Nat → List Char → Except String (List (PyExpr × PyExpr) × List Char)
  | 0, _ => Except.error "invalid syntax"
  | Nat.succ fuel, cs =>
    match skipWs cs with
    | '\x7d' :: r => Except.ok ([], r)
    | _ =>
      match parseExpr fuel cs with
      | Except.error e => Except.error e
      | Except.ok (k, r) =>
        match skipWs r with
        | ':' :: r2 =>
          match parseExpr fuel r2 with
          | Except.error e => Except.error e
          | Except.ok (v, r3) =>
            match skipWs r3 with
            | ',' :: r4 =>
                match parseEntries fuel r4 with
                | Except.error e => Except.error e
                | Except.ok (es, r5) => Except.ok ((k, v) :: es, r5)
            | '\x7d' :: r4 => Except.ok ([(k, v)], r4)
            | _ => Except.error "invalid syntax"
        | _ => Except.error "invalid syntax"

end

/-- Parse a complete expression: trailing whitespace is allowed, anything
else after the expression is a syntax error.  The fuel `2·|s| + 4`
strictly dominates the recursion depth of the grammar on any input. -/
def pyParseTop (s : String) : Except String PyExpr :=
  match parseExpr (2 * s.length + 4) s.data with
  | Except.error e => Except.error e
  | Except.ok (e, r) =>
      if (skipWs r).isEmpty then Except.ok e else Except.error "invalid syntax"

/-- Python `+` on the modelled value shapes. -/
def pyAdd : PyVal → PyVal → Except String PyVal
  | .int a, .int b => Except.ok (.int (a + b))
  | .str a, .str b => Except.ok (.str (a ++ b))
  | .list a, .list b => Except.ok (.list (a ++ b))
  | .bool a, .bool b => Except.ok (.int ((if a then 1 else 0) + (if b then 1 else 0)))
  | .int a, .bool b => Except.ok (.int (a + (if b then 1 else 0)))
  | .bool a, .int b => Except.ok (.int ((if a then 1 else 0) + b))
  | _, _ => Except.error "unsupported operand type(s) for +"

/-- Python `==` on hashable (scalar) dict keys, including the numeric
identification of `bool` with `int`. -/
def scalarKeyEq : PyVal → PyVal → Bool
  | .str a, .str b => a == b
  | .int a, .int b => a == b
  | .bool a, .bool b => a == b
  | .int a, .bool b => a == (if b then (1 : Int) else 0)
  | .bool a, .int b => (if a then (1 : Int) else 0) == b
  | .none, .none => true
  | _, _ => false

/-- `d[k] = v` on the assoc-list dict: an existing equal key keeps its
position (and original key object) with the value updated; otherwise the
pair is appended. -/
def dictInsert (k v : PyVal) : List (PyVal × PyVal) → List (PyVal × PyVal)
  | [] => [(k, v)]
  | (k0, v0) :: rest =>
      if scalarKeyEq k0 k then (k0, v) :: rest else (k0, v0) :: dictInsert k v rest

mutual

/-- Evaluation with an empty global namespace.  The fuel dominates the
expression depth (CPython's recursion limit analogue); every use below
supplies fuel larger than the depth of the expression at hand. -/
def pyEval : Nat → PyExpr → Except String PyVal
  | 0, _ => Except.error "maximum recursion depth exceeded"
  | Nat.succ fuel, e =>
    match e with
    | .str s => Except.ok (.str s)
    | .int n => Except.ok (.int (Int.ofNat n))
    | .bool b => Except.ok (.bool b)
    | .none => Except.ok .none
    | .name s => Except.error ("name \x27" ++ s ++ "\x27 is not defined")
    | .add a b =>
        match pyEval fuel a with
        | Except.error e => Except.error e
        | Except.ok va =>
            match pyEval fuel b with
            | Except.error e => Except.error e
            | Except.ok vb => pyAdd va vb
    | .list es =>
        match pyEvalList fuel es with
        | Except.error e => Except.error e
        | Except.ok vs => Except.ok (.list vs)
    | .dict kvs => pyEvalEntries fuel [] kvs

def pyEvalList : Nat → List PyExpr → Except String (List PyVal)
  | 0, _ => Except.error "maximum recursion depth exceeded"
  | Nat.succ _, [] => Except.ok []
  | Nat.succ fuel, e :: es =>
      match pyEval fuel e with
      | Except.error err => Except.error err
      | Except.ok v =>
          match pyEvalList fuel es with
          | Except.error err => Except.error err
          | Except.ok vs => Except.ok (v :: vs)

def pyEvalEntries : Nat → List (PyVal × PyVal) → List (PyExpr × PyExpr) →
    Except String PyVal
  | 0, _, _ => Except.error "maximum recursion depth exceeded"
  | Nat.succ _, acc, [] => Except.ok (.dict acc)
  | Nat.succ fuel, acc, (ke, ve) :: rest =>
      match pyEval fuel ke with
      | Except.error err => Except.error err
      | Except.ok k =>
          match k with
          | .list _ => Except.error "unhashable type: \x27list\x27"
          | .dict _ => Except.error "unhashable type: \x27dict\x27"
          | _ =>
              match pyEval fuel ve with
              | Except.error err => Except.error err
              | Except.ok v => pyEvalEntries fuel (dictInsert k v acc) rest

end

/-- `eval` of a complete source text with empty globals: parse, then
evaluate. -/
def pyEvalStr (s : String) : Except String PyVal :=
  match pyParseTop s with
  | Except.error e => Except.error e
  | Except.ok e => pyEval (s.length + 4) e

/-- `js_apps_to_python` (bot.py lines 88-109) on the fallback path, i.e.
when the optional `json5` dependency (imported inside the function, not
declared by the repository) is unavailable: normalize the text, evaluate
it with empty globals, and wrap any failure in the
"Could not parse APPS array" error. -/
def js_apps_to_python_fb (s : String) : Except String PyVal :=
  match pyEvalStr (String.mk (normalizeJs s.data)) with
  | Except.ok v => Except.ok v
  | Except.error e =>
      Except.error ("Could not parse APPS array. Please install `json5`. Error: " ++ e)

/-! ## Field Extractor/Rewriter: the regex patterns of `LPData.load` /
`LPData.save` (bot.py lines 152-227)

Each pattern the source uses is a sequence of literal pieces, whitespace
classes (`\s+` / `\s*`), optional literals (`"?`), and one capturing
group that is either lazy (`(.*?)`), a non-quote run (`([^"]+)`) or a
digit run (`([0-9]+)`).  For these patterns the regex engine is
deterministic: a maximal whitespace or character-class run can never be
profitably backtracked because the following literal starts with a
character outside the class, and a lazy group extends exactly until the
first position where its right context matches.  `re.search` scans for
the leftmost match; `re.sub` replaces every non-overlapping match, left
to right.  Without `re.DOTALL`, `.` does not match a newline: a lazy scan
that hits a newline before its right context fails at that start
position. -/

inductive Atom where
  | lit (s : List Char)
  | ws1
  | ws0
  | opt (s : List Char)

def matchAtom : Atom → List Char → Option (List Char × List Char)
  | .lit s, cs => if s.isPrefixOf cs then Option.some (s, cs.drop s.length) else Option.none
  | .ws1, cs =>
      if (cs.takeWhile pySpace).isEmpty then Option.none
      else Option.some (cs.takeWhile pySpace, cs.dropWhile pySpace)
  | .ws0, cs => Option.some (cs.takeWhile pySpace, cs.dropWhile pySpace)
  | .opt s, cs => if s.isPrefixOf cs then Option.some (s, cs.drop s.length)
      else Option.some ([], cs)

def matchAtoms : List Atom → List Char → Option (List Char × List Char)
  | [], cs => Option.some ([], cs)
  | a :: as, cs =>
      match matchAtom a cs with
      | Option.none => Option.none
      | Option.some (t, r) =>
          match matchAtoms as r with
          | Option.none => Option.none
          | Option.some (t2, r2) => Option.some (t ++ t2, r2)

inductive Cap where
  | lazyAny (dotall : Bool)
  | notQuote1
  | digits1

structure Pat where
  pre : List Atom
  capL : List Char
  cap : Cap
  capR : List Char
  post : List Atom

/-- The lazy scan of `(.*?)` followed by the literal `capR` and the atoms
`post`: the shortest inner run after which the right context matches.
Without DOTALL the run may not contain a newline. -/
def lazyStop (capR : List Char) (post : List Atom) (cs : List Char) :
    Option (List Char × List Char) :=
  if capR.isPrefixOf cs then matchAtoms post (cs.drop capR.length) else Option.none

def lazyScan (dotall : Bool) (capR : List Char) (post : List Atom) :
    List Char → Option (List Char × List Char × List Char)
  | [] =>
      match lazyStop capR post [] with
      | Option.some (pt, r) => Option.some ([], pt, r)
      | Option.none => Option.none
  | c :: cs2 =>
      match lazyStop capR post (c :: cs2) with
      | Option.some (pt, r) => Option.some ([], pt, r)
      | Option.none =>
          if !dotall && c = '\n' then Option.none
          else
            match lazyScan dotall capR post cs2 with
            | Option.none => Option.none
            | Option.some (i, pt, r) => Option.some (c :: i, pt, r)

structure PatRes where
  preT : List Char
  inner : List Char
  postT : List Char
  rest : List Char
deriving DecidableEq

def notQuote (c : Char) : Bool := !(c == '"')

/-- Try to match a whole pattern at the current position. -/
def patMatchAt (p : Pat) (cs : List Char) : Option PatRes :=
  match matchAtoms p.pre cs with
  | Option.none => Option.none
  | Option.some (pt, r1) =>
      if p.capL.isPrefixOf r1 then
        match p.cap with
        | .lazyAny d =>
            match lazyScan d p.capR p.post (r1.drop p.capL.length) with
            | Option.none => Option.none
            | Option.some (i, postT, rest) => Option.some ⟨pt, i, postT, rest⟩
        | .notQuote1 =>
            if ((r1.drop p.capL.length).takeWhile notQuote).isEmpty then Option.none
            else if p.capR.isPrefixOf ((r1.drop p.capL.length).dropWhile notQuote) then
              match matchAtoms p.post
                  (((r1.drop p.capL.length).dropWhile notQuote).drop p.capR.length) with
              | Option.none => Option.none
              | Option.some (postT, rest) =>
                  Option.some ⟨pt, (r1.drop p.capL.length).takeWhile notQuote, postT, rest⟩
            else Option.none
        | .digits1 =>
            if ((r1.drop p.capL.length).takeWhile Char.isDigit).isEmpty then Option.none
            else if p.capR.isPrefixOf ((r1.drop p.capL.length).dropWhile Char.isDigit) then
              match matchAtoms p.post
                  (((r1.drop p.capL.length).dropWhile Char.isDigit).drop p.capR.length) with
              | Option.none => Option.none
              | Option.some (postT, rest) =>
                  Option.some ⟨pt, (r1.drop p.capL.length).takeWhile Char.isDigit, postT, rest⟩
            else Option.none
      else Option.none

/-- `re.search`: the leftmost position with a match. -/
def searchPat (p : Pat) : List Char → Option (List Char × PatRes)
  | [] =>
      match patMatchAt p [] with
      | Option.some r => Option.some ([], r)
      | Option.none => Option.none
  | c :: cs2 =>
      match patMatchAt p (c :: cs2) with
      | Option.some r => Option.some ([], r)
      | Option.none =>
          match searchPat p cs2 with
          | Option.none => Option.none
          | Option.some (b, r) => Option.some (c :: b, r)

/-- `re.sub`: replace every non-overlapping match, left to right.  With
`keep = true` the replacement template is `\1 repl \3` (the captured
group, delimiters included, is replaced); with `keep = false` the whole
match is replaced (the `APPS` rewrite).  The inserted `repl` is taken
literally: backslash escape processing of `re.sub` templates is outside
the modelled domain, and every theorem below keeps `repl` backslash-free.
The fuel exceeds the text length, and every match consumes at least one
character, so it never runs out. -/
def subPatAux (p : Pat) (keep : Bool) (repl : List Char) : Nat → List Char → List Char
  | 0, cs => cs
  | Nat.succ fuel, cs =>
      match searchPat p cs with
      | Option.none => cs
      | Option.some (before, r) =>
          before ++ (if keep then r.preT ++ repl ++ r.postT else repl)
            ++ subPatAux p keep repl fuel r.rest

def subPat (p : Pat) (keep : Bool) (repl : List Char) (cs : List Char) : List Char :=
  subPatAux p keep repl (cs.length + 1) cs

/-! ### The concrete patterns (bot.py lines 159-224) -/

def logoPat : Pat :=
  ⟨[.lit "<img".data, .ws1, .lit "class=\"logo\"".data, .ws1, .lit "src=\"".data],
   [], .notQuote1, [], [.lit "\"".data]⟩

def h1Pat : Pat := ⟨[.lit "<h1>".data], [], .lazyAny true, [], [.lit "</h1>".data]⟩

def taglineLoadPat : Pat :=
  ⟨[.lit "<p class=\"tagline\">".data], [], .lazyAny true, [], [.lit "</p>".data]⟩

def taglineSavePat : Pat :=
  ⟨[.lit "<p".data, .ws1, .lit "class=\"tagline\">".data], [], .lazyAny true, [],
   [.lit "</p>".data]⟩

def titlePat : Pat := ⟨[.lit "<title>".data], [], .lazyAny true, [], [.lit "</title>".data]⟩

/-- `<meta name="NM" content="(.*?)"`; load searches with DOTALL, save
substitutes without. -/
def metaNamePat (nm : String) (dotall : Bool) : Pat :=
  ⟨[.lit "<meta".data, .ws1, .lit ("name=\"" ++ nm ++ "\"").data, .ws1, .lit "content=\"".data],
   [], .lazyAny dotall, [], [.lit "\"".data]⟩

def ogPat (dotall : Bool) : Pat :=
  ⟨[.lit "<meta".data, .ws1, .lit "property=\"og:image\"".data, .ws1, .lit "content=\"".data],
   [], .lazyAny dotall, [], [.lit "\"".data]⟩

/-- Load: `var\s+CPABUILDSETTINGS\s*=\s*({.*?});` — the captured group
includes the braces; the semicolon must follow the brace immediately. -/
def setLoadPat : Pat :=
  ⟨[.lit "var".data, .ws1, .lit "CPABUILDSETTINGS".data, .ws0, .lit "=".data, .ws0],
   "\x7b".data, .lazyAny true, "\x7d".data, [.lit ";".data]⟩

/-- Save: `(var\s+CPABUILDSETTINGS\s*=\s*)({.*?})(\s*;)` — whitespace is
allowed between the brace and the semicolon. -/
def setSavePat : Pat :=
  ⟨[.lit "var".data, .ws1, .lit "CPABUILDSETTINGS".data, .ws0, .lit "=".data, .ws0],
   "\x7b".data, .lazyAny true, "\x7d".data, [.ws0, .lit ";".data]⟩

/-- `const\s+APPS\s*=\s*\[(.*?)\];` — identical in load and save. -/
def appsPat : Pat :=
  ⟨[.lit "const".data, .ws1, .lit "APPS".data, .ws0, .lit "=".data, .ws0, .lit "[".data],
   [], .lazyAny true, [], [.lit "];".data]⟩

/-- `"?it"?\s*:\s*([0-9]+)` — the settings sub-field fallback. -/
def itPat : Pat :=
  ⟨[.opt "\"".data, .lit "it".data, .opt "\"".data, .ws0, .lit ":".data, .ws0],
   [], .digits1, [], []⟩

/-- `"?key"?\s*:\s*"([^"]+)"`. -/
def keyPat : Pat :=
  ⟨[.opt "\"".data, .lit "key".data, .opt "\"".data, .ws0, .lit ":".data, .ws0, .lit "\"".data],
   [], .notQuote1, [], [.lit "\"".data]⟩

/-! ## Strict JSON parsing and emission for the settings object

`LPData.load` first tries `json.loads` on the captured settings braces;
`LPData.save` re-emits the settings with `json.dumps`.  The model covers
the JSON fragment exercised here: objects, arrays, strings with the
standard escapes (`\uXXXX` resolved for scalar code points), integers,
and the three keyword literals.  Fractional and exponent number forms are
outside the modelled fragment (no theorem below touches them). -/

def jsonWs (c : Char) : Bool := c = ' ' || c = '\t' || c = '\n' || c = '\r'

def jskip (cs : List Char) : List Char := cs.dropWhile jsonWs

def hexVal (c : Char) : Option Nat :=
  if c.isDigit then Option.some (c.toNat - 48)
  else if 'a' ≤ c && c ≤ 'f' then Option.some (c.toNat - 87)
  else if 'A' ≤ c && c ≤ 'F' then Option.some (c.toNat - 55)
  else Option.none

def jsonStrBody : List Char → Option (List Char × List Char)
  | [] => Option.none
  | '"' :: r => Option.some ([], r)
  | '\\' :: 'u' :: h1 :: h2 :: h3 :: h4 :: r =>
      match hexVal h1, hexVal h2, hexVal h3, hexVal h4 with
      | Option.some a, Option.some b, Option.some c, Option.some d =>
          (jsonStrBody r).map (fun p =>
            (Char.ofNat (((a * 16 + b) * 16 + c) * 16 + d) :: p.1, p.2))
      | _, _, _, _ => Option.none
  | '\\' :: e :: r =>
      if e = '"' then (jsonStrBody r).map (fun p => ('"' :: p.1, p.2))
      else if e = '\\' then (jsonStrBody r).map (fun p => ('\\' :: p.1, p.2))
      else if e = '/' then (jsonStrBody r).map (fun p => ('/' :: p.1, p.2))
      else if e = 'n' then (jsonStrBody r).map (fun p => ('\n' :: p.1, p.2))
      else if e = 't' then (jsonStrBody r).map (fun p => ('\t' :: p.1, p.2))
      else if e = 'r' then (jsonStrBody r).map (fun p => ('\r' :: p.1, p.2))
      else if e = 'b' then (jsonStrBody r).map (fun p => ('\x08' :: p.1, p.2))
      else if e = 'f' then (jsonStrBody r).map (fun p => ('\x0c' :: p.1, p.2))
      else Option.none
  | c :: r =>
      if c.toNat < 32 then Option.none
      else (jsonStrBody r).map (fun p => (c :: p.1, p.2))

/-- A JSON integer (optional minus, digit run, no fraction/exponent). -/
def jsonInt : List Char → Option (Int × List Char)
  | '-' :: r =>
      if (r.takeWhile Char.isDigit).isEmpty then Option.none
      else Option.some (-(Int.ofNat (digitsToNat (r.takeWhile Char.isDigit))),
        r.dropWhile Char.isDigit)
  | cs =>
      if (cs.takeWhile Char.isDigit).isEmpty then Option.none
      else Option.some (Int.ofNat (digitsToNat (cs.takeWhile Char.isDigit)),
        cs.dropWhile Char.isDigit)

mutual

def jsonVal : Nat → List Char → Except String (PyVal × List Char)
  | 0, _ => Except.error "Expecting value"
  | Nat.succ fuel, cs =>
    match jskip cs with
    | [] => Except.error "Expecting value"
    | '"' :: r =>
        match jsonStrBody r with
        | Option.some (s, r2) => Except.ok (PyVal.str (String.mk s), r2)
        | Option.none => Except.error "Unterminated string"
    | '[' :: r =>
        match jsonArr fuel r with
        | Except.error e => Except.error e
        | Except.ok (xs, r2) => Except.ok (PyVal.list xs, r2)
    | '\x7b' :: r =>
        match jsonMembers fuel [] r with
        | Except.error e => Except.error e
        | Except.ok (kvs, r2) => Except.ok (PyVal.dict kvs, r2)
    | 't' :: 'r' :: 'u' :: 'e' :: r => Except.ok (PyVal.bool true, r)
    | 'f' :: 'a' :: 'l' :: 's' :: 'e' :: r => Except.ok (PyVal.bool false, r)
    | 'n' :: 'u' :: 'l' :: 'l' :: r => Except.ok (PyVal.none, r)
    | cs2 =>
        match jsonInt cs2 with
        | Option.some (n, r) =>
            match r with
            | '.' :: _ => Except.error "float literals are outside the modelled fragment"
            | 'e' :: _ => Except.error "float literals are outside the modelled fragment"
            | 'E' :: _ => Except.error "float literals are outside the modelled fragment"
            | _ => Except.ok (PyVal.int n, r)
        | Option.none => Except.error "Expecting value"

def jsonArr : Nat → List Char → Except String (List PyVal × List Char)
  | 0, _ => Except.error "Expecting value"
  | Nat.succ fuel, cs =>
    match jskip cs with
    | ']' :: r => Except.ok ([], r)
    | _ =>
      match jsonVal fuel cs with
      | Except.error e => Except.error e
      | Except.ok (v, r) =>
          match jskip r with
          | ',' :: r2 =>
              match jsonArr fuel r2 with
              | Except.error e => Except.error e
              | Except.ok (vs, r3) =>
                  match vs with
                  | [] => Except.error "Expecting value"
                  | _ => Except.ok (v :: vs, r3)
          | ']' :: r2 => Except.ok ([v], r2)
          | _ => Except.error "Expecting delimiter"

def jsonMembers : Nat → List (PyVal × PyVal) → List Char →
    Except String (List (PyVal × PyVal) × List Char)
  | 0, _, _ => Except.error "Expecting value"
  | Nat.succ fuel, acc, cs =>
    match jskip cs with
    | '\x7d' :: r =>
        match acc with
        | [] => Except.ok ([], r)
        | _ => Except.error "Expecting property name"
    | '"' :: r =>
        match jsonStrBody r with
        | Option.none => Except.error "Unterminated string"
        | Option.some (k, r2) =>
            match jskip r2 with
            | ':' :: r3 =>
                match jsonVal fuel r3 with
                | Except.error e => Except.error e
                | Except.ok (v, r4) =>
                    match jskip r4 with
                    | ',' :: r5 => jsonMembers fuel (dictInsert (PyVal.str (String.mk k)) v acc) r5
                    | '\x7d' :: r5 =>
                        Except.ok (dictInsert (PyVal.str (String.mk k)) v acc, r5)
                    | _ => Except.error "Expecting delimiter"
            | _ => Except.error "Expecting colon"
    | _ => Except.error "Expecting property name"

end

/-- `json.loads`, on the modelled fragment; trailing text is an error. -/
def jsonLoads (cs : List Char) : Except String PyVal :=
  match jsonVal (2 * cs.length + 4) cs with
  | Except.error e => Except.error e
  | Except.ok (v, r) =>
      if (jskip r).isEmpty then Except.ok v else Except.error "Extra data"

/-! ### `json.dumps` of the settings object and `int()` coercion -/

def hexDigitChar (n : Nat) : Char :=
  if n < 10 then Char.ofNat (48 + n) else Char.ofNat (87 + (n - 10))

def hex4 (n : Nat) : List Char :=
  [hexDigitChar (n / 4096 % 16), hexDigitChar (n / 256 % 16),
   hexDigitChar (n / 16 % 16), hexDigitChar (n % 16)]

/-- `json.dumps` escaping of one character (`ensure_ascii=True`). -/
def escJsonChar (c : Char) : List Char :=
  if c = '"' then ['\\', '"']
  else if c = '\\' then ['\\', '\\']
  else if c = '\n' then ['\\', 'n']
  else if c = '\t' then ['\\', 't']
  else if c = '\r' then ['\\', 'r']
  else if c = '\x08' then ['\\', 'b']
  else if c = '\x0c' then ['\\', 'f']
  else if c.toNat < 32 then '\\' :: 'u' :: hex4 c.toNat
  else if c.toNat < 127 then [c]
  else if c.toNat < 65536 then '\\' :: 'u' :: hex4 c.toNat
  else
    ('\\' :: 'u' :: hex4 (55296 + (c.toNat - 65536) / 1024))
      ++ ('\\' :: 'u' :: hex4 (56320 + (c.toNat - 65536) % 1024))

def jsonDumpStr (s : String) : String :=
  "\"" ++ String.mk (s.data.foldr (fun c acc => escJsonChar c ++ acc) []) ++ "\""

/-- Python `int(str)` (base 10): optional surrounding ASCII whitespace,
optional sign, a digit run with Python 3.6 underscore grouping; anything
else raises `ValueError`.  Unicode digits and whitespace are outside the
modelled (ASCII) domain. -/
def pyIntStr (s : String) : Except String Int :=
  let t := pyStrip s.data
  let core : Except String Int :=
    match t with
    | '-' :: r => if digitsOk r then Except.ok (-(Int.ofNat (digitsToNat r)))
        else Except.error ("invalid literal for int() with base 10: \x27" ++ s ++ "\x27")
    | '+' :: r => if digitsOk r then Except.ok (Int.ofNat (digitsToNat r))
        else Except.error ("invalid literal for int() with base 10: \x27" ++ s ++ "\x27")
    | r => if digitsOk r then Except.ok (Int.ofNat (digitsToNat r))
        else Except.error ("invalid literal for int() with base 10: \x27" ++ s ++ "\x27")
  core

/-- The settings literal emitted by `LPData.save` (bot.py line 220):
`json.dumps({"it": int(self.cpab_it or 0), "key": self.cpab_key or ""})`.
An empty `cpab_it` is falsy, so `or` supplies the integer `0`; a
non-empty string goes through `int()`, which raises on non-numeric text.
`self.cpab_key or ""` is the key itself when non-empty and `""`
otherwise — the identity on strings. -/
def settingsJson (it key : String) : Except String String :=
  match (if it = "" then Except.ok (0 : Int) else pyIntStr it) with
  | Except.error e => Except.error e
  | Except.ok n =>
      Except.ok ("\x7b\"it\": " ++ toString n ++ ", \"key\": " ++ jsonDumpStr key ++ "\x7d")

/-! ## The document model: `LPData.load` and `LPData.save` -/

/-- The in-memory state of `LPData` (bot.py lines 137-150): the document
text, the ten string fields, and the decoded apps value (whatever the
codec returned; `[]`, i.e. `PyVal.list []`, when the marker is absent). -/
structure LPState where
  html : String
  logo_src : String
  h1_title : String
  tagline : String
  meta_title : String
  meta_desc : String
  meta_keywords : String
  og_image : String
  twitter_image : String
  cpab_it : String
  cpab_key : String
  apps : PyVal

/-- First-match extraction of one field's captured group (`regex_search`
+ `m.group(1)`), with the empty-string default of `LPData.__init__` when
the marker is absent. -/
def extractField (p : Pat) (cs : List Char) : String :=
  match searchPat p cs with
  | Option.some (_, r) => String.mk r.inner
  | Option.none => ""

/-- The settings pair extracted by `LPData.load` (bot.py lines 183-193):
locate the braces; try `json.loads` and read `it` / `key` with
`str(obj.get(·, ""))`; if parsing (or the attribute access, for a
non-dict value) fails, fall back to the two sub-field regexes, each
leaving the `""` default in place when it does not match. -/
def extractSettings (cs : List Char) : String × String :=
  match searchPat setLoadPat cs with
  | Option.none => ("", "")
  | Option.some (_, r) =>
      match jsonLoads ('\x7b' :: r.inner ++ ['\x7d']) with
      | Except.ok (PyVal.dict d) =>
          (pyStrOf (dictGet d "it" (PyVal.str "")), pyStrOf (dictGet d "key" (PyVal.str "")))
      | _ =>
          (match searchPat itPat ('\x7b' :: r.inner ++ ['\x7d']) with
           | Option.some (_, ri) => String.mk ri.inner
           | Option.none => "",
           match searchPat keyPat ('\x7b' :: r.inner ++ ['\x7d']) with
           | Option.some (_, rk) => String.mk rk.inner
           | Option.none => "")

/-- `LPData.load` (bot.py lines 152-200) on an already-read document
text: extract every field (missing markers defaulting to `""`), then
decode the `APPS` literal, re-bracketed, through the codec; a codec
failure propagates out of `load` as the raised `ValueError`. -/
def loadModel (doc : String) : Except String LPState :=
  match searchPat appsPat doc.data with
  | Option.some (_, r) =>
      match js_apps_to_python_fb (String.mk ('[' :: r.inner ++ [']'])) with
      | Except.error e => Except.error e
      | Except.ok apps =>
          Except.ok
            { html := doc
              logo_src := extractField logoPat doc.data
              h1_title := extractField h1Pat doc.data
              tagline := extractField taglineLoadPat doc.data
              meta_title := extractField titlePat doc.data
              meta_desc := extractField (metaNamePat "description" true) doc.data
              meta_keywords := extractField (metaNamePat "keywords" true) doc.data
              og_image := extractField (ogPat true) doc.data
              twitter_image := extractField (metaNamePat "twitter:image" true) doc.data
              cpab_it := (extractSettings doc.data).1
              cpab_key := (extractSettings doc.data).2
              apps := apps }
  | Option.none =>
      Except.ok
        { html := doc
          logo_src := extractField logoPat doc.data
          h1_title := extractField h1Pat doc.data
          tagline := extractField taglineLoadPat doc.data
          meta_title := extractField titlePat doc.data
          meta_desc := extractField (metaNamePat "description" true) doc.data
          meta_keywords := extractField (metaNamePat "keywords" true) doc.data
          og_image := extractField (ogPat true) doc.data
          twitter_image := extractField (metaNamePat "twitter:image" true) doc.data
          cpab_it := (extractSettings doc.data).1
          cpab_key := (extractSettings doc.data).2
          apps := PyVal.list [] }

/-- The apps value as a list of record dicts, as `python_apps_to_js`
requires; any other shape makes the save path raise (in the source the
exception surfaces inside `python_apps_to_js` / the GUI; here it is
surfaced when entering the encoder). -/
def asPydicts : PyVal → Option (List Pydict)
  | PyVal.list xs =>
      xs.mapM (fun x => match x with
        | PyVal.dict d => Option.some d
        | _ => Option.none)
  | _ => Option.none

/-- `LPData.save` (bot.py lines 202-227), up to the file write: the four
always-substituted fields, the four meta fields guarded by non-emptiness,
the normalized settings literal (raising on a non-numeric stored `it`),
and the freshly encoded `APPS` declaration replacing the whole matched
declaration. -/
def saveModel (st : LPState) : Except String String :=
  let h0 := st.html.data
  let h1 := subPat logoPat true st.logo_src.data h0
  let h2 := subPat h1Pat true st.h1_title.data h1
  let h3 := subPat taglineSavePat true st.tagline.data h2
  let h4 := subPat titlePat true st.meta_title.data h3
  let h5 := if st.meta_desc = "" then h4
    else subPat (metaNamePat "description" false) true st.meta_desc.data h4
  let h6 := if st.meta_keywords = "" then h5
    else subPat (metaNamePat "keywords" false) true st.meta_keywords.data h5
  let h7 := if st.og_image = "" then h6
    else subPat (ogPat false) true st.og_image.data h6
  let h8 := if st.twitter_image = "" then h7
    else subPat (metaNamePat "twitter:image" false) true st.twitter_image.data h7
  match settingsJson st.cpab_it st.cpab_key with
  | Except.error e => Except.error e
  | Except.ok js =>
      let h9 := subPat setSavePat true js.data h8
      match asPydicts st.apps with
      | Option.none => Except.error "AttributeError: apps entries are not dicts"
      | Option.some ds =>
          Except.ok (String.mk (subPat appsPat false (python_apps_to_js ds).data h9))

/-- The session entry point (`main`, bot.py lines 859-865): construct the
state and `load` the document inside a `try`; any exception is shown to
the user and `main` returns — no editing session is created.  A session
exists exactly when `load` succeeds. -/
def mainSession (doc : String) : Except String LPState :=
  loadModel doc

/-! ## The file write (`write_file`, bot.py lines 80-82)

`open(path, "w")` truncates the destination in place and the content is
then written to the same file.  The outcome parameter injects the
possible failure points of this interaction: opening can fail with the
file untouched (permissions), or the write can fail after `k` characters
(disk full, interruption) — the file then holds exactly the prefix
written so far, the rest of the prior content having been discarded by
the truncation. -/

inductive WriteOutcome where
  | success
  | failAtOpen
  | failDuring (k : Nat)

/-- The destination file's content after `write_file(path, content)` runs
against a file previously holding `orig`, together with whether the call
succeeded. -/
def write_file_model (orig content : String) : WriteOutcome → String × Bool
  | WriteOutcome.success => (content, true)
  | WriteOutcome.failAtOpen => (orig, false)
  | WriteOutcome.failDuring k => (String.mk (content.data.take k), false)

/-! ## Claim theorems -/

/-- The record view of a decoded dict, via the uniform `.get`-with-default
access the code applies everywhere it reads a record
(`python_apps_to_js` lines 122-128, `refresh_tree` lines 617-622,
`AppDialog` lines 768-773). -/
def recordOfDict (d : Pydict) : AppRecord :=
  { name := pyStrOf (dictGet d "name" (PyVal.str ""))
    icon := pyStrOf (dictGet d "icon" (PyVal.str ""))
    locker_id := pyStrOf (dictGet d "locker_id" (PyVal.str ""))
    platforms := (pyIter (dictGet d "platforms" (PyVal.list []))).map pyStrOf
    trending := pyTruthy (dictGet d "trending" (PyVal.bool false))
    featured := pyTruthy (dictGet d "featured" (PyVal.bool false)) }

/-- A pattern occurs at most once in a text: after the first match, the
remainder holds no further match (`re.sub` then rewrites one span only). -/
def atMostOnceB (p : Pat) (cs : List Char) : Bool :=
  match searchPat p cs with
  | Option.none => true
  | Option.some (_, r) => (searchPat p r.rest).isNone

/-! ## Definitions for the codec round trip (claim C2) -/

/-- Does `pat` occur as a contiguous substring? -/
def hasSub (pat : List Char) : List Char → Bool
  | [] => pat.isEmpty
  | c :: cs => pat.isPrefixOf (c :: cs) || hasSub pat cs

/-- Supported value domain of the codec round trip: no double quote (ends
the literal early), no backslash (re-escaped on decode), no newline
(terminates the string literal), no colon (the key-quoting rewrite can
fire inside values), and no occurrence of the word-rewrite triggers
`true`/`false`/`null` (rewritten even inside quoted values). -/
def goodStr (s : String) : Bool :=
  s.data.all (fun c => !(c == '"') && !(c == '\\') && !(c == '\n') && !(c == ':'))
    && !(hasSub "true".data s.data) && !(hasSub "false".data s.data)
    && !(hasSub "null".data s.data)

def goodRec (r : AppRecord) : Bool :=
  goodStr r.name && goodStr r.icon && goodStr r.locker_id && r.platforms.all goodStr

/-- The bracketed comma-separated platform values, as the encoder renders
them between `[` and `]`. -/
def platBody : List String → List Char
  | [] => []
  | [p] => '"' :: p.data ++ ['"']
  | p :: q :: ps => '"' :: p.data ++ '"' :: ',' :: ' ' :: platBody (q :: ps)

def pN : List Char := "\n    name: ".data

def pI : List Char := ",\n    icon: ".data

def pL : List Char := ",\n    locker_id: ".data

def pP : List Char := ",\n    platforms: ".data

def pTail (t f : String) (b1 b2 : Bool) : List Char :=
  ",\n    trending: ".data ++ (if b1 then t.data else f.data)
    ++ ",\n    featured: ".data ++ (if b2 then t.data else f.data) ++ "\n  \x7d".data

def pNq : List Char := "\n    \"name\": ".data

def pIq : List Char := ",\n    \"icon\": ".data

def pLq : List Char := ",\n    \"locker_id\": ".data

def pPq : List Char := ",\n    \"platforms\": ".data

def pTailq (t f : String) (b1 b2 : Bool) : List Char :=
  ",\n    \"trending\": ".data ++ (if b1 then t.data else f.data)
    ++ ",\n    \"featured\": ".data ++ (if b2 then t.data else f.data) ++ "\n  \x7d".data

/-- One record of the array literal after the opening brace, raw keys. -/
def chunkInnerR (t f : String) (r : AppRecord) : List Char :=
  pN ++ '"' :: (r.name.data ++ '"' :: (pI ++ '"' :: (r.icon.data ++ '"' :: (pL
    ++ '"' :: (r.locker_id.data ++ '"' :: (pP ++ '[' :: (platBody r.platforms
    ++ ']' :: pTail t f r.trending r.featured)))))))

/-- The same record chunk with the keys quoted (after normalization). -/
def chunkInnerQ (t f : String) (r : AppRecord) : List Char :=
  pNq ++ '"' :: (r.name.data ++ '"' :: (pIq ++ '"' :: (r.icon.data ++ '"' :: (pLq
    ++ '"' :: (r.locker_id.data ++ '"' :: (pPq ++ '[' :: (platBody r.platforms
    ++ ']' :: pTailq t f r.trending r.featured)))))))

def chunkBR (t f : String) (r : AppRecord) : List Char :=
  '\n' :: ' ' :: ' ' :: '\x7b' :: chunkInnerR t f r

def chunkBQ (t f : String) (r : AppRecord) : List Char :=
  '\n' :: ' ' :: ' ' :: '\x7b' :: chunkInnerQ t f r

/-- The literal's interior (between the wrapper's `[` and `];`): each
record chunk followed by a comma, then the final newline. -/
def chunksTR (t f : String) : List AppRecord → List Char
  | [] => ['\n']
  | r :: rs => chunkBR t f r ++ ',' :: chunksTR t f rs

def chunksTQ (t f : String) : List AppRecord → List Char
  | [] => ['\n']
  | r :: rs => chunkBQ t f r ++ ',' :: chunksTQ t f rs

/-- The interior text `encode` places between `const APPS = [` and `];`. -/
def appsInterior (rs : List AppRecord) : String :=
  String.mk (chunksTR "true" "false" rs)

/-- `decode` of §4.2: the literal's interior text, re-bracketed exactly as
`LPData.load` does, through `js_apps_to_python` (fallback path), the
entries read back as Records. -/
def decodeApps (interior : String) : Except String (List AppRecord) :=
  match js_apps_to_python_fb ("[" ++ interior ++ "]") with
  | Except.error e => Except.error e
  | Except.ok v =>
      match asPydicts v with
      | Option.some ds => Except.ok (ds.map recordOfDict)
      | Option.none => Except.error "AttributeError: apps entries are not dicts"

def strOk (v : List Char) : Bool :=
  v.all (fun c => !(c == '"') && !(c == '\\') && !(c == '\n'))

def noPlus (k : List Char) : Bool :=
  match skipWs k with
  | '+' :: _ => false
  | _ => true

/-! ### From the quoted template to the parsed expression -/

/-- The expression the parser recovers for one record dict. -/
def recordExprE (r : AppRecord) : PyExpr :=
  PyExpr.dict
    [(PyExpr.str "name", PyExpr.str r.name), (PyExpr.str "icon", PyExpr.str r.icon),
     (PyExpr.str "locker_id", PyExpr.str r.locker_id),
     (PyExpr.str "platforms", PyExpr.list (r.platforms.map (fun p => PyExpr.str p))),
     (PyExpr.str "trending", PyExpr.bool r.trending),
     (PyExpr.str "featured", PyExpr.bool r.featured)]

/-- Fuel sufficient for parsing (and evaluating) the record chunks. -/
def recNeed : List AppRecord → Nat
  | [] => 2
  | r :: rs => r.platforms.length + recNeed rs + 13

theorem intercalate_go_eq (s : String) :
    ∀ (l : List String) (acc : String), String.intercalate.go acc s l = acc ++ sepcat s l := by
  intro l
  induction l with
  | nil => intro acc; simp [String.intercalate.go, sepcat]
  | cons a as ih =>
      intro acc
      simp only [String.intercalate.go, sepcat, ih, String.append_assoc]

theorem intercalate_eq_sepcat (s a : String) (l : List String) :
    String.intercalate s (a :: l) = a ++ sepcat s l := by
  have h := intercalate_go_eq s l a
  simpa [String.intercalate] using h

theorem sepcat_append (s : String) (l1 l2 : List String) :
    sepcat s (l1 ++ l2) = sepcat s l1 ++ sepcat s l2 := by
  induction l1 with
  | nil => simp [sepcat]
  | cons a as ih => simp [sepcat, ih, String.append_assoc]

theorem sepcat_recordLines (r : AppRecord) :
    sepcat "\n" (recordLines (recordDict r)) = recordBlockSpec r := by
  have hname : dictGet (recordDict r) "name" (PyVal.str "") = PyVal.str r.name := rfl
  have hicon : dictGet (recordDict r) "icon" (PyVal.str "") = PyVal.str r.icon := rfl
  have hlock : dictGet (recordDict r) "locker_id" (PyVal.str "") = PyVal.str r.locker_id := rfl
  have hplat : dictGet (recordDict r) "platforms" (PyVal.list [])
      = PyVal.list (r.platforms.map PyVal.str) := rfl
  have htren : dictGet (recordDict r) "trending" (PyVal.bool false) = PyVal.bool r.trending := rfl
  have hfeat : dictGet (recordDict r) "featured" (PyVal.bool false) = PyVal.bool r.featured := rfl
  have hmap : (r.platforms.map PyVal.str).map (fun x => "\"" ++ pyStrOf x ++ "\"")
      = r.platforms.map (fun p => "\"" ++ p ++ "\"") := by
    rw [List.map_map]
    exact List.map_congr_left (fun p _ => by simp [Function.comp, pyStrOf])
  have hpl : py_list (pyIter (PyVal.list (r.platforms.map PyVal.str)))
      = "[" ++ String.intercalate ", " (r.platforms.map (fun p => "\"" ++ p ++ "\"")) ++ "]" := by
    simp only [py_list, pyIter, hmap]
  simp only [recordLines, sepcat, hname, hicon, hlock, hplat, htren, hfeat, hpl,
    recordBlockSpec, pyStrOf, pyTruthy, String.append_assoc, String.append_empty]

/-- **C9.** For every record sequence, `python_apps_to_js` emits one
object per record with fields in the fixed order name, icon, locker_id,
platforms, trending, featured; string values double-quoted with no
internal escaping; platform arrays as bracketed comma-separated lists of
double-quoted strings; booleans as bare `true`/`false`; all wrapped in a
`const APPS = [ ... ];` declaration. -/
theorem claim_C9_encode_format (rs : List AppRecord) :
    encodeApps rs = renderAppsSpec rs := by
  have key : ∀ rs : List AppRecord,
      sepcat "\n" ((rs.map recordDict).foldr (fun a acc => recordLines a ++ acc) [] ++ ["];"])
        = rs.foldr (fun r acc => recordBlockSpec r ++ acc) "" ++ "\n" ++ "];" := by
    intro rs
    induction rs with
    | nil => simp [sepcat]
    | cons r rs ih =>
        simp only [List.map_cons, List.foldr_cons, List.append_assoc, sepcat_append,
          ih, sepcat_recordLines, String.append_assoc]
  show String.intercalate "\n"
      ("const APPS = [" :: ((rs.map recordDict).foldr (fun a acc => recordLines a ++ acc) [] ++ ["];"]))
      = renderAppsSpec rs
  rw [intercalate_eq_sepcat, key]
  simp [renderAppsSpec, String.append_assoc]

/-! ### Recurrence equations for the scanners -/

theorem substWordAux_skip (w0 : Char) (wr repl : List Char) :
    ∀ (cs : List Char) (k : Nat) (pw : Bool),
      substWordAux w0 wr repl k pw cs = substWordAux w0 wr repl 0 pw (cs.drop k) := by
  intro cs
  induction cs with
  | nil => intro k pw; cases k <;> rfl
  | cons c cs ih =>
      intro k pw
      cases k with
      | zero => rfl
      | succ k => simpa [substWordAux] using ih k pw

theorem substWord_nil (w0 : Char) (wr repl : List Char) (p : Bool) :
    substWord w0 wr repl p [] = [] := rfl

theorem substWord_cons (w0 : Char) (wr repl : List Char) (p : Bool) (c : Char) (cs : List Char) :
    substWord w0 wr repl p (c :: cs)
      = if !p && c == w0 && wr.isPrefixOf cs && noWordAhead (cs.drop wr.length) then
          repl ++ substWord w0 wr repl (isWordChar (wr.getLastD w0)) (cs.drop wr.length)
        else
          c :: substWord w0 wr repl (isWordChar c) cs := by
  show substWordAux w0 wr repl 0 p (c :: cs) = _
  by_cases h : (!p && c == w0 && wr.isPrefixOf cs && noWordAhead (cs.drop wr.length)) = true
  · have step : substWordAux w0 wr repl 0 p (c :: cs)
        = repl ++ substWordAux w0 wr repl wr.length (isWordChar (wr.getLastD w0)) cs := by
      simp [substWordAux, h]
    rw [step, substWordAux_skip w0 wr repl cs wr.length]
    simp [h, substWord]
  · have step : substWordAux w0 wr repl 0 p (c :: cs)
        = c :: substWordAux w0 wr repl 0 (isWordChar c) cs := by
      simp [substWordAux, h]
    rw [step]
    simp [h, substWord]

theorem quoteKeysAux_skip :
    ∀ (cs : List Char) (k : Nat) (pw : Bool),
      quoteKeysAux k pw cs = quoteKeysAux 0 pw (cs.drop k) := by
  intro cs
  induction cs with
  | nil => intro k pw; cases k <;> rfl
  | cons c cs ih =>
      intro k pw
      cases k with
      | zero => rfl
      | succ k => simpa [quoteKeysAux] using ih k pw

theorem quoteKeys_nil (p : Bool) : quoteKeys p [] = [] := rfl

theorem drop_takeWhile_length (q : Char → Bool) (cs : List Char) :
    cs.drop (cs.takeWhile q).length = cs.dropWhile q := by
  induction cs with
  | nil => rfl
  | cons c cs ih =>
      by_cases h : q c
      · simpa [List.takeWhile_cons, List.dropWhile_cons, h] using ih
      · simp [List.takeWhile_cons, List.dropWhile_cons, h]

theorem quoteKeys_cons (p : Bool) (c : Char) (cs : List Char) :
    quoteKeys p (c :: cs)
      = if !p && identStart c then
          if headIsColon ((cs.dropWhile isWordChar).dropWhile pySpace) then
            '"' :: c :: cs.takeWhile isWordChar ++ '"' :: ':' ::
              quoteKeys false ((cs.dropWhile isWordChar).dropWhile pySpace).tail
          else
            c :: cs.takeWhile isWordChar ++ quoteKeys true (cs.dropWhile isWordChar)
        else
          c :: quoteKeys (isWordChar c) cs := by
  show quoteKeysAux 0 p (c :: cs) = _
  have harith : cs.drop ((cs.takeWhile isWordChar).length
        + ((cs.dropWhile isWordChar).length
            - ((cs.dropWhile isWordChar).dropWhile pySpace).length) + 1)
      = ((cs.dropWhile isWordChar).dropWhile pySpace).tail := by
    have hlen : (cs.dropWhile isWordChar).length
        - ((cs.dropWhile isWordChar).dropWhile pySpace).length
        = ((cs.dropWhile isWordChar).takeWhile pySpace).length := by
      have hsplit := List.takeWhile_append_dropWhile pySpace (cs.dropWhile isWordChar)
      have := congrArg List.length hsplit
      simp only [List.length_append] at this
      omega
    rw [hlen, Nat.add_assoc, ← List.drop_drop, drop_takeWhile_length,
      ← List.drop_drop, drop_takeWhile_length, List.drop_one]
  by_cases h1 : (!p && identStart c) = true
  · by_cases h2 : headIsColon ((cs.dropWhile isWordChar).dropWhile pySpace) = true
    · have step : quoteKeysAux 0 p (c :: cs)
          = '"' :: c :: cs.takeWhile isWordChar ++ '"' :: ':' ::
              quoteKeysAux ((cs.takeWhile isWordChar).length
                + ((cs.dropWhile isWordChar).length
                    - ((cs.dropWhile isWordChar).dropWhile pySpace).length) + 1) false cs := by
        simp [quoteKeysAux, h1, h2]
      rw [step, quoteKeysAux_skip, harith]
      simp [h1, h2, quoteKeys]
    · have step : quoteKeysAux 0 p (c :: cs)
          = c :: cs.takeWhile isWordChar
              ++ quoteKeysAux (cs.takeWhile isWordChar).length true cs := by
        simp [quoteKeysAux, h1, h2]
      rw [step, quoteKeysAux_skip, drop_takeWhile_length]
      simp [h1, h2, quoteKeys]
  · have step : quoteKeysAux 0 p (c :: cs)
        = c :: quoteKeysAux 0 (isWordChar c) cs := by
      simp [quoteKeysAux, h1]
    rw [step]
    simp [h1, quoteKeys]

/-! ### Junction lemmas

A substitution scan distributes over concatenation at a non-word junction
character: no word-boundary match of an all-word-character pattern can
span such a junction.  These lemmas let the normalization passes be
computed chunk by chunk over the encoder's template. -/

theorem identStart_isWordChar {c : Char} (h : identStart c = true) : isWordChar c = true := by
  simp only [identStart, Bool.or_eq_true] at h
  simp only [isWordChar, Bool.or_eq_true]
  rcases h with h | h
  · exact Or.inl (Or.inl h)
  · exact Or.inr h

theorem nonword_beq_word {y c : Char} (hy : isWordChar y = true)
    (hc : isWordChar c = false) : (c == y) = false := by
  cases hbc : (c == y) with
  | false => rfl
  | true =>
      have he : c = y := eq_of_beq hbc
      subst he
      exact absurd (hy.symm.trans hc) (by decide)

theorem word_beq_nonword {y c : Char} (hy : isWordChar y = true)
    (hc : isWordChar c = false) : (y == c) = false := by
  cases hbc : (y == c) with
  | false => rfl
  | true =>
      have he : y = c := eq_of_beq hbc
      subst he
      exact absurd (hy.symm.trans hc) (by decide)

theorem isPrefixOf_append_stop {wr : List Char} (hwr : ∀ x ∈ wr, isWordChar x = true)
    {c : Char} (hc : isWordChar c = false) :
    ∀ (a b : List Char), wr.isPrefixOf (a ++ c :: b) = wr.isPrefixOf a := by
  induction wr with
  | nil => intro a b; cases a <;> rfl
  | cons y wr ih =>
      intro a b
      cases a with
      | nil =>
          have hy : isWordChar y = true := hwr y (by simp)
          simp [List.isPrefixOf, word_beq_nonword hy hc]
      | cons z a =>
          simp only [List.cons_append, List.isPrefixOf, List.append_eq]
          rw [ih (fun x hx => hwr x (by simp [hx])) a b]

theorem length_le_of_isPrefixOf {wr a : List Char} (h : wr.isPrefixOf a = true) :
    wr.length ≤ a.length :=
  (List.isPrefixOf_iff_prefix.mp h).length_le

theorem noWordAhead_append_drop {c : Char} (hc : isWordChar c = false) :
    ∀ (a : List Char) (n : Nat), n ≤ a.length →
      ∀ b, noWordAhead ((a ++ c :: b).drop n) = noWordAhead (a.drop n) := by
  intro a
  induction a with
  | nil =>
      intro n hn b
      have : n = 0 := Nat.le_zero.mp (by simpa using hn)
      subst this
      simp [noWordAhead, hc]
  | cons x a ih =>
      intro n hn b
      cases n with
      | zero => rfl
      | succ n =>
          simp only [List.cons_append, List.drop_succ_cons]
          exact ih n (by simpa using hn) b

theorem drop_append_left {a : List Char} {n : Nat} (h : n ≤ a.length) (b : List Char) :
    (a ++ b).drop n = a.drop n ++ b := by
  induction a generalizing n with
  | nil =>
      have : n = 0 := Nat.le_zero.mp (by simpa using h)
      subst this
      simp
  | cons x a ih =>
      cases n with
      | zero => simp
      | succ n =>
          simp only [List.cons_append, List.drop_succ_cons]
          exact ih (by simpa using h)

/-- The word-substitution scan distributes over a non-word junction
character. -/
theorem substWord_append {w0 : Char} {wr repl : List Char}
    (hw0 : isWordChar w0 = true) (hwr : ∀ x ∈ wr, isWordChar x = true)
    {c : Char} (hc : isWordChar c = false) :
    ∀ (a : List Char) (p : Bool) (b : List Char),
      substWord w0 wr repl p (a ++ c :: b)
        = substWord w0 wr repl p a ++ c :: substWord w0 wr repl false b := by
  suffices H : ∀ (n : Nat) (a : List Char), a.length ≤ n → ∀ (p : Bool) (b : List Char),
      substWord w0 wr repl p (a ++ c :: b)
        = substWord w0 wr repl p a ++ c :: substWord w0 wr repl false b by
    intro a p b
    exact H a.length a le_rfl p b
  intro n
  induction n with
  | zero =>
      intro a ha p b
      have : a = [] := List.eq_nil_of_length_eq_zero (Nat.le_zero.mp ha)
      subst this
      rw [List.nil_append, substWord_cons, substWord_nil]
      have hcw : (c == w0) = false := nonword_beq_word hw0 hc
      simp [hcw, hc]
  | succ n ih =>
      intro a ha p b
      cases a with
      | nil =>
          rw [List.nil_append, substWord_cons, substWord_nil]
          have hcw : (c == w0) = false := nonword_beq_word hw0 hc
          simp [hcw, hc]
      | cons x a =>
          have ha' : a.length ≤ n := by simpa using ha
          rw [List.cons_append, substWord_cons, substWord_cons]
          rw [isPrefixOf_append_stop hwr hc a b]
          by_cases hpre : wr.isPrefixOf a = true
          · have hlen : wr.length ≤ a.length := length_le_of_isPrefixOf hpre
            rw [noWordAhead_append_drop hc a wr.length hlen b]
            by_cases hcond : (!p && x == w0 && wr.isPrefixOf a
                && noWordAhead (a.drop wr.length)) = true
            · rw [if_pos hcond, if_pos hcond]
              rw [drop_append_left hlen (c :: b)]
              rw [ih (a.drop wr.length) (le_trans (by simp) ha')]
              simp [List.append_assoc]
            · rw [if_neg hcond, if_neg hcond]
              rw [ih a ha']
              simp
          · have hpre' : wr.isPrefixOf a = false := by
              revert hpre; cases wr.isPrefixOf a <;> simp
            simp only [hpre', Bool.and_false, Bool.false_and, if_false]
            rw [ih a ha']
            simp

theorem takeWhile_all_eq {q : Char → Bool} : ∀ {a : List Char}, a.all q = true → a.takeWhile q = a := by
  intro a
  induction a with
  | nil => intro _; rfl
  | cons x a ih =>
      intro h
      simp only [List.all_cons, Bool.and_eq_true] at h
      simp [List.takeWhile_cons, h.1, ih h.2]

theorem dropWhile_all_eq {q : Char → Bool} : ∀ {a : List Char}, a.all q = true → a.dropWhile q = [] := by
  intro a
  induction a with
  | nil => intro _; rfl
  | cons x a ih =>
      intro h
      simp only [List.all_cons, Bool.and_eq_true] at h
      simp [List.dropWhile_cons, h.1, ih h.2]

theorem takeWhile_append_neg_all {q : Char → Bool} :
    ∀ {a : List Char}, a.all q = false → ∀ (y : List Char), (a ++ y).takeWhile q = a.takeWhile q := by
  intro a
  induction a with
  | nil => intro h; cases h
  | cons x a ih =>
      intro h y
      simp only [List.all_cons, Bool.and_eq_false_iff] at h
      rcases h with h | h
      · simp [List.takeWhile_cons, h]
      · by_cases hx : q x
        · simp [List.takeWhile_cons, hx, ih h y]
        · simp [List.takeWhile_cons, hx]

theorem dropWhile_append_neg_all {q : Char → Bool} :
    ∀ {a : List Char}, a.all q = false →
      ∀ (y : List Char), (a ++ y).dropWhile q = a.dropWhile q ++ y := by
  intro a
  induction a with
  | nil => intro h; cases h
  | cons x a ih =>
      intro h y
      simp only [List.all_cons, Bool.and_eq_false_iff] at h
      rcases h with h | h
      · simp [List.dropWhile_cons, h]
      · by_cases hx : q x
        · simp [List.dropWhile_cons, hx, ih h y]
        · simp [List.dropWhile_cons, hx]

theorem dropWhile_head_neg {q : Char → Bool} :
    ∀ {a : List Char}, a.all q = false →
      ∃ y ys, a.dropWhile q = y :: ys ∧ q y = false := by
  intro a
  induction a with
  | nil => intro h; cases h
  | cons x a ih =>
      intro h
      simp only [List.all_cons, Bool.and_eq_false_iff] at h
      by_cases hx : q x
      · have h' : a.all q = false := by
          rcases h with h | h
          · rw [hx] at h; cases h
          · exact h
        obtain ⟨y, ys, hd, hy⟩ := ih h'
        exact ⟨y, ys, by simp [List.dropWhile_cons, hx, hd], hy⟩
      · exact ⟨x, a, by simp [List.dropWhile_cons, hx],
          by revert hx; cases q x <;> simp⟩

theorem length_dropWhile_le (q : Char → Bool) (l : List Char) :
    (l.dropWhile q).length ≤ l.length := by
  induction l with
  | nil => simp [List.dropWhile]
  | cons c cs ih =>
      by_cases h : q c
      · simp only [List.dropWhile_cons, h, if_true, List.length_cons]
        omega
      · simp [List.dropWhile_cons, h]

theorem identStart_false_of_nonword {c : Char} (hc : isWordChar c = false) :
    identStart c = false := by
  cases h : identStart c with
  | false => rfl
  | true => exact absurd ((identStart_isWordChar h).symm.trans hc) (by decide)

/-- The key-quoting scan distributes over a junction character that is
neither a word character, nor whitespace, nor a colon. -/
theorem quoteKeys_append {c : Char} (hc1 : isWordChar c = false)
    (hc2 : pySpace c = false) (hc3 : (c == ':') = false) :
    ∀ (a : List Char) (p : Bool) (b : List Char),
      quoteKeys p (a ++ c :: b) = quoteKeys p a ++ c :: quoteKeys false b := by
  have hbase : ∀ (p : Bool) (b : List Char),
      quoteKeys p (c :: b) = c :: quoteKeys false b := by
    intro p b
    rw [quoteKeys_cons]
    simp [identStart_false_of_nonword hc1, hc1]
  suffices H : ∀ (n : Nat) (a : List Char), a.length ≤ n → ∀ (p : Bool) (b : List Char),
      quoteKeys p (a ++ c :: b) = quoteKeys p a ++ c :: quoteKeys false b by
    intro a p b
    exact H a.length a le_rfl p b
  intro n
  induction n with
  | zero =>
      intro a ha p b
      have : a = [] := List.eq_nil_of_length_eq_zero (Nat.le_zero.mp ha)
      subst this
      rw [List.nil_append, quoteKeys_nil, List.nil_append, hbase]
  | succ n ih =>
      intro a ha p b
      cases a with
      | nil => rw [List.nil_append, quoteKeys_nil, List.nil_append, hbase]
      | cons x a =>
          have ha' : a.length ≤ n := by simpa using ha
          rw [List.cons_append, quoteKeys_cons, quoteKeys_cons]
          by_cases hx : (!p && identStart x) = true
          · rw [if_pos hx, if_pos hx]
            by_cases hall : a.all isWordChar = true
            · have hT : (a ++ c :: b).takeWhile isWordChar = a := by
                rw [List.takeWhile_append_of_pos (by simpa using hall)]
                simp [List.takeWhile_cons, hc1]
              have hD : (a ++ c :: b).dropWhile isWordChar = c :: b := by
                rw [List.dropWhile_append_of_pos (by simpa using hall)]
                simp [List.dropWhile_cons, hc1]
              have hR2 : (c :: b).dropWhile pySpace = c :: b := by
                simp [List.dropWhile_cons, hc2]
              rw [hT, hD, hR2]
              have hcol : headIsColon (c :: b) = false := by simp [headIsColon, hc3]
              rw [if_neg (by simp [hcol])]
              rw [takeWhile_all_eq hall, dropWhile_all_eq hall]
              have : (([] : List Char).dropWhile pySpace) = [] := rfl
              rw [this]
              have : headIsColon [] = false := rfl
              rw [if_neg (by simp [this])]
              rw [hbase]
              simp [quoteKeys_nil]
            · have hallf : a.all isWordChar = false := by
                revert hall; cases a.all isWordChar <;> simp
              obtain ⟨y, ys, hd, hy⟩ := dropWhile_head_neg hallf
              have hT : (a ++ c :: b).takeWhile isWordChar = a.takeWhile isWordChar :=
                takeWhile_append_neg_all hallf _
              have hD : (a ++ c :: b).dropWhile isWordChar = a.dropWhile isWordChar ++ c :: b :=
                dropWhile_append_neg_all hallf _
              rw [hT, hD]
              have hdlen : (a.dropWhile isWordChar).length ≤ a.length :=
                length_dropWhile_le _ _
              by_cases hdall : (a.dropWhile isWordChar).all pySpace = true
              · have hR2L : (a.dropWhile isWordChar ++ c :: b).dropWhile pySpace = c :: b := by
                  rw [List.dropWhile_append_of_pos (by simpa using hdall)]
                  simp [List.dropWhile_cons, hc2]
                have hR2R : (a.dropWhile isWordChar).dropWhile pySpace = [] :=
                  dropWhile_all_eq hdall
                rw [hR2L, hR2R]
                have hcol : headIsColon (c :: b) = false := by simp [headIsColon, hc3]
                rw [if_neg (by simp [hcol]), if_neg (by simp [headIsColon])]
                rw [ih (a.dropWhile isWordChar) (le_trans hdlen ha')]
                simp
              · have hdallf : (a.dropWhile isWordChar).all pySpace = false := by
                  revert hdall; cases (a.dropWhile isWordChar).all pySpace <;> simp
                obtain ⟨z, zs, he, hz⟩ := dropWhile_head_neg hdallf
                have hR2L : (a.dropWhile isWordChar ++ c :: b).dropWhile pySpace
                    = z :: (zs ++ c :: b) := by
                  rw [dropWhile_append_neg_all hdallf, he]
                  rfl
                rw [hR2L, he]
                have hzlen : zs.length ≤ a.length := by
                  have h1 : (z :: zs).length ≤ (a.dropWhile isWordChar).length := by
                    rw [← he]
                    exact length_dropWhile_le _ _
                  simp at h1
                  omega
                by_cases hzc : (z == ':') = true
                · rw [if_pos (by simp [headIsColon, hzc]), if_pos (by simp [headIsColon, hzc])]
                  simp only [List.tail_cons]
                  rw [ih zs (le_trans hzlen ha')]
                  simp
                · rw [if_neg (by simp [headIsColon, hzc]), if_neg (by simp [headIsColon, hzc])]
                  rw [ih (a.dropWhile isWordChar) (le_trans hdlen ha')]
                  simp
          · rw [if_neg hx, if_neg hx]
            rw [ih a ha']
            simp

/-- **C1** (the claim is about the specification's requirement; the code
violates it).  The decode fallback is `eval` with emptied builtins, a
general expression evaluator: on the input `[1+1]` the normalization
passes leave the text unchanged, the parse yields an expression
containing the binary `+` operation — not literal data syntax — and the
fallback executes that operation, returning `[2]`.  A restricted literal
reader would have rejected the input. -/
theorem claim_C1_fallback_executes_operations :
    pyParseTop (String.mk (normalizeJs "[1+1]".data))
        = Except.ok (PyExpr.list [PyExpr.add (PyExpr.int 1) (PyExpr.int 1)])
      ∧ js_apps_to_python_fb "[1+1]" = Except.ok (PyVal.list [PyVal.int 2]) :=
  ⟨rfl, rfl⟩

/-- **C7.**  Missing object fields take their defaults under the record
view: the empty string for `icon` and `locker_id`, the empty list for
`platforms`, `false` for the booleans; and decoding `[{name:"Bar"}]`
yields exactly one record with those defaults. -/
theorem claim_C7_missing_field_defaults :
    (∀ d : Pydict,
      d.find? (fun kv => keyEq kv.1 "icon") = Option.none →
      d.find? (fun kv => keyEq kv.1 "locker_id") = Option.none →
      d.find? (fun kv => keyEq kv.1 "platforms") = Option.none →
      d.find? (fun kv => keyEq kv.1 "trending") = Option.none →
      d.find? (fun kv => keyEq kv.1 "featured") = Option.none →
        (recordOfDict d).icon = "" ∧ (recordOfDict d).locker_id = ""
          ∧ (recordOfDict d).platforms = [] ∧ (recordOfDict d).trending = false
          ∧ (recordOfDict d).featured = false)
    ∧ js_apps_to_python_fb "[\x7bname:\"Bar\"\x7d]"
        = Except.ok (PyVal.list [PyVal.dict [(PyVal.str "name", PyVal.str "Bar")]])
    ∧ recordOfDict [(PyVal.str "name", PyVal.str "Bar")]
        = { name := "Bar", icon := "", locker_id := "", platforms := [],
            trending := false, featured := false } := by
  refine ⟨?_, rfl, rfl⟩
  intro d h1 h2 h3 h4 h5
  simp [recordOfDict, dictGet, h1, h2, h3, h4, h5, pyStrOf, pyIter, pyTruthy]

theorem claim_C7_missing_field_defaults_witness :
    (recordOfDict [(PyVal.str "name", PyVal.str "Bar")]).icon = ""
      ∧ (recordOfDict [(PyVal.str "name", PyVal.str "Bar")]).locker_id = ""
      ∧ (recordOfDict [(PyVal.str "name", PyVal.str "Bar")]).platforms = []
      ∧ (recordOfDict [(PyVal.str "name", PyVal.str "Bar")]).trending = false
      ∧ (recordOfDict [(PyVal.str "name", PyVal.str "Bar")]).featured = false :=
  claim_C7_missing_field_defaults.1 [(PyVal.str "name", PyVal.str "Bar")] rfl rfl rfl rfl rfl

/-- **C8** (the claim states the specification's atomicity requirement;
the code violates it).  `write_file` opens the destination with mode
`"w"`, truncating it in place, and then writes; a write that fails after
three characters leaves the file holding `"new"` — neither the original
content nor the new content, i.e. partially overwritten. -/
theorem claim_C8_partial_write :
    write_file_model "original content" "new content" (WriteOutcome.failDuring 3)
        = ("new", false)
      ∧ "new" ≠ "original content" ∧ "new" ≠ "new content" :=
  ⟨rfl, by decide, by decide⟩

/-! ### Engine lemmas for the rewrite direction -/

/-- `re.sub` with no match anywhere returns the text unchanged. -/
theorem subPat_no_match {p : Pat} {cs : List Char} (h : searchPat p cs = Option.none)
    (keep : Bool) (v : List Char) : subPat p keep v cs = cs := by
  show subPatAux p keep v (Nat.succ cs.length) cs = cs
  simp [subPatAux, h]

theorem lazyScan_dotall_mono {capR : List Char} {post : List Atom} :
    ∀ (cs : List Char) (x : List Char × List Char × List Char),
      lazyScan false capR post cs = Option.some x →
      lazyScan true capR post cs = Option.some x := by
  intro cs
  induction cs with
  | nil => intro x h; exact h
  | cons c cs2 ih =>
      intro x h
      rw [lazyScan] at h ⊢
      cases hstop : lazyStop capR post (c :: cs2) with
      | some pr => simp only [hstop] at h ⊢; exact h
      | none =>
          simp only [hstop] at h ⊢
          by_cases hnl : c = '\n'
          · subst hnl
            simp at h
          · have hc1 : (!false && decide (c = '\n')) = false := by simp [hnl]
            have hc2 : (!true && decide (c = '\n')) = false := by simp
            simp only [hc1, hc2, Bool.false_eq_true, if_false] at h ⊢
            cases hrec : lazyScan false capR post cs2 with
            | none => rw [hrec] at h; cases h
            | some y =>
                rw [hrec] at h
                rw [ih y hrec]
                exact h

theorem patMatchAt_dotall_mono {pre : List Atom} {capL capR : List Char} {post : List Atom}
    {cs : List Char} {r : PatRes}
    (h : patMatchAt ⟨pre, capL, Cap.lazyAny false, capR, post⟩ cs = Option.some r) :
    patMatchAt ⟨pre, capL, Cap.lazyAny true, capR, post⟩ cs = Option.some r := by
  simp only [patMatchAt] at h ⊢
  cases hpre : matchAtoms pre cs with
  | none => rw [hpre] at h; cases h
  | some pr =>
      obtain ⟨pt, r1⟩ := pr
      rw [hpre] at h
      dsimp only at h ⊢
      by_cases hl : capL.isPrefixOf r1 = true
      · simp only [hl, if_true] at h ⊢
        cases hscan : lazyScan false capR post (r1.drop capL.length) with
        | none => rw [hscan] at h; cases h
        | some x =>
            rw [hscan] at h
            rw [lazyScan_dotall_mono _ x hscan]
            exact h
      · rw [if_neg hl] at h
        cases h

theorem searchPat_dotall_mono {pre : List Atom} {capL capR : List Char} {post : List Atom} :
    ∀ (cs : List Char),
      searchPat ⟨pre, capL, Cap.lazyAny true, capR, post⟩ cs = Option.none →
      searchPat ⟨pre, capL, Cap.lazyAny false, capR, post⟩ cs = Option.none := by
  intro cs
  induction cs with
  | nil =>
      intro h
      rw [searchPat] at h ⊢
      cases hm : patMatchAt ⟨pre, capL, Cap.lazyAny false, capR, post⟩ [] with
      | none => rfl
      | some r => rw [patMatchAt_dotall_mono hm] at h; cases h
  | cons c cs2 ih =>
      intro h
      rw [searchPat] at h ⊢
      cases hm : patMatchAt ⟨pre, capL, Cap.lazyAny false, capR, post⟩ (c :: cs2) with
      | some r => rw [patMatchAt_dotall_mono hm] at h; cases h
      | none =>
          cases hm2 : patMatchAt ⟨pre, capL, Cap.lazyAny true, capR, post⟩ (c :: cs2) with
          | some r2 => rw [hm2] at h; cases h
          | none =>
              rw [hm2] at h
              cases hs : searchPat ⟨pre, capL, Cap.lazyAny true, capR, post⟩ cs2 with
              | some y => rw [hs] at h; cases h
              | none => rw [ih hs]

/-- **C10.**  On save, the four meta fields are substituted only when
non-empty: when all four are empty, `save` equals the pipeline with the
four meta substitutions removed (so an empty meta field leaves the
original marker value in place — the field cannot be cleared); whereas
`h1_title` (like `logo_src`, `tagline`, `meta_title`) is substituted even
when empty, clearing the marker's value.  The two concrete documents
demonstrate the asymmetry: an empty `h1_title` empties the `<h1>`
element, while an empty `meta_desc` leaves `content="keep"` untouched
(and a non-empty one replaces it). -/
theorem claim_C10_empty_meta_fields_are_skipped :
    (∀ st : LPState, st.meta_desc = "" → st.meta_keywords = "" → st.og_image = "" →
      st.twitter_image = "" →
      saveModel st =
        (match settingsJson st.cpab_it st.cpab_key with
         | Except.error e => Except.error e
         | Except.ok js =>
             match asPydicts st.apps with
             | Option.none => Except.error "AttributeError: apps entries are not dicts"
             | Option.some ds =>
                 Except.ok (String.mk (subPat appsPat false (python_apps_to_js ds).data
                   (subPat setSavePat true js.data
                     (subPat titlePat true st.meta_title.data
                       (subPat taglineSavePat true st.tagline.data
                         (subPat h1Pat true st.h1_title.data
                           (subPat logoPat true st.logo_src.data st.html.data)))))))))
    ∧ saveModel ⟨"<h1>x</h1>", "", "", "", "", "", "", "", "", "", "", PyVal.list []⟩
        = Except.ok "<h1></h1>"
    ∧ saveModel ⟨"<meta name=\"description\" content=\"keep\">", "", "", "", "", "", "", "", "", "", "", PyVal.list []⟩
        = Except.ok "<meta name=\"description\" content=\"keep\">"
    ∧ saveModel ⟨"<meta name=\"description\" content=\"keep\">", "", "", "", "", "NEW", "", "", "", "", "", PyVal.list []⟩
        = Except.ok "<meta name=\"description\" content=\"NEW\">" := by
  refine ⟨?_, rfl, rfl, rfl⟩
  intro st h1 h2 h3 h4
  simp only [saveModel, h1, h2, h3, h4, if_true]

theorem claim_C10_empty_meta_fields_are_skipped_witness :
    saveModel ⟨"<meta name=\"description\" content=\"keep\">", "", "", "", "", "", "", "", "", "", "", PyVal.list []⟩
      =
      (match settingsJson "" "" with
       | Except.error e => Except.error e
       | Except.ok js =>
           match asPydicts (PyVal.list []) with
           | Option.none => Except.error "AttributeError: apps entries are not dicts"
           | Option.some ds =>
               Except.ok (String.mk (subPat appsPat false (python_apps_to_js ds).data
                 (subPat setSavePat true js.data
                   (subPat titlePat true "".data
                     (subPat taglineSavePat true "".data
                       (subPat h1Pat true "".data
                         (subPat logoPat true "".data
                           "<meta name=\"description\" content=\"keep\">".data)))))))) :=
  claim_C10_empty_meta_fields_are_skipped.1
    ⟨"<meta name=\"description\" content=\"keep\">", "", "", "", "", "", "", "", "", "", "", PyVal.list []⟩ rfl rfl rfl rfl

/-- **C4, counterexample.**  The claim says a non-numeric stored
`settings_iteration` value defaults to 0 on save; in the code
`int(self.cpab_it or 0)` raises `ValueError` for a non-empty non-numeric
value, and `save` fails instead of emitting a normalized literal. -/
theorem claim_C4_counterexample :
    saveModel ⟨"var CPABUILDSETTINGS = \x7b\"it\": 1, \"key\": \"\"\x7d;", "", "", "", "", "", "", "", "", "abc", "k", PyVal.list []⟩
      = Except.error "invalid literal for int() with base 10: \x27abc\x27" := rfl

/-- **C4, amended.**  On save the settings object is re-emitted as the
normalized two-key literal `{"it": n, "key": s}` with `it` coerced to an
integer; the default 0 applies only when the stored value is absent
(empty) — a non-empty non-numeric value makes `int()` raise and `save`
fail with that error instead of defaulting.  The final conjunct shows the
literal replacing the original settings syntax in the document. -/
theorem claim_C4_settings_coercion :
    (∀ key : String, settingsJson "" key
        = Except.ok ("\x7b\"it\": 0, \"key\": " ++ jsonDumpStr key ++ "\x7d"))
    ∧ (∀ (it key : String) (n : Int), pyIntStr it = Except.ok n →
        settingsJson it key
          = Except.ok ("\x7b\"it\": " ++ toString n ++ ", \"key\": " ++ jsonDumpStr key ++ "\x7d"))
    ∧ (∀ (st : LPState) (e : String), settingsJson st.cpab_it st.cpab_key = Except.error e →
        saveModel st = Except.error e)
    ∧ saveModel ⟨"var CPABUILDSETTINGS = \x7bit: 7\x7d;", "", "", "", "", "", "", "", "", "7", "abc", PyVal.list []⟩
        = Except.ok "var CPABUILDSETTINGS = \x7b\"it\": 7, \"key\": \"abc\"\x7d;" := by
  refine ⟨fun key => rfl, ?_, ?_, rfl⟩
  · intro it key n h
    by_cases hit : it = ""
    · subst hit
      exact absurd h (by simp [pyIntStr, pyStrip, digitsOk])
    · simp only [settingsJson, hit, if_false, h]
  · intro st e h
    simp only [saveModel, h]

theorem claim_C4_settings_coercion_witness :
    settingsJson "7" "abc"
        = Except.ok ("\x7b\"it\": " ++ toString (7 : Int) ++ ", \"key\": " ++ jsonDumpStr "abc" ++ "\x7d")
      ∧ saveModel ⟨"", "", "", "", "", "", "", "", "", "zz", "", PyVal.list []⟩
        = Except.error "invalid literal for int() with base 10: \x27zz\x27" :=
  ⟨claim_C4_settings_coercion.2.1 "7" "abc" 7 rfl,
   claim_C4_settings_coercion.2.2.1
     ⟨"", "", "", "", "", "", "", "", "", "zz", "", PyVal.list []⟩
     "invalid literal for int() with base 10: \x27zz\x27" rfl⟩

/-- Every failure of the fallback codec carries the fixed prefix followed
by the underlying cause (`str(e)` of the inner exception). -/
theorem fb_error_names_cause (s e : String) (h : js_apps_to_python_fb s = Except.error e) :
    ∃ cause, e = "Could not parse APPS array. Please install `json5`. Error: " ++ cause := by
  unfold js_apps_to_python_fb at h
  cases hev : pyEvalStr (String.mk (normalizeJs s.data)) with
  | ok v => rw [hev] at h; cases h
  | error c =>
      rw [hev] at h
      cases h
      exact ⟨c, rfl⟩

/-- **C5, counterexample.**  On a document whose `APPS` literal no
fallback can decode, the error does name the underlying cause, but the
session does not continue with an empty record list: `load` raises, and
`main` shows the error and returns — no session state exists. -/
theorem claim_C5_counterexample :
    mainSession "const APPS = [\x7d];"
        = Except.error "Could not parse APPS array. Please install `json5`. Error: invalid syntax"
      ∧ ∀ st : LPState, mainSession "const APPS = [\x7d];" ≠ Except.ok st := by
  have hmain : mainSession "const APPS = [\x7d];"
      = Except.error "Could not parse APPS array. Please install `json5`. Error: invalid syntax" := rfl
  refine ⟨hmain, ?_⟩
  intro st h
  rw [hmain] at h
  cases h

/-- **C5, amended.**  When the `APPS` literal cannot be decoded, the
codec fails with an error naming the underlying cause; that error
propagates out of `load`, and the session aborts (never an empty-list
session).  The empty-Record-List continuation happens only when the
`APPS` marker is absent from the document. -/
theorem claim_C5_decode_failure_aborts :
    (∀ (doc : String) (b : List Char) (r : PatRes),
      searchPat appsPat doc.data = Option.some (b, r) →
      ∀ e, js_apps_to_python_fb (String.mk ('[' :: r.inner ++ [']'])) = Except.error e →
        mainSession doc = Except.error e
          ∧ ∃ cause, e = "Could not parse APPS array. Please install `json5`. Error: " ++ cause)
    ∧ (∀ doc : String, searchPat appsPat doc.data = Option.none →
        ∃ st : LPState, mainSession doc = Except.ok st ∧ st.apps = PyVal.list []) := by
  constructor
  · intro doc b r hsearch e hfb
    constructor
    · unfold mainSession loadModel
      rw [hsearch]
      dsimp only
      rw [hfb]
    · exact fb_error_names_cause _ _ hfb
  · intro doc hsearch
    unfold mainSession loadModel
    rw [hsearch]
    dsimp only
    exact ⟨_, rfl, rfl⟩

theorem claim_C5_decode_failure_aborts_witness :
    (mainSession "const APPS = [\x7d];"
        = Except.error "Could not parse APPS array. Please install `json5`. Error: invalid syntax"
      ∧ ∃ cause, "Could not parse APPS array. Please install `json5`. Error: invalid syntax"
          = "Could not parse APPS array. Please install `json5`. Error: " ++ cause)
    ∧ ∃ st : LPState, mainSession "hello" = Except.ok st ∧ st.apps = PyVal.list [] :=
  ⟨claim_C5_decode_failure_aborts.1 "const APPS = [\x7d];"
      "".data ⟨"const APPS = [".data, "\x7d".data, "];".data, []⟩ rfl
      "Could not parse APPS array. Please install `json5`. Error: invalid syntax" rfl,
   claim_C5_decode_failure_aborts.2 "hello" rfl⟩

/-- **C6, counterexample.**  For the tagline field, the extraction marker
(`<p class="tagline">`, one literal space) and the rewrite marker
(`<p\s+class="tagline">`) differ: on a document written with two spaces
the extraction marker is absent (the field defaults to `""`), yet
rewriting with a new value changes the document — the value is not
dropped. -/
theorem claim_C6_counterexample :
    searchPat taglineLoadPat "<p  class=\"tagline\">x</p>".data = Option.none
      ∧ loadModel "<p  class=\"tagline\">x</p>"
          = Except.ok ⟨"<p  class=\"tagline\">x</p>", "", "", "", "", "", "", "", "", "", "",
              PyVal.list []⟩
      ∧ saveModel ⟨"<p  class=\"tagline\">x</p>", "", "", "z", "", "", "", "", "", "", "",
            PyVal.list []⟩
          = Except.ok "<p  class=\"tagline\">z</p>"
      ∧ ("<p  class=\"tagline\">z</p>" : String) ≠ "<p  class=\"tagline\">x</p>" :=
  ⟨rfl, rfl, rfl, by decide⟩

/-- **C6, amended.**  For the fields whose extraction and rewrite markers
agree — `logo_src`, `h1_title`, `meta_title`, the four meta fields (whose
rewrite marker matches only where the extraction marker does), and the
record list — a missing marker yields the default on extract (empty
string, or the empty record list), extraction never fails for it, and the
rewrite substitution leaves the document unchanged, whatever the new
value.  For `tagline` and the settings object the rewrite marker is
laxer than the extraction marker and the property fails (see the
counterexample). -/
theorem claim_C6_missing_marker_defaults :
    ∀ (doc v : String),
      (searchPat logoPat doc.data = Option.none →
        extractField logoPat doc.data = "" ∧ subPat logoPat true v.data doc.data = doc.data)
      ∧ (searchPat h1Pat doc.data = Option.none →
        extractField h1Pat doc.data = "" ∧ subPat h1Pat true v.data doc.data = doc.data)
      ∧ (searchPat titlePat doc.data = Option.none →
        extractField titlePat doc.data = "" ∧ subPat titlePat true v.data doc.data = doc.data)
      ∧ (∀ nm : String, searchPat (metaNamePat nm true) doc.data = Option.none →
          extractField (metaNamePat nm true) doc.data = ""
            ∧ subPat (metaNamePat nm false) true v.data doc.data = doc.data)
      ∧ (searchPat (ogPat true) doc.data = Option.none →
          extractField (ogPat true) doc.data = ""
            ∧ subPat (ogPat false) true v.data doc.data = doc.data)
      ∧ (searchPat appsPat doc.data = Option.none →
          (∀ st : LPState, loadModel doc = Except.ok st → st.apps = PyVal.list [])
            ∧ ∀ ds : List Char, subPat appsPat false ds doc.data = doc.data) := by
  intro doc v
  refine ⟨?_, ?_, ?_, ?_, ?_, ?_⟩
  · intro h
    exact ⟨by simp [extractField, h], subPat_no_match h true v.data⟩
  · intro h
    exact ⟨by simp [extractField, h], subPat_no_match h true v.data⟩
  · intro h
    exact ⟨by simp [extractField, h], subPat_no_match h true v.data⟩
  · intro nm h
    have hf : searchPat (metaNamePat nm false) doc.data = Option.none :=
      searchPat_dotall_mono doc.data h
    exact ⟨by simp [extractField, h], subPat_no_match hf true v.data⟩
  · intro h
    have hf : searchPat (ogPat false) doc.data = Option.none :=
      searchPat_dotall_mono doc.data h
    exact ⟨by simp [extractField, h], subPat_no_match hf true v.data⟩
  · intro h
    constructor
    · intro st hload
      unfold loadModel at hload
      rw [h] at hload
      cases hload
      rfl
    · intro ds
      exact subPat_no_match h false ds

theorem claim_C6_missing_marker_defaults_witness :
    (extractField logoPat "hello".data = ""
        ∧ subPat logoPat true "z".data "hello".data = "hello".data)
      ∧ (extractField h1Pat "hello".data = ""
        ∧ subPat h1Pat true "z".data "hello".data = "hello".data)
      ∧ (extractField (metaNamePat "description" true) "hello".data = ""
        ∧ subPat (metaNamePat "description" false) true "z".data "hello".data = "hello".data)
      ∧ ((∀ st : LPState, loadModel "hello" = Except.ok st → st.apps = PyVal.list [])
        ∧ ∀ ds : List Char, subPat appsPat false ds "hello".data = "hello".data) :=
  ⟨(claim_C6_missing_marker_defaults "hello" "z").1 rfl,
   (claim_C6_missing_marker_defaults "hello" "z").2.1 rfl,
   (claim_C6_missing_marker_defaults "hello" "z").2.2.2.1 "description" rfl,
   (claim_C6_missing_marker_defaults "hello" "z").2.2.2.2.2 rfl⟩

/-- **C3, counterexample.**  `re.search` extracts from the first marker
only, but `re.sub` rewrites every marker occurrence: on a document with
two `<h1>` elements, Extract-then-Rewrite with the state unchanged
rewrites the second heading with the first's text — the document changes
outside the settings-object and array-literal spans (the document has
neither such span, as the last two conjuncts confirm). -/
theorem claim_C3_counterexample :
    loadModel "<h1>a</h1><h1>b</h1>"
        = Except.ok ⟨"<h1>a</h1><h1>b</h1>", "", "a", "", "", "", "", "", "", "", "",
            PyVal.list []⟩
      ∧ saveModel ⟨"<h1>a</h1><h1>b</h1>", "", "a", "", "", "", "", "", "", "", "",
            PyVal.list []⟩
          = Except.ok "<h1>a</h1><h1>a</h1>"
      ∧ ("<h1>a</h1><h1>a</h1>" : String) ≠ "<h1>a</h1><h1>b</h1>"
      ∧ searchPat setLoadPat "<h1>a</h1><h1>b</h1>".data = Option.none
      ∧ searchPat appsPat "<h1>a</h1><h1>b</h1>".data = Option.none :=
  ⟨rfl, rfl, by decide, rfl, rfl⟩

/-! ### Reconstruction lemmas: a match decomposes the text -/

theorem prefix_reconstruct {s cs : List Char} (h : s.isPrefixOf cs = true) :
    cs = s ++ cs.drop s.length :=
  (List.prefix_iff_eq_append.mp (List.isPrefixOf_iff_prefix.mp h)).symm

theorem split_prefix {s cs : List Char} (h : s.isPrefixOf cs = true) :
    ∃ d, cs = s ++ d ∧ cs.drop s.length = d :=
  ⟨cs.drop s.length, prefix_reconstruct h, rfl⟩

theorem split_takeWhile (q : Char → Bool) (cs : List Char) :
    ∃ t w, cs = t ++ w ∧ cs.takeWhile q = t ∧ cs.dropWhile q = w :=
  ⟨cs.takeWhile q, cs.dropWhile q, (List.takeWhile_append_dropWhile q cs).symm, rfl, rfl⟩

theorem matchAtom_sound (a : Atom) (cs t r : List Char)
    (h : matchAtom a cs = Option.some (t, r)) : cs = t ++ r := by
  cases a with
  | lit s =>
      simp only [matchAtom] at h
      split at h
      · cases h
        exact prefix_reconstruct (by assumption)
      · cases h
  | ws1 =>
      simp only [matchAtom] at h
      split at h
      · cases h
      · cases h
        exact (List.takeWhile_append_dropWhile pySpace cs).symm
  | ws0 =>
      simp only [matchAtom] at h
      cases h
      exact (List.takeWhile_append_dropWhile pySpace cs).symm
  | opt s =>
      simp only [matchAtom] at h
      split at h
      · cases h
        exact prefix_reconstruct (by assumption)
      · cases h
        rfl

theorem matchAtoms_sound : ∀ (as : List Atom) (cs t r : List Char),
    matchAtoms as cs = Option.some (t, r) → cs = t ++ r := by
  intro as
  induction as with
  | nil =>
      intro cs t r h
      cases h
      rfl
  | cons a as ih =>
      intro cs t r h
      simp only [matchAtoms] at h
      cases h1 : matchAtom a cs with
      | none => rw [h1] at h; cases h
      | some p =>
          obtain ⟨t1, r1⟩ := p
          rw [h1] at h
          dsimp only at h
          cases h2 : matchAtoms as r1 with
          | none => rw [h2] at h; cases h
          | some q =>
              obtain ⟨t2, r2⟩ := q
              rw [h2] at h
              dsimp only at h
              cases h
              rw [matchAtom_sound a cs _ _ h1, ih _ _ _ h2]
              simp [List.append_assoc]

theorem lazyStop_sound (capR : List Char) (post : List Atom) (cs pt r : List Char)
    (h : lazyStop capR post cs = Option.some (pt, r)) : cs = capR ++ pt ++ r := by
  simp only [lazyStop] at h
  split at h
  · calc cs = capR ++ cs.drop capR.length := prefix_reconstruct (by assumption)
      _ = capR ++ (pt ++ r) := by rw [matchAtoms_sound post (cs.drop capR.length) pt r h]
      _ = capR ++ pt ++ r := (List.append_assoc _ _ _).symm
  · cases h

theorem lazyScan_sound (d : Bool) (capR : List Char) (post : List Atom) :
    ∀ (cs i pt r : List Char),
    lazyScan d capR post cs = Option.some (i, pt, r) → cs = i ++ capR ++ pt ++ r := by
  intro cs
  induction cs with
  | nil =>
      intro i pt r h
      simp only [lazyScan] at h
      cases h1 : lazyStop capR post ([] : List Char) with
      | some p =>
          obtain ⟨pt1, r1⟩ := p
          rw [h1] at h
          dsimp only at h
          cases h
          simpa using lazyStop_sound capR post [] _ _ h1
      | none => rw [h1] at h; cases h
  | cons c cs2 ih =>
      intro i pt r h
      simp only [lazyScan] at h
      cases h1 : lazyStop capR post (c :: cs2) with
      | some p =>
          obtain ⟨pt1, r1⟩ := p
          rw [h1] at h
          dsimp only at h
          cases h
          simpa using lazyStop_sound capR post (c :: cs2) _ _ h1
      | none =>
          rw [h1] at h
          dsimp only at h
          split at h
          · cases h
          · cases h2 : lazyScan d capR post cs2 with
            | none => rw [h2] at h; cases h
            | some q =>
                obtain ⟨i2, pt2, r2⟩ := q
                rw [h2] at h
                dsimp only at h
                cases h
                have := ih _ _ _ h2
                simp [this, List.append_assoc]

theorem patMatchAt_sound (p : Pat) (cs : List Char) (r : PatRes)
    (h : patMatchAt p cs = Option.some r) :
    cs = r.preT ++ p.capL ++ r.inner ++ p.capR ++ r.postT ++ r.rest := by
  unfold patMatchAt at h
  cases h1 : matchAtoms p.pre cs with
  | none => rw [h1] at h; cases h
  | some q =>
      obtain ⟨pt, r1⟩ := q
      rw [h1] at h
      dsimp only at h
      have e1 : cs = pt ++ r1 := matchAtoms_sound p.pre cs pt r1 h1
      split at h
      · rename_i hp
        obtain ⟨D, hr1, hdrop⟩ := split_prefix hp
        rw [hdrop] at h
        cases hcap : p.cap with
        | lazyAny d =>
            rw [hcap] at h
            dsimp only at h
            cases h2 : lazyScan d p.capR p.post D with
            | none => rw [h2] at h; cases h
            | some t =>
                obtain ⟨i, postT, rest⟩ := t
                rw [h2] at h
                dsimp only at h
                cases h
                have e2 := lazyScan_sound d p.capR p.post D i postT rest h2
                dsimp only
                rw [e1, hr1, e2]
                simp [List.append_assoc]
        | notQuote1 =>
            rw [hcap] at h
            dsimp only at h
            obtain ⟨T, W, hDsplit, hT, hW⟩ := split_takeWhile notQuote D
            rw [hT, hW] at h
            split at h
            · cases h
            · split at h
              · rename_i hp2
                obtain ⟨E, hWsplit, hdrop2⟩ := split_prefix hp2
                rw [hdrop2] at h
                cases h3 : matchAtoms p.post E with
                | none => rw [h3] at h; cases h
                | some q2 =>
                    obtain ⟨postT, rest⟩ := q2
                    rw [h3] at h
                    dsimp only at h
                    cases h
                    have e5 : E = postT ++ rest := matchAtoms_sound p.post E postT rest h3
                    dsimp only
                    rw [e1, hr1, hDsplit, hWsplit, e5]
                    simp [List.append_assoc]
              · cases h
        | digits1 =>
            rw [hcap] at h
            dsimp only at h
            obtain ⟨T, W, hDsplit, hT, hW⟩ := split_takeWhile Char.isDigit D
            rw [hT, hW] at h
            split at h
            · cases h
            · split at h
              · rename_i hp2
                obtain ⟨E, hWsplit, hdrop2⟩ := split_prefix hp2
                rw [hdrop2] at h
                cases h3 : matchAtoms p.post E with
                | none => rw [h3] at h; cases h
                | some q2 =>
                    obtain ⟨postT, rest⟩ := q2
                    rw [h3] at h
                    dsimp only at h
                    cases h
                    have e5 : E = postT ++ rest := matchAtoms_sound p.post E postT rest h3
                    dsimp only
                    rw [e1, hr1, hDsplit, hWsplit, e5]
                    simp [List.append_assoc]
              · cases h
      · cases h

theorem searchPat_sound (p : Pat) : ∀ (cs b : List Char) (r : PatRes),
    searchPat p cs = Option.some (b, r) →
    cs = b ++ r.preT ++ p.capL ++ r.inner ++ p.capR ++ r.postT ++ r.rest := by
  intro cs
  induction cs with
  | nil =>
      intro b r h
      simp only [searchPat] at h
      cases h1 : patMatchAt p [] with
      | some r0 =>
          rw [h1] at h
          dsimp only at h
          cases h
          simpa [List.append_assoc] using patMatchAt_sound p [] _ h1
      | none => rw [h1] at h; cases h
  | cons c cs2 ih =>
      intro b r h
      simp only [searchPat] at h
      cases h1 : patMatchAt p (c :: cs2) with
      | some r0 =>
          rw [h1] at h
          dsimp only at h
          cases h
          simpa [List.append_assoc] using patMatchAt_sound p (c :: cs2) _ h1
      | none =>
          rw [h1] at h
          dsimp only at h
          cases h2 : searchPat p cs2 with
          | none => rw [h2] at h; cases h
          | some q =>
              obtain ⟨b2, r2⟩ := q
              rw [h2] at h
              dsimp only at h
              cases h
              have := ih _ _ h2
              simp [this, List.append_assoc]

theorem subPatAux_succ (p : Pat) (keep : Bool) (repl : List Char) (f : Nat) (cs : List Char) :
    subPatAux p keep repl (Nat.succ f) cs
      = match searchPat p cs with
        | Option.none => cs
        | Option.some (before, r) =>
            before ++ (if keep then r.preT ++ repl ++ r.postT else repl)
              ++ subPatAux p keep repl f r.rest := rfl

theorem subPatAux_no_match (p : Pat) (keep : Bool) (repl : List Char) (fuel : Nat)
    (cs : List Char) (h : searchPat p cs = Option.none) :
    subPatAux p keep repl fuel cs = cs := by
  cases fuel with
  | zero => rfl
  | succ f => rw [subPatAux_succ, h]

/-- Substituting back the extracted value through a pattern that occurs
at most once (and whose capture carries no delimiters of its own) leaves
the text unchanged. -/
theorem subPat_extract_id (p : Pat) (hL : p.capL = []) (hR : p.capR = [])
    (cs : List Char) (hone : atMostOnceB p cs = true) :
    subPat p true (extractField p cs).data cs = cs := by
  cases hs : searchPat p cs with
  | none => exact subPat_no_match hs true _
  | some q =>
      obtain ⟨b, r⟩ := q
      have hrest : searchPat p r.rest = Option.none := by
        unfold atMostOnceB at hone
        rw [hs] at hone
        dsimp only at hone
        exact Option.isNone_iff_eq_none.mp hone
      have hext : extractField p cs = String.mk r.inner := by
        unfold extractField
        rw [hs]
      rw [hext]
      show subPatAux p true r.inner (Nat.succ cs.length) cs = cs
      rw [subPatAux_succ, hs]
      dsimp only
      rw [if_pos rfl, subPatAux_no_match p true r.inner cs.length r.rest hrest]
      have := searchPat_sound p cs b r hs
      rw [hL, hR] at this
      rw [this]
      simp [List.append_assoc]

theorem extractField_congr {p q : Pat} {cs : List Char}
    (h : searchPat p cs = searchPat q cs) : extractField p cs = extractField q cs := by
  unfold extractField
  rw [h]

/-- Variant for a field whose extraction and rewrite markers differ
syntactically but agree on the text at hand. -/
theorem subPat_extract_id_pair (p q : Pat) (hL : q.capL = []) (hR : q.capR = [])
    (cs : List Char) (heq : searchPat q cs = searchPat p cs)
    (hone : atMostOnceB q cs = true) :
    subPat q true (extractField p cs).data cs = cs := by
  rw [← extractField_congr heq]
  exact subPat_extract_id q hL hR cs hone

/-- The core of the amended round trip: on a freshly-extracted state, the
eight field substitutions of `save` leave the document unchanged, so the
saved text is the original rewritten only at the settings-object and
array-literal spans. -/
theorem saveModel_fields_id
    (doc it key : String) (apps : PyVal)
    (hlogo : atMostOnceB logoPat doc.data = true)
    (hh1 : atMostOnceB h1Pat doc.data = true)
    (htagEq : searchPat taglineSavePat doc.data = searchPat taglineLoadPat doc.data)
    (htag : atMostOnceB taglineSavePat doc.data = true)
    (htitle : atMostOnceB titlePat doc.data = true)
    (hdescEq : searchPat (metaNamePat "description" false) doc.data
      = searchPat (metaNamePat "description" true) doc.data)
    (hdesc : atMostOnceB (metaNamePat "description" false) doc.data = true)
    (hkwEq : searchPat (metaNamePat "keywords" false) doc.data
      = searchPat (metaNamePat "keywords" true) doc.data)
    (hkw : atMostOnceB (metaNamePat "keywords" false) doc.data = true)
    (hogEq : searchPat (ogPat false) doc.data = searchPat (ogPat true) doc.data)
    (hog : atMostOnceB (ogPat false) doc.data = true)
    (htwEq : searchPat (metaNamePat "twitter:image" false) doc.data
      = searchPat (metaNamePat "twitter:image" true) doc.data)
    (htw : atMostOnceB (metaNamePat "twitter:image" false) doc.data = true)
    (js : String) (hjs : settingsJson it key = Except.ok js)
    (ds : List Pydict) (hds : asPydicts apps = Option.some ds) :
    saveModel ⟨doc, extractField logoPat doc.data, extractField h1Pat doc.data,
        extractField taglineLoadPat doc.data, extractField titlePat doc.data,
        extractField (metaNamePat "description" true) doc.data,
        extractField (metaNamePat "keywords" true) doc.data,
        extractField (ogPat true) doc.data,
        extractField (metaNamePat "twitter:image" true) doc.data,
        it, key, apps⟩
      = Except.ok (String.mk (subPat appsPat false (python_apps_to_js ds).data
          (subPat setSavePat true js.data doc.data))) := by
  unfold saveModel
  dsimp only
  rw [subPat_extract_id logoPat rfl rfl doc.data hlogo,
    subPat_extract_id h1Pat rfl rfl doc.data hh1,
    subPat_extract_id_pair taglineLoadPat taglineSavePat rfl rfl doc.data htagEq htag,
    subPat_extract_id titlePat rfl rfl doc.data htitle,
    subPat_extract_id_pair (metaNamePat "description" true) (metaNamePat "description" false)
      rfl rfl doc.data hdescEq hdesc, ite_self,
    subPat_extract_id_pair (metaNamePat "keywords" true) (metaNamePat "keywords" false)
      rfl rfl doc.data hkwEq hkw, ite_self,
    subPat_extract_id_pair (ogPat true) (ogPat false) rfl rfl doc.data hogEq hog, ite_self,
    subPat_extract_id_pair (metaNamePat "twitter:image" true) (metaNamePat "twitter:image" false)
      rfl rfl doc.data htwEq htw, ite_self,
    hjs]
  dsimp only
  rw [hds]

/-- **C3, amended.**  Extract-then-Rewrite with the extracted Field Set
and Record List unchanged reproduces the document outside the
settings-object and array-literal spans (which are re-normalized),
provided every rewrite marker occurs at most once in the document and
matches exactly where its extraction marker does (`re.sub` rewrites every
occurrence and the tagline/meta rewrite markers are laxer than their
extraction markers, so without these conditions the property fails — see
the counterexample). -/
theorem claim_C3_roundtrip_outside_spans
    (doc : String) (st : LPState) (hload : loadModel doc = Except.ok st)
    (hlogo : atMostOnceB logoPat doc.data = true)
    (hh1 : atMostOnceB h1Pat doc.data = true)
    (htagEq : searchPat taglineSavePat doc.data = searchPat taglineLoadPat doc.data)
    (htag : atMostOnceB taglineSavePat doc.data = true)
    (htitle : atMostOnceB titlePat doc.data = true)
    (hdescEq : searchPat (metaNamePat "description" false) doc.data
      = searchPat (metaNamePat "description" true) doc.data)
    (hdesc : atMostOnceB (metaNamePat "description" false) doc.data = true)
    (hkwEq : searchPat (metaNamePat "keywords" false) doc.data
      = searchPat (metaNamePat "keywords" true) doc.data)
    (hkw : atMostOnceB (metaNamePat "keywords" false) doc.data = true)
    (hogEq : searchPat (ogPat false) doc.data = searchPat (ogPat true) doc.data)
    (hog : atMostOnceB (ogPat false) doc.data = true)
    (htwEq : searchPat (metaNamePat "twitter:image" false) doc.data
      = searchPat (metaNamePat "twitter:image" true) doc.data)
    (htw : atMostOnceB (metaNamePat "twitter:image" false) doc.data = true)
    (js : String) (hjs : settingsJson st.cpab_it st.cpab_key = Except.ok js)
    (ds : List Pydict) (hds : asPydicts st.apps = Option.some ds) :
    saveModel st = Except.ok (String.mk (subPat appsPat false (python_apps_to_js ds).data
        (subPat setSavePat true js.data doc.data))) := by
  unfold loadModel at hload
  cases happs : searchPat appsPat doc.data with
  | none =>
      rw [happs] at hload
      dsimp only at hload
      cases hload
      exact saveModel_fields_id doc _ _ _ hlogo hh1 htagEq htag htitle hdescEq hdesc
        hkwEq hkw hogEq hog htwEq htw js hjs ds hds
  | some q =>
      obtain ⟨b0, r0⟩ := q
      rw [happs] at hload
      dsimp only at hload
      cases hfb : js_apps_to_python_fb (String.mk ('[' :: r0.inner ++ [']'])) with
      | error e => rw [hfb] at hload; cases hload
      | ok apps =>
          rw [hfb] at hload
          dsimp only at hload
          cases hload
          exact saveModel_fields_id doc _ _ _ hlogo hh1 htagEq htag htitle hdescEq hdesc
            hkwEq hkw hogEq hog htwEq htw js hjs ds hds

set_option maxRecDepth 8000 in
theorem claim_C3_roundtrip_outside_spans_witness :
    saveModel ⟨"<img class=\"logo\" src=\"l.png\"><h1>T</h1><p class=\"tagline\">t</p><title>ti</title><meta name=\"description\" content=\"d\"><meta name=\"keywords\" content=\"k\"><meta property=\"og:image\" content=\"o\"><meta name=\"twitter:image\" content=\"w\">var CPABUILDSETTINGS = \x7b\"it\": 3, \"key\": \"K\"\x7d;const APPS = [];",
        "l.png", "T", "t", "ti", "d", "k", "o", "w", "3", "K", PyVal.list []⟩
      = Except.ok (String.mk (subPat appsPat false (python_apps_to_js []).data
          (subPat setSavePat true "\x7b\"it\": 3, \"key\": \"K\"\x7d".data
            "<img class=\"logo\" src=\"l.png\"><h1>T</h1><p class=\"tagline\">t</p><title>ti</title><meta name=\"description\" content=\"d\"><meta name=\"keywords\" content=\"k\"><meta property=\"og:image\" content=\"o\"><meta name=\"twitter:image\" content=\"w\">var CPABUILDSETTINGS = \x7b\"it\": 3, \"key\": \"K\"\x7d;const APPS = [];".data))) :=
  claim_C3_roundtrip_outside_spans
    "<img class=\"logo\" src=\"l.png\"><h1>T</h1><p class=\"tagline\">t</p><title>ti</title><meta name=\"description\" content=\"d\"><meta name=\"keywords\" content=\"k\"><meta property=\"og:image\" content=\"o\"><meta name=\"twitter:image\" content=\"w\">var CPABUILDSETTINGS = \x7b\"it\": 3, \"key\": \"K\"\x7d;const APPS = [];"
    ⟨"<img class=\"logo\" src=\"l.png\"><h1>T</h1><p class=\"tagline\">t</p><title>ti</title><meta name=\"description\" content=\"d\"><meta name=\"keywords\" content=\"k\"><meta property=\"og:image\" content=\"o\"><meta name=\"twitter:image\" content=\"w\">var CPABUILDSETTINGS = \x7b\"it\": 3, \"key\": \"K\"\x7d;const APPS = [];",
      "l.png", "T", "t", "ti", "d", "k", "o", "w", "3", "K", PyVal.list []⟩
    rfl rfl rfl rfl rfl rfl rfl rfl rfl rfl rfl rfl rfl rfl
    "\x7b\"it\": 3, \"key\": \"K\"\x7d" rfl [] rfl

/-! ### Scanner fixpoints and junction steps -/

theorem substWord_cons_nonword {w0 : Char} {wr repl : List Char}
    (hw0 : isWordChar w0 = true) {c : Char} (hc : isWordChar c = false)
    (p : Bool) (cs : List Char) :
    substWord w0 wr repl p (c :: cs) = c :: substWord w0 wr repl false cs := by
  rw [substWord_cons, nonword_beq_word hw0 hc]
  simp [hc]

/-- A text free of the pattern as a substring is untouched by the word
rewrite, whatever the boundary flag. -/
theorem substWord_fix {w0 : Char} {wr repl : List Char} :
    ∀ (v : List Char), hasSub (w0 :: wr) v = false →
      ∀ p, substWord w0 wr repl p v = v := by
  intro v
  induction v with
  | nil => intro _ p; rfl
  | cons c cs ih =>
      intro h p
      simp only [hasSub, Bool.or_eq_false_iff] at h
      obtain ⟨h1, h2⟩ := h
      rw [substWord_cons]
      have hcond : (!p && c == w0 && wr.isPrefixOf cs && noWordAhead (cs.drop wr.length))
          = false := by
        simp only [List.isPrefixOf, Bool.and_eq_false_iff] at h1
        rcases h1 with h1 | h1
        · cases hb : (c == w0) with
          | false => simp [hb]
          | true =>
              rw [show w0 = c from (eq_of_beq hb).symm] at h1
              simp at h1
        · simp [h1]
      rw [hcond, if_neg (by simp)]
      rw [ih h2]

theorem quoteKeys_cons_nonident {c : Char} (hc : isWordChar c = false)
    (p : Bool) (cs : List Char) :
    quoteKeys p (c :: cs) = c :: quoteKeys false cs := by
  rw [quoteKeys_cons, identStart_false_of_nonword hc]
  simp [hc]

theorem headIsColon_mem {l : List Char} (h : headIsColon l = true) : ':' ∈ l := by
  cases l with
  | nil => cases h
  | cons d r =>
      simp only [headIsColon] at h
      rw [eq_of_beq h]
      simp

theorem mem_dropWhile_subset {q : Char → Bool} {x : Char} :
    ∀ {l : List Char}, x ∈ l.dropWhile q → x ∈ l := by
  intro l
  induction l with
  | nil => intro h; cases h
  | cons c cs ih =>
      intro h
      rw [List.dropWhile_cons] at h
      by_cases hq : q c
      · rw [if_pos hq] at h
        exact List.mem_cons_of_mem c (ih h)
      · rw [if_neg hq] at h
        exact h

theorem all_of_dropWhile {pred q : Char → Bool} {cs : List Char} (h : cs.all pred = true) :
    (cs.dropWhile q).all pred = true := by
  rw [List.all_eq_true] at h ⊢
  intro x hx
  exact h x (mem_dropWhile_subset hx)

/-- A colon-free text is untouched by the key-quoting rewrite. -/
theorem quoteKeys_fix :
    ∀ (n : Nat) (v : List Char), v.length ≤ n →
      v.all (fun c => !(c == ':')) = true → ∀ p, quoteKeys p v = v := by
  intro n
  induction n with
  | zero =>
      intro v hv _ p
      have : v = [] := List.eq_nil_of_length_eq_zero (Nat.le_zero.mp hv)
      subst this
      rfl
  | succ n ih =>
      intro v hv hcol p
      cases v with
      | nil => rfl
      | cons c cs =>
          simp only [List.all_cons, Bool.and_eq_true] at hcol
          obtain ⟨hc, hcs⟩ := hcol
          have hlen : cs.length ≤ n := by simpa using hv
          rw [quoteKeys_cons]
          by_cases h1 : (!p && identStart c) = true
          · rw [h1, if_pos rfl]
            have hnc : headIsColon ((cs.dropWhile isWordChar).dropWhile pySpace) = false := by
              cases hh : headIsColon ((cs.dropWhile isWordChar).dropWhile pySpace) with
              | false => rfl
              | true =>
                  have hmem : ':' ∈ cs :=
                    mem_dropWhile_subset (mem_dropWhile_subset (headIsColon_mem hh))
                  have hx := List.all_eq_true.mp hcs ':' hmem
                  simp at hx
            rw [hnc]
            rw [if_neg (by simp)]
            rw [ih (cs.dropWhile isWordChar) (le_trans (length_dropWhile_le _ _) hlen)
              (all_of_dropWhile hcs) true]
            rw [List.cons_append, List.takeWhile_append_dropWhile]
          · have h1f : (!p && identStart c) = false := by
              revert h1
              cases (!p && identStart c) <;> simp
            rw [h1f]
            rw [if_neg (by simp)]
            rw [ih cs hlen hcs (isWordChar c)]

theorem pyStrip_bracket (x : List Char) :
    pyStrip ('[' :: (x ++ [']'])) = '[' :: (x ++ [']']) := by
  unfold pyStrip
  have h1 : List.dropWhile pySpace ('[' :: (x ++ [']'])) = '[' :: (x ++ [']']) := by
    rw [List.dropWhile_cons]
    simp [pySpace]
  rw [h1]
  have h2 : ('[' :: (x ++ [']'])).reverse = ']' :: (x.reverse ++ ['[']) := by
    simp
  rw [h2, List.dropWhile_cons]
  simp [pySpace]

theorem parseStrBody_good : ∀ (v : List Char), strOk v = true →
    ∀ k, parseStrBody (v ++ '"' :: k) = Option.some (v, k) := by
  intro v
  induction v with
  | nil => intro _ k; rfl
  | cons c cs ih =>
      intro h k
      simp only [strOk, List.all_cons, Bool.and_eq_true] at h
      obtain ⟨⟨⟨hq0, hb0⟩, hn0⟩, h4⟩ := h
      have hq : ¬(c = '"') := by intro he; subst he; simp at hq0
      have hb : ¬(c = '\\') := by intro he; subst he; simp at hb0
      have hn : ¬(c = '\n') := by intro he; subst he; simp at hn0
      have ih2 := ih (by simpa [strOk] using h4) k
      show parseStrBody (c :: (cs ++ '"' :: k)) = Option.some (c :: cs, k)
      rw [parseStrBody.eq_def]
      split
      · rename_i heq
        simp at heq
      · simp_all
      · simp_all
      · simp_all
      · rename_i heq
        injection heq with ha hb2
        subst ha
        subst hb2
        rw [ih2]
        rfl

theorem parseSumTail_stop {k : List Char} (hk : noPlus k = true) (g : Nat) (a : PyExpr) :
    parseSumTail (g + 1) a k = Except.ok (a, k) := by
  unfold noPlus at hk
  show parseSumTail (Nat.succ g) a k = Except.ok (a, k)
  rw [parseSumTail]
  split
  · rename_i r heq
    rw [heq] at hk
    exact Bool.noConfusion hk
  · rfl

theorem parseExpr_str {cs v k : List Char} (hsw : skipWs cs = '"' :: (v ++ '"' :: k))
    (hv : strOk v = true) (hk : noPlus k = true) (g : Nat) :
    parseExpr (g + 2) cs = Except.ok (PyExpr.str (String.mk v), k) := by
  show parseExpr (Nat.succ (g + 1)) cs = _
  rw [parseExpr]
  show (match parsePrimary (g + 1) cs with
    | Except.error e => Except.error e
    | Except.ok (e, r) => parseSumTail (g + 1) e r) = _
  have hp : parsePrimary (g + 1) cs = Except.ok (PyExpr.str (String.mk v), k) := by
    show parsePrimary (Nat.succ g) cs = _
    rw [parsePrimary]
    rw [hsw]
    show (match parseStrBody (v ++ '"' :: k) with
      | Option.some (s, r2) => Except.ok (PyExpr.str (String.mk s), r2)
      | Option.none => Except.error "unterminated string literal") = _
    rw [parseStrBody_good v hv k]
  rw [hp]
  show parseSumTail (g + 1) (PyExpr.str (String.mk v)) k = _
  exact parseSumTail_stop hk g _

/-! ### The word-rewrite passes over the encoded template -/

theorem substWord_platBody {w0 : Char} {wr repl : List Char}
    (hw0 : isWordChar w0 = true) (hwr : ∀ x ∈ wr, isWordChar x = true) :
    ∀ (ps : List String), (∀ p ∈ ps, hasSub (w0 :: wr) p.data = false) →
      ∀ k, substWord w0 wr repl false (platBody ps ++ ']' :: k)
        = platBody ps ++ ']' :: substWord w0 wr repl false k := by
  have hq : isWordChar '"' = false := by decide
  have hbr : isWordChar ']' = false := by decide
  have hcm : isWordChar ',' = false := by decide
  have hsp : isWordChar ' ' = false := by decide
  intro ps
  induction ps with
  | nil =>
      intro _ k
      simp only [platBody, List.nil_append]
      rw [substWord_cons_nonword hw0 hbr]
  | cons p ps ih =>
      intro hps k
      have hp : hasSub (w0 :: wr) p.data = false := hps p (by simp)
      cases ps with
      | nil =>
          simp only [platBody, List.cons_append, List.nil_append, List.append_assoc]
          rw [substWord_cons_nonword hw0 hq]
          rw [substWord_append hw0 hwr hq]
          rw [substWord_fix p.data hp false]
          rw [substWord_cons_nonword hw0 hbr]
      | cons p2 ps2 =>
          have hps2 : ∀ x ∈ p2 :: ps2, hasSub (w0 :: wr) x.data = false := by
            intro x hx
            exact hps x (by simp [hx])
          simp only [platBody, List.cons_append, List.append_assoc]
          rw [substWord_cons_nonword hw0 hq]
          rw [substWord_append hw0 hwr hq]
          rw [substWord_fix p.data hp false]
          rw [substWord_cons_nonword hw0 hcm, substWord_cons_nonword hw0 hsp]
          rw [ih hps2 k]

theorem substWord_chunkBR {w0 : Char} {wr repl : List Char}
    (hw0 : isWordChar w0 = true) (hwr : ∀ x ∈ wr, isWordChar x = true)
    (t f t' f' : String) (r : AppRecord)
    (hname : hasSub (w0 :: wr) r.name.data = false)
    (hicon : hasSub (w0 :: wr) r.icon.data = false)
    (hlock : hasSub (w0 :: wr) r.locker_id.data = false)
    (hplats : ∀ p ∈ r.platforms, hasSub (w0 :: wr) p.data = false)
    (hpN : substWord w0 wr repl false pN = pN)
    (hpI : substWord w0 wr repl false pI = pI)
    (hpL : substWord w0 wr repl false pL = pL)
    (hpP : substWord w0 wr repl false pP = pP)
    (htail : ∀ b1 b2, substWord w0 wr repl false (pTail t f b1 b2) = pTail t' f' b1 b2) :
    substWord w0 wr repl false (chunkBR t f r) = chunkBR t' f' r := by
  have hq : isWordChar '"' = false := by decide
  have hob : isWordChar '[' = false := by decide
  have hnl : isWordChar '\n' = false := by decide
  have hsp : isWordChar ' ' = false := by decide
  have hcb : isWordChar '\x7b' = false := by decide
  unfold chunkBR chunkInnerR
  rw [substWord_cons_nonword hw0 hnl, substWord_cons_nonword hw0 hsp,
    substWord_cons_nonword hw0 hsp, substWord_cons_nonword hw0 hcb]
  rw [substWord_append hw0 hwr hq]
  rw [hpN]
  rw [substWord_append hw0 hwr hq]
  rw [substWord_fix r.name.data hname false]
  rw [substWord_append hw0 hwr hq]
  rw [hpI]
  rw [substWord_append hw0 hwr hq]
  rw [substWord_fix r.icon.data hicon false]
  rw [substWord_append hw0 hwr hq]
  rw [hpL]
  rw [substWord_append hw0 hwr hq]
  rw [substWord_fix r.locker_id.data hlock false]
  rw [substWord_append hw0 hwr hob]
  rw [hpP]
  rw [substWord_platBody hw0 hwr r.platforms hplats]
  rw [htail r.trending r.featured]

theorem substWord_chunksTR {w0 : Char} {wr repl : List Char}
    (hw0 : isWordChar w0 = true) (hwr : ∀ x ∈ wr, isWordChar x = true)
    (t f t' f' : String) :
    ∀ (rs : List AppRecord),
      (∀ r ∈ rs, substWord w0 wr repl false (chunkBR t f r) = chunkBR t' f' r) →
      substWord w0 wr repl false (chunksTR t f rs ++ [']'])
        = chunksTR t' f' rs ++ [']'] := by
  have hbr : isWordChar ']' = false := by decide
  have hnl : isWordChar '\n' = false := by decide
  have hcm : isWordChar ',' = false := by decide
  intro rs
  induction rs with
  | nil =>
      intro _
      simp only [chunksTR, List.cons_append, List.nil_append]
      rw [substWord_cons_nonword hw0 hnl, substWord_cons_nonword hw0 hbr]
      rfl
  | cons r rs ih =>
      intro hrec
      simp only [chunksTR, List.cons_append, List.append_assoc]
      rw [substWord_append hw0 hwr hcm]
      rw [hrec r (by simp)]
      rw [ih (fun x hx => hrec x (by simp [hx]))]

/-! ### The key-quoting pass over the rewritten template -/

theorem quoteKeys_platBody :
    ∀ (ps : List String), (∀ p ∈ ps, p.data.all (fun c => !(c == ':')) = true) →
      ∀ k, quoteKeys false (platBody ps ++ ']' :: k)
        = platBody ps ++ ']' :: quoteKeys false k := by
  have hq1 : isWordChar '"' = false := by decide
  have hq2 : pySpace '"' = false := by decide
  have hq3 : ('"' == ':') = false := by decide
  have hbr : isWordChar ']' = false := by decide
  have hcm : isWordChar ',' = false := by decide
  have hsp : isWordChar ' ' = false := by decide
  intro ps
  induction ps with
  | nil =>
      intro _ k
      simp only [platBody, List.nil_append]
      rw [quoteKeys_cons_nonident hbr]
  | cons p ps ih =>
      intro hps k
      have hp := hps p (by simp)
      cases ps with
      | nil =>
          simp only [platBody, List.cons_append, List.nil_append, List.append_assoc]
          rw [quoteKeys_cons_nonident hq1]
          rw [quoteKeys_append hq1 hq2 hq3]
          rw [quoteKeys_fix p.data.length p.data le_rfl hp false]
          rw [quoteKeys_cons_nonident hbr]
      | cons p2 ps2 =>
          have hps2 : ∀ x ∈ p2 :: ps2, x.data.all (fun c => !(c == ':')) = true := by
            intro x hx
            exact hps x (by simp [hx])
          simp only [platBody, List.cons_append, List.append_assoc]
          rw [quoteKeys_cons_nonident hq1]
          rw [quoteKeys_append hq1 hq2 hq3]
          rw [quoteKeys_fix p.data.length p.data le_rfl hp false]
          rw [quoteKeys_cons_nonident hcm, quoteKeys_cons_nonident hsp]
          rw [ih hps2 k]

theorem quoteKeys_chunkBR (t f : String) (r : AppRecord)
    (hname : r.name.data.all (fun c => !(c == ':')) = true)
    (hicon : r.icon.data.all (fun c => !(c == ':')) = true)
    (hlock : r.locker_id.data.all (fun c => !(c == ':')) = true)
    (hplats : ∀ p ∈ r.platforms, p.data.all (fun c => !(c == ':')) = true)
    (htail : ∀ b1 b2, quoteKeys false (pTail t f b1 b2) = pTailq t f b1 b2) :
    quoteKeys false (chunkBR t f r) = chunkBQ t f r := by
  have hq1 : isWordChar '"' = false := by decide
  have hq2 : pySpace '"' = false := by decide
  have hq3 : ('"' == ':') = false := by decide
  have hob : isWordChar '[' = false := by decide
  have hnl : isWordChar '\n' = false := by decide
  have hsp : isWordChar ' ' = false := by decide
  have hcb : isWordChar '\x7b' = false := by decide
  unfold chunkBR chunkInnerR chunkBQ chunkInnerQ
  rw [quoteKeys_cons_nonident hnl, quoteKeys_cons_nonident hsp,
    quoteKeys_cons_nonident hsp, quoteKeys_cons_nonident hcb]
  rw [quoteKeys_append hq1 hq2 hq3]
  rw [show quoteKeys false pN = pNq from rfl]
  rw [quoteKeys_append hq1 hq2 hq3]
  rw [quoteKeys_fix r.name.data.length r.name.data le_rfl hname false]
  rw [quoteKeys_append hq1 hq2 hq3]
  rw [show quoteKeys false pI = pIq from rfl]
  rw [quoteKeys_append hq1 hq2 hq3]
  rw [quoteKeys_fix r.icon.data.length r.icon.data le_rfl hicon false]
  rw [quoteKeys_append hq1 hq2 hq3]
  rw [show quoteKeys false pL = pLq from rfl]
  rw [quoteKeys_append hq1 hq2 hq3]
  rw [quoteKeys_fix r.locker_id.data.length r.locker_id.data le_rfl hlock false]
  rw [quoteKeys_append (show isWordChar '[' = false from hob)
    (show pySpace '[' = false from by decide) (show ('[' == ':') = false from by decide)]
  rw [show quoteKeys false pP = pPq from rfl]
  rw [quoteKeys_platBody r.platforms hplats]
  rw [htail r.trending r.featured]

theorem quoteKeys_chunksTR (t f : String) :
    ∀ (rs : List AppRecord),
      (∀ r ∈ rs, quoteKeys false (chunkBR t f r) = chunkBQ t f r) →
      quoteKeys false (chunksTR t f rs ++ [']'])
        = chunksTQ t f rs ++ [']'] := by
  have hbr : isWordChar ']' = false := by decide
  have hnl : isWordChar '\n' = false := by decide
  have hcm1 : isWordChar ',' = false := by decide
  have hcm2 : pySpace ',' = false := by decide
  have hcm3 : (',' == ':') = false := by decide
  intro rs
  induction rs with
  | nil =>
      intro _
      simp only [chunksTR, chunksTQ, List.cons_append, List.nil_append]
      rw [quoteKeys_cons_nonident hnl, quoteKeys_cons_nonident hbr]
      rfl
  | cons r rs ih =>
      intro hrec
      simp only [chunksTR, chunksTQ, List.cons_append, List.append_assoc]
      rw [quoteKeys_append hcm1 hcm2 hcm3]
      rw [hrec r (by simp)]
      rw [ih (fun x hx => hrec x (by simp [hx]))]

/-! ### Goodness projections and the full normalization of the template -/

theorem goodStr_parts {s : String} (h : goodStr s = true) :
    hasSub "true".data s.data = false ∧ hasSub "false".data s.data = false
      ∧ hasSub "null".data s.data = false
      ∧ s.data.all (fun c => !(c == ':')) = true
      ∧ strOk s.data = true := by
  simp only [goodStr, Bool.and_eq_true] at h
  obtain ⟨⟨⟨hall, ht⟩, hf⟩, hn⟩ := h
  refine ⟨?_, ?_, ?_, ?_, ?_⟩
  · revert ht; cases hasSub "true".data s.data <;> simp
  · revert hf; cases hasSub "false".data s.data <;> simp
  · revert hn; cases hasSub "null".data s.data <;> simp
  · rw [List.all_eq_true] at hall ⊢
    intro x hx
    have := hall x hx
    simp only [Bool.and_eq_true] at this
    exact this.2
  · rw [List.all_eq_true] at hall
    rw [strOk, List.all_eq_true]
    intro x hx
    have := hall x hx
    simp only [Bool.and_eq_true] at this
    simp only [Bool.and_eq_true]
    exact ⟨⟨this.1.1.1, this.1.1.2⟩, this.1.2⟩

theorem goodRec_parts {r : AppRecord} (h : goodRec r = true) :
    goodStr r.name = true ∧ goodStr r.icon = true ∧ goodStr r.locker_id = true
      ∧ ∀ p ∈ r.platforms, goodStr p = true := by
  simp only [goodRec, Bool.and_eq_true] at h
  obtain ⟨⟨⟨h1, h2⟩, h3⟩, h4⟩ := h
  exact ⟨h1, h2, h3, List.all_eq_true.mp h4⟩

/-- The four normalization passes turn the raw encoded template into the
quoted-key, Python-token template, leaving every good value untouched. -/
theorem normalizeJs_template (rs : List AppRecord) (hgood : rs.all goodRec = true) :
    normalizeJs ('[' :: (chunksTR "true" "false" rs ++ [']']))
      = '[' :: (chunksTQ "True" "False" rs ++ [']']) := by
  have hgr : ∀ r ∈ rs, goodRec r = true := List.all_eq_true.mp hgood
  have hT : ∀ r ∈ rs, substWord 't' "rue".data "True".data false
      (chunkBR "true" "false" r) = chunkBR "True" "false" r := by
    intro r hr
    obtain ⟨hn, hi, hl, hp⟩ := goodRec_parts (hgr r hr)
    exact substWord_chunkBR (by decide) (by decide) _ _ _ _ r
      (goodStr_parts hn).1 (goodStr_parts hi).1 (goodStr_parts hl).1
      (fun p hx => (goodStr_parts (hp p hx)).1)
      rfl rfl rfl rfl
      (by intro b1 b2; cases b1 <;> cases b2 <;> rfl)
  have hF : ∀ r ∈ rs, substWord 'f' "alse".data "False".data false
      (chunkBR "True" "false" r) = chunkBR "True" "False" r := by
    intro r hr
    obtain ⟨hn, hi, hl, hp⟩ := goodRec_parts (hgr r hr)
    exact substWord_chunkBR (by decide) (by decide) _ _ _ _ r
      (goodStr_parts hn).2.1 (goodStr_parts hi).2.1 (goodStr_parts hl).2.1
      (fun p hx => (goodStr_parts (hp p hx)).2.1)
      rfl rfl rfl rfl
      (by intro b1 b2; cases b1 <;> cases b2 <;> rfl)
  have hN : ∀ r ∈ rs, substWord 'n' "ull".data "None".data false
      (chunkBR "True" "False" r) = chunkBR "True" "False" r := by
    intro r hr
    obtain ⟨hn, hi, hl, hp⟩ := goodRec_parts (hgr r hr)
    exact substWord_chunkBR (by decide) (by decide) _ _ _ _ r
      (goodStr_parts hn).2.2.1 (goodStr_parts hi).2.2.1 (goodStr_parts hl).2.2.1
      (fun p hx => (goodStr_parts (hp p hx)).2.2.1)
      rfl rfl rfl rfl
      (by intro b1 b2; cases b1 <;> cases b2 <;> rfl)
  unfold normalizeJs
  rw [pyStrip_bracket (chunksTR "true" "false" rs)]
  rw [substWord_cons_nonword (by decide) (by decide)]
  rw [substWord_chunksTR (by decide) (by decide) "true" "false" "True" "false" rs hT]
  rw [substWord_cons_nonword (by decide) (by decide)]
  rw [substWord_chunksTR (by decide) (by decide) "True" "false" "True" "False" rs hF]
  rw [substWord_cons_nonword (by decide) (by decide)]
  rw [substWord_chunksTR (by decide) (by decide) "True" "False" "True" "False" rs hN]
  rw [quoteKeys_cons_nonident (by decide)]
  rw [quoteKeys_chunksTR "True" "False" rs (by
    intro r hr
    obtain ⟨hn, hi, hl, hp⟩ := goodRec_parts (hgr r hr)
    exact quoteKeys_chunkBR _ _ r
      (goodStr_parts hn).2.2.2.1 (goodStr_parts hi).2.2.2.1 (goodStr_parts hl).2.2.2.1
      (fun p hx => (goodStr_parts (hp p hx)).2.2.2.1)
      (by intro b1 b2; cases b1 <;> cases b2 <;> rfl))]

/-! ### Parser lemmas for the normalized template -/

theorem token_take {w k : List Char} (hw : w.all isWordChar = true)
    (hk : noWordAhead k = true) :
    (w ++ k).takeWhile isWordChar = w ∧ (w ++ k).dropWhile isWordChar = k := by
  induction w with
  | nil =>
      cases k with
      | nil => exact ⟨rfl, rfl⟩
      | cons c r =>
          have hc : isWordChar c = false := by
            revert hk
            simp only [noWordAhead]
            cases isWordChar c <;> simp
          constructor
          · simp [List.takeWhile_cons, hc]
          · simp [List.dropWhile_cons, hc]
  | cons x w ih =>
      simp only [List.all_cons, Bool.and_eq_true] at hw
      obtain ⟨hx, hw2⟩ := hw
      obtain ⟨h1, h2⟩ := ih hw2
      constructor
      · simp [List.takeWhile_cons, hx, h1]
      · simp [List.dropWhile_cons, hx, h2]

theorem parsePrimary_ident {cs : List Char} {c : Char} {r : List Char}
    (hsw : skipWs cs = c :: r) (hd : ¬(c.isDigit = true)) (hi : identStart c = true)
    (g : Nat) :
    parsePrimary (Nat.succ g) cs
      = if (c :: r).takeWhile isWordChar = "True".data then
          Except.ok (PyExpr.bool true, (c :: r).dropWhile isWordChar)
        else if (c :: r).takeWhile isWordChar = "False".data then
          Except.ok (PyExpr.bool false, (c :: r).dropWhile isWordChar)
        else if (c :: r).takeWhile isWordChar = "None".data then
          Except.ok (PyExpr.none, (c :: r).dropWhile isWordChar)
        else Except.ok (PyExpr.name (String.mk ((c :: r).takeWhile isWordChar)),
          (c :: r).dropWhile isWordChar) := by
  rw [parsePrimary, hsw]
  split
  · rename_i heq
    cases heq
  · rename_i heq
    injection heq with ha hb
    rw [ha] at hi
    exact absurd hi (by decide)
  · rename_i heq
    injection heq with ha hb
    rw [ha] at hi
    exact absurd hi (by decide)
  · rename_i heq
    injection heq with ha hb
    rw [ha] at hi
    exact absurd hi (by decide)
  · rename_i c2 r2 heq
    injection heq with ha hb
    subst ha
    subst hb
    rw [if_neg hd, if_pos hi]

theorem parsePrimary_quote {cs X : List Char} (hsw : skipWs cs = '"' :: X) (g : Nat) :
    parsePrimary (Nat.succ g) cs
      = match parseStrBody X with
        | Option.some (s, r2) => Except.ok (PyExpr.str (String.mk s), r2)
        | Option.none => Except.error "unterminated string literal" := by
  rw [parsePrimary, hsw]
  rfl

theorem parsePrimary_lbrack {cs X : List Char} (hsw : skipWs cs = '[' :: X) (g : Nat) :
    parsePrimary (Nat.succ g) cs
      = match parseElems g X with
        | Except.error e => Except.error e
        | Except.ok (es, r2) => Except.ok (PyExpr.list es, r2) := by
  rw [parsePrimary, hsw]
  rfl

theorem parsePrimary_lbrace {cs X : List Char} (hsw : skipWs cs = '\x7b' :: X) (g : Nat) :
    parsePrimary (Nat.succ g) cs
      = match parseEntries g X with
        | Except.error e => Except.error e
        | Except.ok (kvs, r2) => Except.ok (PyExpr.dict kvs, r2) := by
  rw [parsePrimary, hsw]
  rfl

theorem parseExpr_TrueTok {cs k : List Char} (hsw : skipWs cs = "True".data ++ k)
    (hk : noWordAhead k = true) (hk2 : noPlus k = true) (g : Nat) :
    parseExpr (g + 2) cs = Except.ok (PyExpr.bool true, k) := by
  have hsw2 : skipWs cs = 'T' :: ("rue".data ++ k) := hsw
  obtain ⟨htw, hdw⟩ := token_take (w := "True".data) (k := k) (by decide) hk
  have htw2 : ('T' :: ("rue".data ++ k)).takeWhile isWordChar = "True".data := htw
  have hdw2 : ('T' :: ("rue".data ++ k)).dropWhile isWordChar = k := hdw
  show parseExpr (Nat.succ (g + 1)) cs = _
  rw [parseExpr]
  have hp : parsePrimary (g + 1) cs = Except.ok (PyExpr.bool true, k) := by
    show parsePrimary (Nat.succ g) cs = _
    rw [parsePrimary_ident hsw2 (by decide) (by decide) g, htw2, hdw2]
    rfl
  rw [hp]
  exact parseSumTail_stop hk2 g _

theorem parseExpr_FalseTok {cs k : List Char} (hsw : skipWs cs = "False".data ++ k)
    (hk : noWordAhead k = true) (hk2 : noPlus k = true) (g : Nat) :
    parseExpr (g + 2) cs = Except.ok (PyExpr.bool false, k) := by
  have hsw2 : skipWs cs = 'F' :: ("alse".data ++ k) := hsw
  obtain ⟨htw, hdw⟩ := token_take (w := "False".data) (k := k) (by decide) hk
  have htw2 : ('F' :: ("alse".data ++ k)).takeWhile isWordChar = "False".data := htw
  have hdw2 : ('F' :: ("alse".data ++ k)).dropWhile isWordChar = k := hdw
  show parseExpr (Nat.succ (g + 1)) cs = _
  rw [parseExpr]
  have hp : parsePrimary (g + 1) cs = Except.ok (PyExpr.bool false, k) := by
    show parsePrimary (Nat.succ g) cs = _
    rw [parsePrimary_ident hsw2 (by decide) (by decide) g, htw2, hdw2]
    rfl
  rw [hp]
  exact parseSumTail_stop hk2 g _

theorem parseExpr_boolIf {cs k : List Char} {b : Bool}
    (hsw : skipWs cs = (if b then "True".data else "False".data) ++ k)
    (hk : noWordAhead k = true) (hk2 : noPlus k = true) (g : Nat) :
    parseExpr (g + 2) cs = Except.ok (PyExpr.bool b, k) := by
  cases b
  · exact parseExpr_FalseTok hsw hk hk2 g
  · exact parseExpr_TrueTok hsw hk hk2 g

theorem parseElems_close {cs r : List Char} (hsw : skipWs cs = ']' :: r) (g : Nat) :
    parseElems (Nat.succ g) cs = Except.ok ([], r) := by
  rw [parseElems, hsw]
  rfl

theorem parsePrimary_skipWs {cs cs2 : List Char} (h : skipWs cs = skipWs cs2) (f : Nat) :
    parsePrimary (Nat.succ f) cs = parsePrimary (Nat.succ f) cs2 := by
  rw [parsePrimary, parsePrimary, h]

theorem parseExpr_skipWs {cs cs2 : List Char} (h : skipWs cs = skipWs cs2) (f : Nat) :
    parseExpr (f + 2) cs = parseExpr (f + 2) cs2 := by
  show parseExpr (Nat.succ (f + 1)) cs = parseExpr (Nat.succ (f + 1)) cs2
  rw [parseExpr, parseExpr]
  rw [show parsePrimary (f + 1) cs = parsePrimary (f + 1) cs2 from parsePrimary_skipWs h f]

theorem parseElems_skipWs {cs cs2 : List Char} (h : skipWs cs = skipWs cs2) (f : Nat) :
    parseElems (f + 3) cs = parseElems (f + 3) cs2 := by
  show parseElems (Nat.succ (f + 2)) cs = parseElems (Nat.succ (f + 2)) cs2
  rw [parseElems, parseElems, h]
  rw [show parseExpr (f + 2) cs = parseExpr (f + 2) cs2 from parseExpr_skipWs h f]

/-- The platform array elements: good strings, each parsed back verbatim. -/
theorem parseElems_plats :
    ∀ (ps : List String), (∀ p ∈ ps, strOk p.data = true) →
    ∀ (k : List Char) (g : Nat), ps.length + 2 ≤ g →
      parseElems g (platBody ps ++ ']' :: k)
        = Except.ok (ps.map (fun p => PyExpr.str p), k) := by
  intro ps
  induction ps with
  | nil =>
      intro _ k g hg
      obtain ⟨g2, rfl⟩ : ∃ g2, g = g2 + 2 := ⟨g - 2, by omega⟩
      show parseElems (Nat.succ (g2 + 1)) (']' :: k) = _
      exact parseElems_close (show skipWs (']' :: k) = ']' :: k from rfl) (g2 + 1)
  | cons p ps ih =>
      intro hps k g hg
      have hp : strOk p.data = true := hps p (by simp)
      have hg3 : ps.length + 3 ≤ g := by
        simp only [List.length_cons] at hg
        omega
      obtain ⟨g2, rfl⟩ : ∃ g2, g = g2 + 3 := ⟨g - 3, by omega⟩
      cases ps with
      | nil =>
          show parseElems (Nat.succ (g2 + 2))
            (('"' :: p.data ++ ['"']) ++ ']' :: k) = _
          have hsw : skipWs (('"' :: p.data ++ ['"']) ++ ']' :: k)
              = '"' :: (p.data ++ '"' :: (']' :: k)) := by
            simp [skipWs, List.dropWhile_cons, pySpace]
          rw [parseElems, hsw]
          have he : parseExpr (g2 + 2) (('"' :: p.data ++ ['"']) ++ ']' :: k)
              = Except.ok (PyExpr.str (String.mk p.data), ']' :: k) :=
            parseExpr_str hsw hp rfl g2
          rw [he]
          show (match skipWs (']' :: k) with
            | ',' :: r2 =>
                match parseElems (g2 + 2) r2 with
                | Except.error e2 => Except.error e2
                | Except.ok (es, r3) => Except.ok (PyExpr.str (String.mk p.data) :: es, r3)
            | ']' :: r2 => Except.ok ([PyExpr.str (String.mk p.data)], r2)
            | _ => Except.error "invalid syntax") = _
          show Except.ok ([PyExpr.str (String.mk p.data)], k) = _
          rfl
      | cons p2 ps2 =>
          have hps2 : ∀ x ∈ p2 :: ps2, strOk x.data = true := by
            intro x hx
            exact hps x (by simp [hx])
          show parseElems (Nat.succ (g2 + 2))
            (('"' :: p.data ++ '"' :: ',' :: ' ' :: platBody (p2 :: ps2)) ++ ']' :: k) = _
          have hsw : skipWs (('"' :: p.data ++ '"' :: ',' :: ' ' :: platBody (p2 :: ps2)) ++ ']' :: k)
              = '"' :: (p.data ++ '"' :: (',' :: ' ' :: platBody (p2 :: ps2) ++ ']' :: k)) := by
            simp [skipWs, List.dropWhile_cons, pySpace, List.append_assoc]
          rw [parseElems, hsw]
          have he : parseExpr (g2 + 2)
              (('"' :: p.data ++ '"' :: ',' :: ' ' :: platBody (p2 :: ps2)) ++ ']' :: k)
              = Except.ok (PyExpr.str (String.mk p.data),
                  ',' :: ' ' :: platBody (p2 :: ps2) ++ ']' :: k) := by
            refine parseExpr_str ?_ hp ?_ g2
            · simpa [List.append_assoc] using hsw
            · rfl
          rw [he]
          show (match parseElems (g2 + 2) (' ' :: platBody (p2 :: ps2) ++ ']' :: k) with
            | Except.error e2 => Except.error e2
            | Except.ok (es, r3) => Except.ok (PyExpr.str (String.mk p.data) :: es, r3)) = _
          have hrest : parseElems (g2 + 2) (' ' :: platBody (p2 :: ps2) ++ ']' :: k)
              = Except.ok ((p2 :: ps2).map (fun p => PyExpr.str p), k) := by
            have hlen : (p2 :: ps2).length + 2 ≤ g2 + 2 := by
              simp only [List.length_cons] at hg3 ⊢
              omega
            have hg1 : 1 ≤ g2 := by
              simp only [List.length_cons] at hg3
              omega
            obtain ⟨g3, rfl⟩ : ∃ g3, g2 = g3 + 1 := ⟨g2 - 1, by omega⟩
            have hws : skipWs (' ' :: platBody (p2 :: ps2) ++ ']' :: k)
                = skipWs (platBody (p2 :: ps2) ++ ']' :: k) := rfl
            rw [show (g3 + 1 + 2 : Nat) = g3 + 3 from rfl]
            rw [parseElems_skipWs hws g3]
            rw [show (g3 + 3 : Nat) = g3 + 1 + 2 from rfl]
            exact ih hps2 k (g3 + 1 + 2) hlen
          rw [hrest]
          show Except.ok (PyExpr.str (String.mk p.data) :: (p2 :: ps2).map (fun p => PyExpr.str p), k) = _
          rfl

theorem parseExpr_platList {cs k : List Char} {ps : List String}
    (hsw : skipWs cs = '[' :: (platBody ps ++ ']' :: k))
    (hps : ∀ p ∈ ps, strOk p.data = true) (hk2 : noPlus k = true) :
    ∀ g, ps.length + 4 ≤ g →
      parseExpr g cs = Except.ok (PyExpr.list (ps.map (fun p => PyExpr.str p)), k) := by
  intro g hg
  obtain ⟨g2, rfl⟩ : ∃ g2, g = g2 + 2 := ⟨g - 2, by omega⟩
  show parseExpr (Nat.succ (g2 + 1)) cs = _
  rw [parseExpr]
  have hp : parsePrimary (g2 + 1) cs
      = Except.ok (PyExpr.list (ps.map (fun p => PyExpr.str p)), k) := by
    show parsePrimary (Nat.succ g2) cs = _
    rw [parsePrimary_lbrack hsw g2]
    rw [parseElems_plats ps hps k g2 (by omega)]
  rw [hp]
  exact parseSumTail_stop hk2 g2 _

/-- The six entries of one record dict, as the normalized template lays
them out after the opening brace. -/
theorem parseEntries_record (nm ic lk : String) (ps : List String) (b1 b2 : Bool)
    (k : List Char)
    (hnm : strOk nm.data = true) (hic : strOk ic.data = true) (hlk : strOk lk.data = true)
    (hps : ∀ p ∈ ps, strOk p.data = true) :
    ∀ g, ps.length + 10 ≤ g →
    parseEntries g
        ("\n    \"name\": ".data ++ '"' :: (nm.data ++ '"' :: (",\n    \"icon\": ".data
          ++ '"' :: (ic.data ++ '"' :: (",\n    \"locker_id\": ".data
          ++ '"' :: (lk.data ++ '"' :: (",\n    \"platforms\": ".data
          ++ '[' :: (platBody ps
          ++ ']' :: (",\n    \"trending\": ".data
          ++ ((if b1 then "True".data else "False".data)
          ++ (",\n    \"featured\": ".data
          ++ ((if b2 then "True".data else "False".data)
          ++ ("\n  \x7d".data ++ k)))))))))))))
      = Except.ok
          ([(PyExpr.str "name", PyExpr.str nm), (PyExpr.str "icon", PyExpr.str ic),
            (PyExpr.str "locker_id", PyExpr.str lk),
            (PyExpr.str "platforms", PyExpr.list (ps.map (fun p => PyExpr.str p))),
            (PyExpr.str "trending", PyExpr.bool b1),
            (PyExpr.str "featured", PyExpr.bool b2)], k) := by
  have hFeat : ∀ G, 3 ≤ G →
      parseEntries G ("\n    \"featured\": ".data
          ++ ((if b2 then "True".data else "False".data) ++ ("\n  \x7d".data ++ k)))
        = Except.ok ([(PyExpr.str "featured", PyExpr.bool b2)], k) := by
    intro G hG
    obtain ⟨g, rfl⟩ : ∃ g, G = g + 3 := ⟨G - 3, by omega⟩
    show parseEntries (Nat.succ (g + 2)) _ = _
    rw [parseEntries]
    have hsw1 : skipWs ("\n    \"featured\": ".data
        ++ ((if b2 then "True".data else "False".data) ++ ("\n  \x7d".data ++ k)))
      = '"' :: ("featured".data ++ '"' :: (": ".data
          ++ ((if b2 then "True".data else "False".data) ++ ("\n  \x7d".data ++ k)))) := rfl
    rw [hsw1]
    rw [show parseExpr (g + 2) ("\n    \"featured\": ".data
        ++ ((if b2 then "True".data else "False".data) ++ ("\n  \x7d".data ++ k)))
      = Except.ok (PyExpr.str (String.mk "featured".data), ": ".data
          ++ ((if b2 then "True".data else "False".data) ++ ("\n  \x7d".data ++ k))) from
      parseExpr_str hsw1 rfl (by cases b2 <;> rfl) g]
    show (match parseExpr (g + 2) (' ' :: ((if b2 then "True".data else "False".data)
        ++ ("\n  \x7d".data ++ k))) with
      | Except.error e => Except.error e
      | Except.ok (v, r3) =>
        match skipWs r3 with
        | ',' :: r4 =>
            (match parseEntries (g + 2) r4 with
             | Except.error e => Except.error e
             | Except.ok (es, r5) => Except.ok ((PyExpr.str "featured", v) :: es, r5))
        | '\x7d' :: r4 => Except.ok ([(PyExpr.str "featured", v)], r4)
        | _ => Except.error "invalid syntax") = _
    have hswv1 : skipWs (' ' :: ((if b2 then "True".data else "False".data)
        ++ ("\n  \x7d".data ++ k)))
      = (if b2 then "True".data else "False".data) ++ ("\n  \x7d".data ++ k) := by
      cases b2 <;> rfl
    rw [show parseExpr (g + 2) (' ' :: ((if b2 then "True".data else "False".data)
        ++ ("\n  \x7d".data ++ k)))
      = Except.ok (PyExpr.bool b2, "\n  \x7d".data ++ k) from
      parseExpr_boolIf hswv1 rfl rfl g]
    rfl
  have hTrend : ∀ G, 4 ≤ G →
      parseEntries G ("\n    \"trending\": ".data
          ++ ((if b1 then "True".data else "False".data)
          ++ (",\n    \"featured\": ".data
          ++ ((if b2 then "True".data else "False".data) ++ ("\n  \x7d".data ++ k)))))
        = Except.ok ([(PyExpr.str "trending", PyExpr.bool b1),
            (PyExpr.str "featured", PyExpr.bool b2)], k) := by
    intro G hG
    obtain ⟨g, rfl⟩ : ∃ g, G = g + 3 := ⟨G - 3, by omega⟩
    show parseEntries (Nat.succ (g + 2)) _ = _
    rw [parseEntries]
    have hsw2 : skipWs ("\n    \"trending\": ".data
        ++ ((if b1 then "True".data else "False".data)
        ++ (",\n    \"featured\": ".data
        ++ ((if b2 then "True".data else "False".data) ++ ("\n  \x7d".data ++ k)))))
      = '"' :: ("trending".data ++ '"' :: (": ".data
          ++ ((if b1 then "True".data else "False".data)
          ++ (",\n    \"featured\": ".data
          ++ ((if b2 then "True".data else "False".data) ++ ("\n  \x7d".data ++ k)))))) := rfl
    rw [hsw2]
    rw [show parseExpr (g + 2) ("\n    \"trending\": ".data
        ++ ((if b1 then "True".data else "False".data)
        ++ (",\n    \"featured\": ".data
        ++ ((if b2 then "True".data else "False".data) ++ ("\n  \x7d".data ++ k)))))
      = Except.ok (PyExpr.str (String.mk "trending".data), ": ".data
          ++ ((if b1 then "True".data else "False".data)
          ++ (",\n    \"featured\": ".data
          ++ ((if b2 then "True".data else "False".data) ++ ("\n  \x7d".data ++ k))))) from
      parseExpr_str hsw2 rfl (by cases b1 <;> rfl) g]
    show (match parseExpr (g + 2) (' ' :: ((if b1 then "True".data else "False".data)
        ++ (",\n    \"featured\": ".data
        ++ ((if b2 then "True".data else "False".data) ++ ("\n  \x7d".data ++ k))))) with
      | Except.error e => Except.error e
      | Except.ok (v, r3) =>
        match skipWs r3 with
        | ',' :: r4 =>
            (match parseEntries (g + 2) r4 with
             | Except.error e => Except.error e
             | Except.ok (es, r5) => Except.ok ((PyExpr.str "trending", v) :: es, r5))
        | '\x7d' :: r4 => Except.ok ([(PyExpr.str "trending", v)], r4)
        | _ => Except.error "invalid syntax") = _
    have hswv2 : skipWs (' ' :: ((if b1 then "True".data else "False".data)
        ++ (",\n    \"featured\": ".data
        ++ ((if b2 then "True".data else "False".data) ++ ("\n  \x7d".data ++ k)))))
      = (if b1 then "True".data else "False".data)
          ++ (",\n    \"featured\": ".data
          ++ ((if b2 then "True".data else "False".data) ++ ("\n  \x7d".data ++ k))) := by
      cases b1 <;> rfl
    rw [show parseExpr (g + 2) (' ' :: ((if b1 then "True".data else "False".data)
        ++ (",\n    \"featured\": ".data
        ++ ((if b2 then "True".data else "False".data) ++ ("\n  \x7d".data ++ k)))))
      = Except.ok (PyExpr.bool b1, ",\n    \"featured\": ".data
          ++ ((if b2 then "True".data else "False".data) ++ ("\n  \x7d".data ++ k))) from
      parseExpr_boolIf hswv2 rfl rfl g]
    show (match parseEntries (g + 2) ("\n    \"featured\": ".data
        ++ ((if b2 then "True".data else "False".data) ++ ("\n  \x7d".data ++ k))) with
      | Except.error e => Except.error e
      | Except.ok (es, r5) =>
          Except.ok ((PyExpr.str "trending", PyExpr.bool b1) :: es, r5)) = _
    rw [hFeat (g + 2) (by omega)]
  have hPlat : ∀ G, ps.length + 6 ≤ G →
      parseEntries G ("\n    \"platforms\": ".data
          ++ '[' :: (platBody ps
          ++ ']' :: (",\n    \"trending\": ".data
          ++ ((if b1 then "True".data else "False".data)
          ++ (",\n    \"featured\": ".data
          ++ ((if b2 then "True".data else "False".data) ++ ("\n  \x7d".data ++ k)))))))
        = Except.ok ([(PyExpr.str "platforms",
              PyExpr.list (ps.map (fun p => PyExpr.str p))),
            (PyExpr.str "trending", PyExpr.bool b1),
            (PyExpr.str "featured", PyExpr.bool b2)], k) := by
    intro G hG
    obtain ⟨g, rfl⟩ : ∃ g, G = g + 3 := ⟨G - 3, by omega⟩
    show parseEntries (Nat.succ (g + 2)) _ = _
    rw [parseEntries]
    have hsw3 : skipWs ("\n    \"platforms\": ".data
        ++ '[' :: (platBody ps
        ++ ']' :: (",\n    \"trending\": ".data
        ++ ((if b1 then "True".data else "False".data)
        ++ (",\n    \"featured\": ".data
        ++ ((if b2 then "True".data else "False".data) ++ ("\n  \x7d".data ++ k)))))))
      = '"' :: ("platforms".data ++ '"' :: (": ".data
          ++ '[' :: (platBody ps
          ++ ']' :: (",\n    \"trending\": ".data
          ++ ((if b1 then "True".data else "False".data)
          ++ (",\n    \"featured\": ".data
          ++ ((if b2 then "True".data else "False".data)
          ++ ("\n  \x7d".data ++ k)))))))) := rfl
    rw [hsw3]
    rw [show parseExpr (g + 2) ("\n    \"platforms\": ".data
        ++ '[' :: (platBody ps
        ++ ']' :: (",\n    \"trending\": ".data
        ++ ((if b1 then "True".data else "False".data)
        ++ (",\n    \"featured\": ".data
        ++ ((if b2 then "True".data else "False".data) ++ ("\n  \x7d".data ++ k)))))))
      = Except.ok (PyExpr.str (String.mk "platforms".data), ": ".data
          ++ '[' :: (platBody ps
          ++ ']' :: (",\n    \"trending\": ".data
          ++ ((if b1 then "True".data else "False".data)
          ++ (",\n    \"featured\": ".data
          ++ ((if b2 then "True".data else "False".data)
          ++ ("\n  \x7d".data ++ k))))))) from
      parseExpr_str hsw3 rfl rfl g]
    show (match parseExpr (g + 2) (' ' :: '[' :: (platBody ps
        ++ ']' :: (",\n    \"trending\": ".data
        ++ ((if b1 then "True".data else "False".data)
        ++ (",\n    \"featured\": ".data
        ++ ((if b2 then "True".data else "False".data) ++ ("\n  \x7d".data ++ k))))))) with
      | Except.error e => Except.error e
      | Except.ok (v, r3) =>
        match skipWs r3 with
        | ',' :: r4 =>
            (match parseEntries (g + 2) r4 with
             | Except.error e => Except.error e
             | Except.ok (es, r5) => Except.ok ((PyExpr.str "platforms", v) :: es, r5))
        | '\x7d' :: r4 => Except.ok ([(PyExpr.str "platforms", v)], r4)
        | _ => Except.error "invalid syntax") = _
    have hswv3 : skipWs (' ' :: '[' :: (platBody ps
        ++ ']' :: (",\n    \"trending\": ".data
        ++ ((if b1 then "True".data else "False".data)
        ++ (",\n    \"featured\": ".data
        ++ ((if b2 then "True".data else "False".data) ++ ("\n  \x7d".data ++ k)))))))
      = '[' :: (platBody ps
          ++ ']' :: (",\n    \"trending\": ".data
          ++ ((if b1 then "True".data else "False".data)
          ++ (",\n    \"featured\": ".data
          ++ ((if b2 then "True".data else "False".data)
          ++ ("\n  \x7d".data ++ k)))))) := rfl
    rw [show parseExpr (g + 2) (' ' :: '[' :: (platBody ps
        ++ ']' :: (",\n    \"trending\": ".data
        ++ ((if b1 then "True".data else "False".data)
        ++ (",\n    \"featured\": ".data
        ++ ((if b2 then "True".data else "False".data) ++ ("\n  \x7d".data ++ k)))))))
      = Except.ok (PyExpr.list (ps.map (fun p => PyExpr.str p)),
          ",\n    \"trending\": ".data
          ++ ((if b1 then "True".data else "False".data)
          ++ (",\n    \"featured\": ".data
          ++ ((if b2 then "True".data else "False".data) ++ ("\n  \x7d".data ++ k))))) from
      parseExpr_platList hswv3 hps rfl (g + 2) (by omega)]
    show (match parseEntries (g + 2) ("\n    \"trending\": ".data
        ++ ((if b1 then "True".data else "False".data)
        ++ (",\n    \"featured\": ".data
        ++ ((if b2 then "True".data else "False".data) ++ ("\n  \x7d".data ++ k))))) with
      | Except.error e => Except.error e
      | Except.ok (es, r5) =>
          Except.ok ((PyExpr.str "platforms",
            PyExpr.list (ps.map (fun p => PyExpr.str p))) :: es, r5)) = _
    rw [hTrend (g + 2) (by omega)]
  have hLock : ∀ G, ps.length + 7 ≤ G →
      parseEntries G ("\n    \"locker_id\": ".data
          ++ '"' :: (lk.data ++ '"' :: (",\n    \"platforms\": ".data
          ++ '[' :: (platBody ps
          ++ ']' :: (",\n    \"trending\": ".data
          ++ ((if b1 then "True".data else "False".data)
          ++ (",\n    \"featured\": ".data
          ++ ((if b2 then "True".data else "False".data) ++ ("\n  \x7d".data ++ k)))))))))
        = Except.ok ([(PyExpr.str "locker_id", PyExpr.str lk),
            (PyExpr.str "platforms", PyExpr.list (ps.map (fun p => PyExpr.str p))),
            (PyExpr.str "trending", PyExpr.bool b1),
            (PyExpr.str "featured", PyExpr.bool b2)], k) := by
    intro G hG
    obtain ⟨g, rfl⟩ : ∃ g, G = g + 3 := ⟨G - 3, by omega⟩
    show parseEntries (Nat.succ (g + 2)) _ = _
    rw [parseEntries]
    have hsw4 : skipWs ("\n    \"locker_id\": ".data
        ++ '"' :: (lk.data ++ '"' :: (",\n    \"platforms\": ".data
        ++ '[' :: (platBody ps
        ++ ']' :: (",\n    \"trending\": ".data
        ++ ((if b1 then "True".data else "False".data)
        ++ (",\n    \"featured\": ".data
        ++ ((if b2 then "True".data else "False".data) ++ ("\n  \x7d".data ++ k)))))))))
      = '"' :: ("locker_id".data ++ '"' :: (": ".data
          ++ '"' :: (lk.data ++ '"' :: (",\n    \"platforms\": ".data
          ++ '[' :: (platBody ps
          ++ ']' :: (",\n    \"trending\": ".data
          ++ ((if b1 then "True".data else "False".data)
          ++ (",\n    \"featured\": ".data
          ++ ((if b2 then "True".data else "False".data)
          ++ ("\n  \x7d".data ++ k)))))))))) := rfl
    rw [hsw4]
    rw [show parseExpr (g + 2) ("\n    \"locker_id\": ".data
        ++ '"' :: (lk.data ++ '"' :: (",\n    \"platforms\": ".data
        ++ '[' :: (platBody ps
        ++ ']' :: (",\n    \"trending\": ".data
        ++ ((if b1 then "True".data else "False".data)
        ++ (",\n    \"featured\": ".data
        ++ ((if b2 then "True".data else "False".data) ++ ("\n  \x7d".data ++ k)))))))))
      = Except.ok (PyExpr.str (String.mk "locker_id".data), ": ".data
          ++ '"' :: (lk.data ++ '"' :: (",\n    \"platforms\": ".data
          ++ '[' :: (platBody ps
          ++ ']' :: (",\n    \"trending\": ".data
          ++ ((if b1 then "True".data else "False".data)
          ++ (",\n    \"featured\": ".data
          ++ ((if b2 then "True".data else "False".data)
          ++ ("\n  \x7d".data ++ k))))))))) from
      parseExpr_str hsw4 rfl rfl g]
    show (match parseExpr (g + 2) (' ' :: '"' :: (lk.data
        ++ '"' :: (",\n    \"platforms\": ".data
        ++ '[' :: (platBody ps
        ++ ']' :: (",\n    \"trending\": ".data
        ++ ((if b1 then "True".data else "False".data)
        ++ (",\n    \"featured\": ".data
        ++ ((if b2 then "True".data else "False".data)
        ++ ("\n  \x7d".data ++ k))))))))) with
      | Except.error e => Except.error e
      | Except.ok (v, r3) =>
        match skipWs r3 with
        | ',' :: r4 =>
            (match parseEntries (g + 2) r4 with
             | Except.error e => Except.error e
             | Except.ok (es, r5) => Except.ok ((PyExpr.str "locker_id", v) :: es, r5))
        | '\x7d' :: r4 => Except.ok ([(PyExpr.str "locker_id", v)], r4)
        | _ => Except.error "invalid syntax") = _
    have hswv4 : skipWs (' ' :: '"' :: (lk.data
        ++ '"' :: (",\n    \"platforms\": ".data
        ++ '[' :: (platBody ps
        ++ ']' :: (",\n    \"trending\": ".data
        ++ ((if b1 then "True".data else "False".data)
        ++ (",\n    \"featured\": ".data
        ++ ((if b2 then "True".data else "False".data)
        ++ ("\n  \x7d".data ++ k)))))))))
      = '"' :: (lk.data ++ '"' :: (",\n    \"platforms\": ".data
          ++ '[' :: (platBody ps
          ++ ']' :: (",\n    \"trending\": ".data
          ++ ((if b1 then "True".data else "False".data)
          ++ (",\n    \"featured\": ".data
          ++ ((if b2 then "True".data else "False".data)
          ++ ("\n  \x7d".data ++ k)))))))) := rfl
    rw [show parseExpr (g + 2) (' ' :: '"' :: (lk.data
        ++ '"' :: (",\n    \"platforms\": ".data
        ++ '[' :: (platBody ps
        ++ ']' :: (",\n    \"trending\": ".data
        ++ ((if b1 then "True".data else "False".data)
        ++ (",\n    \"featured\": ".data
        ++ ((if b2 then "True".data else "False".data)
        ++ ("\n  \x7d".data ++ k)))))))))
      = Except.ok (PyExpr.str (String.mk lk.data), ",\n    \"platforms\": ".data
          ++ '[' :: (platBody ps
          ++ ']' :: (",\n    \"trending\": ".data
          ++ ((if b1 then "True".data else "False".data)
          ++ (",\n    \"featured\": ".data
          ++ ((if b2 then "True".data else "False".data)
          ++ ("\n  \x7d".data ++ k))))))) from
      parseExpr_str hswv4 hlk rfl g]
    show (match parseEntries (g + 2) ("\n    \"platforms\": ".data
        ++ '[' :: (platBody ps
        ++ ']' :: (",\n    \"trending\": ".data
        ++ ((if b1 then "True".data else "False".data)
        ++ (",\n    \"featured\": ".data
        ++ ((if b2 then "True".data else "False".data) ++ ("\n  \x7d".data ++ k))))))) with
      | Except.error e => Except.error e
      | Except.ok (es, r5) =>
          Except.ok ((PyExpr.str "locker_id", PyExpr.str (String.mk lk.data)) :: es, r5)) = _
    rw [hPlat (g + 2) (by omega)]
  have hIcon : ∀ G, ps.length + 8 ≤ G →
      parseEntries G ("\n    \"icon\": ".data
          ++ '"' :: (ic.data ++ '"' :: (",\n    \"locker_id\": ".data
          ++ '"' :: (lk.data ++ '"' :: (",\n    \"platforms\": ".data
          ++ '[' :: (platBody ps
          ++ ']' :: (",\n    \"trending\": ".data
          ++ ((if b1 then "True".data else "False".data)
          ++ (",\n    \"featured\": ".data
          ++ ((if b2 then "True".data else "False".data) ++ ("\n  \x7d".data ++ k)))))))))))
        = Except.ok ([(PyExpr.str "icon", PyExpr.str ic),
            (PyExpr.str "locker_id", PyExpr.str lk),
            (PyExpr.str "platforms", PyExpr.list (ps.map (fun p => PyExpr.str p))),
            (PyExpr.str "trending", PyExpr.bool b1),
            (PyExpr.str "featured", PyExpr.bool b2)], k) := by
    intro G hG
    obtain ⟨g, rfl⟩ : ∃ g, G = g + 3 := ⟨G - 3, by omega⟩
    show parseEntries (Nat.succ (g + 2)) _ = _
    rw [parseEntries]
    have hsw5 : skipWs ("\n    \"icon\": ".data
        ++ '"' :: (ic.data ++ '"' :: (",\n    \"locker_id\": ".data
        ++ '"' :: (lk.data ++ '"' :: (",\n    \"platforms\": ".data
        ++ '[' :: (platBody ps
        ++ ']' :: (",\n    \"trending\": ".data
        ++ ((if b1 then "True".data else "False".data)
        ++ (",\n    \"featured\": ".data
        ++ ((if b2 then "True".data else "False".data) ++ ("\n  \x7d".data ++ k)))))))))))
      = '"' :: ("icon".data ++ '"' :: (": ".data
          ++ '"' :: (ic.data ++ '"' :: (",\n    \"locker_id\": ".data
          ++ '"' :: (lk.data ++ '"' :: (",\n    \"platforms\": ".data
          ++ '[' :: (platBody ps
          ++ ']' :: (",\n    \"trending\": ".data
          ++ ((if b1 then "True".data else "False".data)
          ++ (",\n    \"featured\": ".data
          ++ ((if b2 then "True".data else "False".data)
          ++ ("\n  \x7d".data ++ k)))))))))))) := rfl
    rw [hsw5]
    rw [show parseExpr (g + 2) ("\n    \"icon\": ".data
        ++ '"' :: (ic.data ++ '"' :: (",\n    \"locker_id\": ".data
        ++ '"' :: (lk.data ++ '"' :: (",\n    \"platforms\": ".data
        ++ '[' :: (platBody ps
        ++ ']' :: (",\n    \"trending\": ".data
        ++ ((if b1 then "True".data else "False".data)
        ++ (",\n    \"featured\": ".data
        ++ ((if b2 then "True".data else "False".data) ++ ("\n  \x7d".data ++ k)))))))))))
      = Except.ok (PyExpr.str (String.mk "icon".data), ": ".data
          ++ '"' :: (ic.data ++ '"' :: (",\n    \"locker_id\": ".data
          ++ '"' :: (lk.data ++ '"' :: (",\n    \"platforms\": ".data
          ++ '[' :: (platBody ps
          ++ ']' :: (",\n    \"trending\": ".data
          ++ ((if b1 then "True".data else "False".data)
          ++ (",\n    \"featured\": ".data
          ++ ((if b2 then "True".data else "False".data)
          ++ ("\n  \x7d".data ++ k))))))))))) from
      parseExpr_str hsw5 rfl rfl g]
    show (match parseExpr (g + 2) (' ' :: '"' :: (ic.data
        ++ '"' :: (",\n    \"locker_id\": ".data
        ++ '"' :: (lk.data ++ '"' :: (",\n    \"platforms\": ".data
        ++ '[' :: (platBody ps
        ++ ']' :: (",\n    \"trending\": ".data
        ++ ((if b1 then "True".data else "False".data)
        ++ (",\n    \"featured\": ".data
        ++ ((if b2 then "True".data else "False".data)
        ++ ("\n  \x7d".data ++ k))))))))))) with
      | Except.error e => Except.error e
      | Except.ok (v, r3) =>
        match skipWs r3 with
        | ',' :: r4 =>
            (match parseEntries (g + 2) r4 with
             | Except.error e => Except.error e
             | Except.ok (es, r5) => Except.ok ((PyExpr.str "icon", v) :: es, r5))
        | '\x7d' :: r4 => Except.ok ([(PyExpr.str "icon", v)], r4)
        | _ => Except.error "invalid syntax") = _
    have hswv5 : skipWs (' ' :: '"' :: (ic.data
        ++ '"' :: (",\n    \"locker_id\": ".data
        ++ '"' :: (lk.data ++ '"' :: (",\n    \"platforms\": ".data
        ++ '[' :: (platBody ps
        ++ ']' :: (",\n    \"trending\": ".data
        ++ ((if b1 then "True".data else "False".data)
        ++ (",\n    \"featured\": ".data
        ++ ((if b2 then "True".data else "False".data)
        ++ ("\n  \x7d".data ++ k)))))))))))
      = '"' :: (ic.data ++ '"' :: (",\n    \"locker_id\": ".data
          ++ '"' :: (lk.data ++ '"' :: (",\n    \"platforms\": ".data
          ++ '[' :: (platBody ps
          ++ ']' :: (",\n    \"trending\": ".data
          ++ ((if b1 then "True".data else "False".data)
          ++ (",\n    \"featured\": ".data
          ++ ((if b2 then "True".data else "False".data)
          ++ ("\n  \x7d".data ++ k)))))))))) := rfl
    rw [show parseExpr (g + 2) (' ' :: '"' :: (ic.data
        ++ '"' :: (",\n    \"locker_id\": ".data
        ++ '"' :: (lk.data ++ '"' :: (",\n    \"platforms\": ".data
        ++ '[' :: (platBody ps
        ++ ']' :: (",\n    \"trending\": ".data
        ++ ((if b1 then "True".data else "False".data)
        ++ (",\n    \"featured\": ".data
        ++ ((if b2 then "True".data else "False".data)
        ++ ("\n  \x7d".data ++ k)))))))))))
      = Except.ok (PyExpr.str (String.mk ic.data), ",\n    \"locker_id\": ".data
          ++ '"' :: (lk.data ++ '"' :: (",\n    \"platforms\": ".data
          ++ '[' :: (platBody ps
          ++ ']' :: (",\n    \"trending\": ".data
          ++ ((if b1 then "True".data else "False".data)
          ++ (",\n    \"featured\": ".data
          ++ ((if b2 then "True".data else "False".data)
          ++ ("\n  \x7d".data ++ k))))))))) from
      parseExpr_str hswv5 hic rfl g]
    show (match parseEntries (g + 2) ("\n    \"locker_id\": ".data
        ++ '"' :: (lk.data ++ '"' :: (",\n    \"platforms\": ".data
        ++ '[' :: (platBody ps
        ++ ']' :: (",\n    \"trending\": ".data
        ++ ((if b1 then "True".data else "False".data)
        ++ (",\n    \"featured\": ".data
        ++ ((if b2 then "True".data else "False".data) ++ ("\n  \x7d".data ++ k))))))))) with
      | Except.error e => Except.error e
      | Except.ok (es, r5) =>
          Except.ok ((PyExpr.str "icon", PyExpr.str (String.mk ic.data)) :: es, r5)) = _
    rw [hLock (g + 2) (by omega)]
  intro g hg
  obtain ⟨g2, rfl⟩ : ∃ g2, g = g2 + 3 := ⟨g - 3, by omega⟩
  show parseEntries (Nat.succ (g2 + 2)) _ = _
  rw [parseEntries]
  have hsw6 : skipWs ("\n    \"name\": ".data ++ '"' :: (nm.data ++ '"' :: (",\n    \"icon\": ".data
      ++ '"' :: (ic.data ++ '"' :: (",\n    \"locker_id\": ".data
      ++ '"' :: (lk.data ++ '"' :: (",\n    \"platforms\": ".data
      ++ '[' :: (platBody ps
      ++ ']' :: (",\n    \"trending\": ".data
      ++ ((if b1 then "True".data else "False".data)
      ++ (",\n    \"featured\": ".data
      ++ ((if b2 then "True".data else "False".data)
      ++ ("\n  \x7d".data ++ k)))))))))))))
    = '"' :: ("name".data ++ '"' :: (": ".data
        ++ '"' :: (nm.data ++ '"' :: (",\n    \"icon\": ".data
        ++ '"' :: (ic.data ++ '"' :: (",\n    \"locker_id\": ".data
        ++ '"' :: (lk.data ++ '"' :: (",\n    \"platforms\": ".data
        ++ '[' :: (platBody ps
        ++ ']' :: (",\n    \"trending\": ".data
        ++ ((if b1 then "True".data else "False".data)
        ++ (",\n    \"featured\": ".data
        ++ ((if b2 then "True".data else "False".data)
        ++ ("\n  \x7d".data ++ k)))))))))))))) := rfl
  rw [hsw6]
  rw [show parseExpr (g2 + 2) ("\n    \"name\": ".data ++ '"' :: (nm.data ++ '"' :: (",\n    \"icon\": ".data
      ++ '"' :: (ic.data ++ '"' :: (",\n    \"locker_id\": ".data
      ++ '"' :: (lk.data ++ '"' :: (",\n    \"platforms\": ".data
      ++ '[' :: (platBody ps
      ++ ']' :: (",\n    \"trending\": ".data
      ++ ((if b1 then "True".data else "False".data)
      ++ (",\n    \"featured\": ".data
      ++ ((if b2 then "True".data else "False".data)
      ++ ("\n  \x7d".data ++ k)))))))))))))
    = Except.ok (PyExpr.str (String.mk "name".data), ": ".data
        ++ '"' :: (nm.data ++ '"' :: (",\n    \"icon\": ".data
        ++ '"' :: (ic.data ++ '"' :: (",\n    \"locker_id\": ".data
        ++ '"' :: (lk.data ++ '"' :: (",\n    \"platforms\": ".data
        ++ '[' :: (platBody ps
        ++ ']' :: (",\n    \"trending\": ".data
        ++ ((if b1 then "True".data else "False".data)
        ++ (",\n    \"featured\": ".data
        ++ ((if b2 then "True".data else "False".data)
        ++ ("\n  \x7d".data ++ k))))))))))))) from
    parseExpr_str hsw6 rfl rfl g2]
  show (match parseExpr (g2 + 2) (' ' :: '"' :: (nm.data
      ++ '"' :: (",\n    \"icon\": ".data
      ++ '"' :: (ic.data ++ '"' :: (",\n    \"locker_id\": ".data
      ++ '"' :: (lk.data ++ '"' :: (",\n    \"platforms\": ".data
      ++ '[' :: (platBody ps
      ++ ']' :: (",\n    \"trending\": ".data
      ++ ((if b1 then "True".data else "False".data)
      ++ (",\n    \"featured\": ".data
      ++ ((if b2 then "True".data else "False".data)
      ++ ("\n  \x7d".data ++ k))))))))))))) with
    | Except.error e => Except.error e
    | Except.ok (v, r3) =>
      match skipWs r3 with
      | ',' :: r4 =>
          (match parseEntries (g2 + 2) r4 with
           | Except.error e => Except.error e
           | Except.ok (es, r5) => Except.ok ((PyExpr.str "name", v) :: es, r5))
      | '\x7d' :: r4 => Except.ok ([(PyExpr.str "name", v)], r4)
      | _ => Except.error "invalid syntax") = _
  have hswv6 : skipWs (' ' :: '"' :: (nm.data
      ++ '"' :: (",\n    \"icon\": ".data
      ++ '"' :: (ic.data ++ '"' :: (",\n    \"locker_id\": ".data
      ++ '"' :: (lk.data ++ '"' :: (",\n    \"platforms\": ".data
      ++ '[' :: (platBody ps
      ++ ']' :: (",\n    \"trending\": ".data
      ++ ((if b1 then "True".data else "False".data)
      ++ (",\n    \"featured\": ".data
      ++ ((if b2 then "True".data else "False".data)
      ++ ("\n  \x7d".data ++ k)))))))))))))
    = '"' :: (nm.data ++ '"' :: (",\n    \"icon\": ".data
        ++ '"' :: (ic.data ++ '"' :: (",\n    \"locker_id\": ".data
        ++ '"' :: (lk.data ++ '"' :: (",\n    \"platforms\": ".data
        ++ '[' :: (platBody ps
        ++ ']' :: (",\n    \"trending\": ".data
        ++ ((if b1 then "True".data else "False".data)
        ++ (",\n    \"featured\": ".data
        ++ ((if b2 then "True".data else "False".data)
        ++ ("\n  \x7d".data ++ k)))))))))))) := rfl
  rw [show parseExpr (g2 + 2) (' ' :: '"' :: (nm.data
      ++ '"' :: (",\n    \"icon\": ".data
      ++ '"' :: (ic.data ++ '"' :: (",\n    \"locker_id\": ".data
      ++ '"' :: (lk.data ++ '"' :: (",\n    \"platforms\": ".data
      ++ '[' :: (platBody ps
      ++ ']' :: (",\n    \"trending\": ".data
      ++ ((if b1 then "True".data else "False".data)
      ++ (",\n    \"featured\": ".data
      ++ ((if b2 then "True".data else "False".data)
      ++ ("\n  \x7d".data ++ k)))))))))))))
    = Except.ok (PyExpr.str (String.mk nm.data), ",\n    \"icon\": ".data
        ++ '"' :: (ic.data ++ '"' :: (",\n    \"locker_id\": ".data
        ++ '"' :: (lk.data ++ '"' :: (",\n    \"platforms\": ".data
        ++ '[' :: (platBody ps
        ++ ']' :: (",\n    \"trending\": ".data
        ++ ((if b1 then "True".data else "False".data)
        ++ (",\n    \"featured\": ".data
        ++ ((if b2 then "True".data else "False".data)
        ++ ("\n  \x7d".data ++ k))))))))))) from
    parseExpr_str hswv6 hnm rfl g2]
  show (match parseEntries (g2 + 2) ("\n    \"icon\": ".data
      ++ '"' :: (ic.data ++ '"' :: (",\n    \"locker_id\": ".data
      ++ '"' :: (lk.data ++ '"' :: (",\n    \"platforms\": ".data
      ++ '[' :: (platBody ps
      ++ ']' :: (",\n    \"trending\": ".data
      ++ ((if b1 then "True".data else "False".data)
      ++ (",\n    \"featured\": ".data
      ++ ((if b2 then "True".data else "False".data) ++ ("\n  \x7d".data ++ k))))))))))) with
    | Except.error e => Except.error e
    | Except.ok (es, r5) =>
        Except.ok ((PyExpr.str "name", PyExpr.str (String.mk nm.data)) :: es, r5)) = _
  rw [hIcon (g2 + 2) (by omega)]

theorem chunkInnerQ_flat (r : AppRecord) (k : List Char) :
    chunkInnerQ "True" "False" r ++ k
      = "\n    \"name\": ".data ++ '"' :: (r.name.data ++ '"' :: (",\n    \"icon\": ".data
          ++ '"' :: (r.icon.data ++ '"' :: (",\n    \"locker_id\": ".data
          ++ '"' :: (r.locker_id.data ++ '"' :: (",\n    \"platforms\": ".data
          ++ '[' :: (platBody r.platforms
          ++ ']' :: (",\n    \"trending\": ".data
          ++ ((if r.trending then "True".data else "False".data)
          ++ (",\n    \"featured\": ".data
          ++ ((if r.featured then "True".data else "False".data)
          ++ ("\n  \x7d".data ++ k)))))))))))) := by
  simp only [chunkInnerQ, pTailq, pNq, pIq, pLq, pPq, List.append_assoc, List.cons_append]

theorem parseExpr_chunkBQ {k : List Char} (r : AppRecord)
    (hnm : strOk r.name.data = true) (hic : strOk r.icon.data = true)
    (hlk : strOk r.locker_id.data = true)
    (hps : ∀ p ∈ r.platforms, strOk p.data = true) (hk2 : noPlus k = true) :
    ∀ g, r.platforms.length + 12 ≤ g →
      parseExpr g (chunkBQ "True" "False" r ++ k) = Except.ok (recordExprE r, k) := by
  intro g hg
  obtain ⟨g2, rfl⟩ : ∃ g2, g = g2 + 2 := ⟨g - 2, by omega⟩
  show parseExpr (Nat.succ (g2 + 1)) _ = _
  rw [parseExpr]
  have hsw : skipWs (chunkBQ "True" "False" r ++ k)
      = '\x7b' :: (chunkInnerQ "True" "False" r ++ k) := rfl
  have hp : parsePrimary (g2 + 1) (chunkBQ "True" "False" r ++ k)
      = Except.ok (recordExprE r, k) := by
    show parsePrimary (Nat.succ g2) _ = _
    rw [parsePrimary_lbrace hsw g2]
    rw [chunkInnerQ_flat r k]
    rw [parseEntries_record r.name r.icon r.locker_id r.platforms r.trending r.featured k
      hnm hic hlk hps g2 (by omega)]
    rfl
  rw [hp]
  exact parseSumTail_stop hk2 g2 _

/-- Parsing the whole normalized interior: one dict per record chunk. -/
theorem parseElems_chunks :
    ∀ (rs : List AppRecord), (∀ r ∈ rs, goodRec r = true) →
    ∀ g, recNeed rs ≤ g →
      parseElems g (chunksTQ "True" "False" rs ++ [']'])
        = Except.ok (rs.map recordExprE, []) := by
  intro rs
  induction rs with
  | nil =>
      intro _ g hg
      simp only [recNeed] at hg
      obtain ⟨g2, rfl⟩ : ∃ g2, g = g2 + 1 := ⟨g - 1, by omega⟩
      exact parseElems_close
        (show skipWs (chunksTQ "True" "False" [] ++ [']']) = ']' :: [] from rfl) g2
  | cons r rs ih =>
      intro hgood g hg
      obtain ⟨hn, hi, hl, hp⟩ := goodRec_parts (hgood r (by simp))
      have hn2 : strOk r.name.data = true := (goodStr_parts hn).2.2.2.2
      have hi2 : strOk r.icon.data = true := (goodStr_parts hi).2.2.2.2
      have hl2 : strOk r.locker_id.data = true := (goodStr_parts hl).2.2.2.2
      have hp2 : ∀ p ∈ r.platforms, strOk p.data = true :=
        fun p hx => (goodStr_parts (hp p hx)).2.2.2.2
      have hg2 : r.platforms.length + recNeed rs + 13 ≤ g := by
        simpa [recNeed] using hg
      obtain ⟨g2, rfl⟩ : ∃ g2, g = g2 + 1 := ⟨g - 1, by omega⟩
      show parseElems (Nat.succ g2) (chunksTQ "True" "False" (r :: rs) ++ [']']) = _
      have htext : chunksTQ "True" "False" (r :: rs) ++ [']']
          = chunkBQ "True" "False" r ++ (',' :: (chunksTQ "True" "False" rs ++ [']'])) := by
        simp [chunksTQ, List.append_assoc]
      rw [parseElems, htext]
      have hsw : skipWs (chunkBQ "True" "False" r ++ (',' :: (chunksTQ "True" "False" rs ++ [']'])))
          = '\x7b' :: (chunkInnerQ "True" "False" r
              ++ (',' :: (chunksTQ "True" "False" rs ++ [']']))) := rfl
      rw [hsw]
      show (match parseExpr g2 (chunkBQ "True" "False" r
          ++ (',' :: (chunksTQ "True" "False" rs ++ [']']))) with
        | Except.error e => Except.error e
        | Except.ok (e, r2) =>
          match skipWs r2 with
          | ',' :: r3 =>
              (match parseElems g2 r3 with
               | Except.error e2 => Except.error e2
               | Except.ok (es, r4) => Except.ok (e :: es, r4))
          | ']' :: r3 => Except.ok ([e], r3)
          | _ => Except.error "invalid syntax") = _
      have hkp : noPlus (',' :: (chunksTQ "True" "False" rs ++ [']'])) = true := rfl
      rw [parseExpr_chunkBQ r hn2 hi2 hl2 hp2 hkp g2 (by omega)]
      show (match parseElems g2 (chunksTQ "True" "False" rs ++ [']']) with
        | Except.error e2 => Except.error e2
        | Except.ok (es, r4) => Except.ok (recordExprE r :: es, r4)) = _
      rw [ih (fun x hx => hgood x (by simp [hx])) g2 (by omega)]
      rfl

/-! ### Fuel bounds from the text length -/

theorem platBody_len : ∀ ps : List String, ps.length ≤ (platBody ps).length := by
  intro ps
  induction ps with
  | nil => simp [platBody]
  | cons p ps ih =>
      cases ps with
      | nil =>
          have h : platBody [p] = '"' :: p.data ++ ['"'] := rfl
          rw [h]
          simp only [List.length_cons, List.length_append, List.length_nil]
          omega
      | cons q qs =>
          have h : platBody (p :: q :: qs)
              = '"' :: p.data ++ '"' :: ',' :: ' ' :: platBody (q :: qs) := rfl
          rw [h]
          simp only [List.length_cons, List.length_append, List.length_nil] at ih ⊢
          omega

theorem chunkBQ_len (r : AppRecord) :
    r.platforms.length + 13 ≤ (chunkBQ "True" "False" r).length := by
  have h1 := platBody_len r.platforms
  have h2 : (pNq).length = 13 := rfl
  simp only [chunkBQ, chunkInnerQ, List.length_cons, List.length_append, List.length_nil]
  omega

theorem recNeed_le : ∀ rs : List AppRecord,
    recNeed rs ≤ (chunksTQ "True" "False" rs).length + 2 := by
  intro rs
  induction rs with
  | nil => simp [recNeed, chunksTQ]
  | cons r rs ih =>
      have h := chunkBQ_len r
      simp only [recNeed, chunksTQ, List.length_append, List.length_cons, List.length_nil]
      omega

theorem pyParseTop_template (rs : List AppRecord) (hgood : ∀ r ∈ rs, goodRec r = true) :
    pyParseTop (String.mk ('[' :: (chunksTQ "True" "False" rs ++ [']'])))
      = Except.ok (PyExpr.list (rs.map recordExprE)) := by
  have hlen : (String.mk ('[' :: (chunksTQ "True" "False" rs ++ [']']))).length
      = (chunksTQ "True" "False" rs).length + 2 := by
    show ('[' :: (chunksTQ "True" "False" rs ++ [']'])).length = _
    simp [List.length_cons, List.length_append]
  unfold pyParseTop
  rw [show (String.mk ('[' :: (chunksTQ "True" "False" rs ++ [']']))).data
    = '[' :: (chunksTQ "True" "False" rs ++ [']']) from rfl]
  rw [hlen]
  rw [show 2 * ((chunksTQ "True" "False" rs).length + 2) + 4
    = (2 * (chunksTQ "True" "False" rs).length + 6) + 2 from by omega]
  have hsw : skipWs ('[' :: (chunksTQ "True" "False" rs ++ [']']))
      = '[' :: (chunksTQ "True" "False" rs ++ [']']) := rfl
  have hmain : parseExpr ((2 * (chunksTQ "True" "False" rs).length + 6) + 2)
      ('[' :: (chunksTQ "True" "False" rs ++ [']']))
      = Except.ok (PyExpr.list (rs.map recordExprE), []) := by
    show parseExpr (Nat.succ ((2 * (chunksTQ "True" "False" rs).length + 6) + 1)) _ = _
    rw [parseExpr]
    have hp : parsePrimary ((2 * (chunksTQ "True" "False" rs).length + 6) + 1)
        ('[' :: (chunksTQ "True" "False" rs ++ [']']))
        = Except.ok (PyExpr.list (rs.map recordExprE), []) := by
      show parsePrimary (Nat.succ (2 * (chunksTQ "True" "False" rs).length + 6)) _ = _
      rw [parsePrimary_lbrack hsw (2 * (chunksTQ "True" "False" rs).length + 6)]
      rw [parseElems_chunks rs hgood (2 * (chunksTQ "True" "False" rs).length + 6)
        (by have := recNeed_le rs; omega)]
    rw [hp]
    have hkp : noPlus ([] : List Char) = true := rfl
    exact parseSumTail_stop hkp (2 * (chunksTQ "True" "False" rs).length + 6) _
  rw [hmain]
  rfl

/-! ### Evaluating the parsed template -/

theorem pyEvalList_strs : ∀ (ps : List String) (g : Nat), ps.length + 1 ≤ g →
    pyEvalList g (ps.map (fun p => PyExpr.str p))
      = Except.ok (ps.map (fun p => PyVal.str p)) := by
  intro ps
  induction ps with
  | nil =>
      intro g hg
      obtain ⟨g2, rfl⟩ : ∃ g2, g = g2 + 1 := ⟨g - 1, by omega⟩
      rfl
  | cons p ps ih =>
      intro g hg
      simp only [List.length_cons] at hg
      obtain ⟨g2, rfl⟩ : ∃ g2, g = g2 + 2 := ⟨g - 2, by omega⟩
      show pyEvalList (Nat.succ (g2 + 1))
        (PyExpr.str p :: ps.map (fun p => PyExpr.str p)) = _
      rw [pyEvalList]
      rw [show pyEval (g2 + 1) (PyExpr.str p) = Except.ok (PyVal.str p) from rfl]
      rw [ih (g2 + 1) (by omega)]
      rfl

theorem pyEvalEntries_step (f : Nat) (acc : List (PyVal × PyVal)) (s : String)
    (ve : PyExpr) (rest : List (PyExpr × PyExpr)) (v : PyVal)
    (hv : pyEval (f + 1) ve = Except.ok v) :
    pyEvalEntries (f + 2) acc ((PyExpr.str s, ve) :: rest)
      = pyEvalEntries (f + 1) (dictInsert (PyVal.str s) v acc) rest := by
  show pyEvalEntries (Nat.succ (f + 1)) acc _ = _
  rw [pyEvalEntries]
  rw [show pyEval (f + 1) (PyExpr.str s) = Except.ok (PyVal.str s) from rfl]
  show (match pyEval (f + 1) ve with
    | Except.error err => Except.error err
    | Except.ok v => pyEvalEntries (f + 1) (dictInsert (PyVal.str s) v acc) rest) = _
  rw [hv]

theorem pyEval_record (r : AppRecord) :
    ∀ g, r.platforms.length + 10 ≤ g →
      pyEval g (recordExprE r) = Except.ok (PyVal.dict (recordDict r)) := by
  intro g hg
  obtain ⟨f, rfl⟩ : ∃ f, g = f + 8 := ⟨g - 8, by omega⟩
  have hvp : pyEval (f + 3) (PyExpr.list (r.platforms.map (fun p => PyExpr.str p)))
      = Except.ok (PyVal.list (r.platforms.map (fun p => PyVal.str p))) := by
    show pyEval (Nat.succ (f + 2)) _ = _
    rw [pyEval]
    show (match pyEvalList (f + 2) (r.platforms.map (fun p => PyExpr.str p)) with
      | Except.error e => Except.error e
      | Except.ok vs => Except.ok (PyVal.list vs)) = _
    rw [pyEvalList_strs r.platforms (f + 2) (by omega)]
  have h0 : pyEval (f + 8) (recordExprE r) = pyEvalEntries (f + 7) []
      [(PyExpr.str "name", PyExpr.str r.name), (PyExpr.str "icon", PyExpr.str r.icon),
       (PyExpr.str "locker_id", PyExpr.str r.locker_id),
       (PyExpr.str "platforms", PyExpr.list (r.platforms.map (fun p => PyExpr.str p))),
       (PyExpr.str "trending", PyExpr.bool r.trending),
       (PyExpr.str "featured", PyExpr.bool r.featured)] := rfl
  have h1 : pyEvalEntries (f + 7) []
      [(PyExpr.str "name", PyExpr.str r.name), (PyExpr.str "icon", PyExpr.str r.icon),
       (PyExpr.str "locker_id", PyExpr.str r.locker_id),
       (PyExpr.str "platforms", PyExpr.list (r.platforms.map (fun p => PyExpr.str p))),
       (PyExpr.str "trending", PyExpr.bool r.trending),
       (PyExpr.str "featured", PyExpr.bool r.featured)]
      = pyEvalEntries (f + 6) [(PyVal.str "name", PyVal.str r.name)]
      [(PyExpr.str "icon", PyExpr.str r.icon),
       (PyExpr.str "locker_id", PyExpr.str r.locker_id),
       (PyExpr.str "platforms", PyExpr.list (r.platforms.map (fun p => PyExpr.str p))),
       (PyExpr.str "trending", PyExpr.bool r.trending),
       (PyExpr.str "featured", PyExpr.bool r.featured)] :=
    pyEvalEntries_step (f + 5) [] "name" (PyExpr.str r.name) _ (PyVal.str r.name) rfl
  have h2 : pyEvalEntries (f + 6) [(PyVal.str "name", PyVal.str r.name)]
      [(PyExpr.str "icon", PyExpr.str r.icon),
       (PyExpr.str "locker_id", PyExpr.str r.locker_id),
       (PyExpr.str "platforms", PyExpr.list (r.platforms.map (fun p => PyExpr.str p))),
       (PyExpr.str "trending", PyExpr.bool r.trending),
       (PyExpr.str "featured", PyExpr.bool r.featured)]
      = pyEvalEntries (f + 5)
      [(PyVal.str "name", PyVal.str r.name), (PyVal.str "icon", PyVal.str r.icon)]
      [(PyExpr.str "locker_id", PyExpr.str r.locker_id),
       (PyExpr.str "platforms", PyExpr.list (r.platforms.map (fun p => PyExpr.str p))),
       (PyExpr.str "trending", PyExpr.bool r.trending),
       (PyExpr.str "featured", PyExpr.bool r.featured)] :=
    pyEvalEntries_step (f + 4) _ "icon" (PyExpr.str r.icon) _ (PyVal.str r.icon) rfl
  have h3 : pyEvalEntries (f + 5)
      [(PyVal.str "name", PyVal.str r.name), (PyVal.str "icon", PyVal.str r.icon)]
      [(PyExpr.str "locker_id", PyExpr.str r.locker_id),
       (PyExpr.str "platforms", PyExpr.list (r.platforms.map (fun p => PyExpr.str p))),
       (PyExpr.str "trending", PyExpr.bool r.trending),
       (PyExpr.str "featured", PyExpr.bool r.featured)]
      = pyEvalEntries (f + 4)
      [(PyVal.str "name", PyVal.str r.name), (PyVal.str "icon", PyVal.str r.icon),
       (PyVal.str "locker_id", PyVal.str r.locker_id)]
      [(PyExpr.str "platforms", PyExpr.list (r.platforms.map (fun p => PyExpr.str p))),
       (PyExpr.str "trending", PyExpr.bool r.trending),
       (PyExpr.str "featured", PyExpr.bool r.featured)] :=
    pyEvalEntries_step (f + 3) _ "locker_id" (PyExpr.str r.locker_id) _
      (PyVal.str r.locker_id) rfl
  have h4 : pyEvalEntries (f + 4)
      [(PyVal.str "name", PyVal.str r.name), (PyVal.str "icon", PyVal.str r.icon),
       (PyVal.str "locker_id", PyVal.str r.locker_id)]
      [(PyExpr.str "platforms", PyExpr.list (r.platforms.map (fun p => PyExpr.str p))),
       (PyExpr.str "trending", PyExpr.bool r.trending),
       (PyExpr.str "featured", PyExpr.bool r.featured)]
      = pyEvalEntries (f + 3)
      [(PyVal.str "name", PyVal.str r.name), (PyVal.str "icon", PyVal.str r.icon),
       (PyVal.str "locker_id", PyVal.str r.locker_id),
       (PyVal.str "platforms", PyVal.list (r.platforms.map (fun p => PyVal.str p)))]
      [(PyExpr.str "trending", PyExpr.bool r.trending),
       (PyExpr.str "featured", PyExpr.bool r.featured)] :=
    pyEvalEntries_step (f + 2) _ "platforms" _ _
      (PyVal.list (r.platforms.map (fun p => PyVal.str p))) hvp
  have h5 : pyEvalEntries (f + 3)
      [(PyVal.str "name", PyVal.str r.name), (PyVal.str "icon", PyVal.str r.icon),
       (PyVal.str "locker_id", PyVal.str r.locker_id),
       (PyVal.str "platforms", PyVal.list (r.platforms.map (fun p => PyVal.str p)))]
      [(PyExpr.str "trending", PyExpr.bool r.trending),
       (PyExpr.str "featured", PyExpr.bool r.featured)]
      = pyEvalEntries (f + 2)
      [(PyVal.str "name", PyVal.str r.name), (PyVal.str "icon", PyVal.str r.icon),
       (PyVal.str "locker_id", PyVal.str r.locker_id),
       (PyVal.str "platforms", PyVal.list (r.platforms.map (fun p => PyVal.str p))),
       (PyVal.str "trending", PyVal.bool r.trending)]
      [(PyExpr.str "featured", PyExpr.bool r.featured)] :=
    pyEvalEntries_step (f + 1) _ "trending" (PyExpr.bool r.trending) _
      (PyVal.bool r.trending) rfl
  have h6 : pyEvalEntries (f + 2)
      [(PyVal.str "name", PyVal.str r.name), (PyVal.str "icon", PyVal.str r.icon),
       (PyVal.str "locker_id", PyVal.str r.locker_id),
       (PyVal.str "platforms", PyVal.list (r.platforms.map (fun p => PyVal.str p))),
       (PyVal.str "trending", PyVal.bool r.trending)]
      [(PyExpr.str "featured", PyExpr.bool r.featured)]
      = pyEvalEntries (f + 1)
      [(PyVal.str "name", PyVal.str r.name), (PyVal.str "icon", PyVal.str r.icon),
       (PyVal.str "locker_id", PyVal.str r.locker_id),
       (PyVal.str "platforms", PyVal.list (r.platforms.map (fun p => PyVal.str p))),
       (PyVal.str "trending", PyVal.bool r.trending),
       (PyVal.str "featured", PyVal.bool r.featured)] [] :=
    pyEvalEntries_step f _ "featured" (PyExpr.bool r.featured) _ (PyVal.bool r.featured) rfl
  have h7 : pyEvalEntries (f + 1)
      [(PyVal.str "name", PyVal.str r.name), (PyVal.str "icon", PyVal.str r.icon),
       (PyVal.str "locker_id", PyVal.str r.locker_id),
       (PyVal.str "platforms", PyVal.list (r.platforms.map (fun p => PyVal.str p))),
       (PyVal.str "trending", PyVal.bool r.trending),
       (PyVal.str "featured", PyVal.bool r.featured)] []
      = Except.ok (PyVal.dict (recordDict r)) := rfl
  rw [h0, h1, h2, h3, h4, h5, h6, h7]

theorem pyEvalList_records : ∀ (rs : List AppRecord) (g : Nat), recNeed rs ≤ g →
    pyEvalList g (rs.map recordExprE)
      = Except.ok (rs.map (fun r => PyVal.dict (recordDict r))) := by
  intro rs
  induction rs with
  | nil =>
      intro g hg
      simp only [recNeed] at hg
      obtain ⟨g2, rfl⟩ : ∃ g2, g = g2 + 1 := ⟨g - 1, by omega⟩
      rfl
  | cons r rs ih =>
      intro g hg
      have hg2 : r.platforms.length + recNeed rs + 13 ≤ g := by
        simpa [recNeed] using hg
      obtain ⟨g2, rfl⟩ : ∃ g2, g = g2 + 1 := ⟨g - 1, by omega⟩
      show pyEvalList (Nat.succ g2) (recordExprE r :: rs.map recordExprE) = _
      rw [pyEvalList]
      rw [pyEval_record r g2 (by omega)]
      rw [ih g2 (by omega)]
      rfl

theorem pyEval_template (rs : List AppRecord) (g : Nat) (h : recNeed rs + 1 ≤ g) :
    pyEval g (PyExpr.list (rs.map recordExprE))
      = Except.ok (PyVal.list (rs.map (fun r => PyVal.dict (recordDict r)))) := by
  obtain ⟨g2, rfl⟩ : ∃ g2, g = g2 + 1 := ⟨g - 1, by omega⟩
  show pyEval (Nat.succ g2) _ = _
  rw [pyEval]
  show (match pyEvalList g2 (rs.map recordExprE) with
    | Except.error e => Except.error e
    | Except.ok vs => Except.ok (PyVal.list vs)) = _
  rw [pyEvalList_records rs g2 (by omega)]

/-- The whole fallback decode path on the re-bracketed encoder output. -/
theorem js_fb_template (rs : List AppRecord) (hgood : rs.all goodRec = true) :
    js_apps_to_python_fb ("[" ++ appsInterior rs ++ "]")
      = Except.ok (PyVal.list (rs.map (fun r => PyVal.dict (recordDict r)))) := by
  have hgr : ∀ r ∈ rs, goodRec r = true := List.all_eq_true.mp hgood
  have hdata : ("[" ++ appsInterior rs ++ "]").data
      = '[' :: (chunksTR "true" "false" rs ++ [']']) := rfl
  have hev : pyEvalStr (String.mk ('[' :: (chunksTQ "True" "False" rs ++ [']'])))
      = Except.ok (PyVal.list (rs.map (fun r => PyVal.dict (recordDict r)))) := by
    unfold pyEvalStr
    rw [pyParseTop_template rs hgr]
    show pyEval ((String.mk ('[' :: (chunksTQ "True" "False" rs ++ [']']))).length + 4)
      (PyExpr.list (rs.map recordExprE)) = _
    rw [show (String.mk ('[' :: (chunksTQ "True" "False" rs ++ [']']))).length
      = (chunksTQ "True" "False" rs).length + 2 from by
        show ('[' :: (chunksTQ "True" "False" rs ++ [']'])).length = _
        simp [List.length_cons, List.length_append]]
    exact pyEval_template rs _ (by have := recNeed_le rs; omega)
  unfold js_apps_to_python_fb
  rw [hdata, normalizeJs_template rs hgood, hev]

/-! ### Back to records -/

theorem asPydicts_dicts : ∀ ds : List Pydict,
    asPydicts (PyVal.list (ds.map PyVal.dict)) = Option.some ds := by
  intro ds
  induction ds with
  | nil => rfl
  | cons d ds ih =>
      simp only [asPydicts] at ih ⊢
      rw [List.map_cons, List.mapM_cons]
      rw [ih]
      rfl

theorem recordOfDict_recordDict (r : AppRecord) : recordOfDict (recordDict r) = r := by
  have hmap : (r.platforms.map PyVal.str).map pyStrOf = r.platforms := by
    rw [List.map_map]
    have hid : (pyStrOf ∘ PyVal.str) = (id : String → String) := funext (fun p => rfl)
    rw [hid, List.map_id]
  show ({ name := r.name, icon := r.icon, locker_id := r.locker_id,
          platforms := (r.platforms.map PyVal.str).map pyStrOf,
          trending := r.trending, featured := r.featured } : AppRecord) = r
  rw [hmap]

/-- `decode ∘ encode` on the good domain is the identity. -/
theorem decodeApps_good (rs : List AppRecord) (hgood : rs.all goodRec = true) :
    decodeApps (appsInterior rs) = Except.ok rs := by
  unfold decodeApps
  rw [js_fb_template rs hgood]
  show (match asPydicts (PyVal.list (rs.map (fun r => PyVal.dict (recordDict r)))) with
    | Option.some ds => Except.ok (ds.map recordOfDict)
    | Option.none => Except.error "AttributeError: apps entries are not dicts") = _
  have hmm : rs.map (fun r => PyVal.dict (recordDict r))
      = (rs.map recordDict).map PyVal.dict := by
    rw [List.map_map]
    rfl
  rw [hmm, asPydicts_dicts (rs.map recordDict)]
  show Except.ok ((rs.map recordDict).map recordOfDict) = _
  rw [List.map_map]
  have hid : (recordOfDict ∘ recordDict) = (id : AppRecord → AppRecord) :=
    funext (fun r => recordOfDict_recordDict r)
  rw [hid, List.map_id]

/-! ### The encoder output seen as the template character list -/

theorem strEq_of_data {a b : String} (h : a.data = b.data) : a = b :=
  congrArg String.mk h

theorem platBody_data : ∀ ps : List String,
    (String.intercalate ", " (ps.map (fun p => "\"" ++ p ++ "\""))).data = platBody ps := by
  intro ps
  induction ps with
  | nil => rfl
  | cons p ps ih =>
      rw [List.map_cons, intercalate_eq_sepcat]
      cases ps with
      | nil =>
          have h1 : platBody [p] = '"' :: p.data ++ ['"'] := rfl
          rw [h1]
          simp [sepcat, String.data_append]
      | cons q qs =>
          have hs : sepcat ", " (List.map (fun p => "\"" ++ p ++ "\"") (q :: qs))
              = ", " ++ String.intercalate ", "
                  (List.map (fun p => "\"" ++ p ++ "\"") (q :: qs)) := by
            rw [List.map_cons, intercalate_eq_sepcat]
            simp [sepcat, String.append_assoc]
          rw [hs]
          have h2 : platBody (p :: q :: qs)
              = '"' :: p.data ++ '"' :: ',' :: ' ' :: platBody (q :: qs) := rfl
          rw [h2, ← ih]
          simp [String.data_append, List.append_assoc]

theorem recordBlock_data (r : AppRecord) :
    (recordBlockSpec r).data = chunkBR "true" "false" r ++ [','] := by
  have hpb := platBody_data r.platforms
  cases hb1 : r.trending <;> cases hb2 : r.featured <;>
    simp [recordBlockSpec, chunkBR, chunkInnerR, pN, pI, pL, pP, pTail,
      String.data_append, hb1, hb2, ← hpb, List.append_assoc]

/-- `encode` is exactly the wrapper around the interior text. -/
theorem encode_interior (rs : List AppRecord) :
    encodeApps rs = "const APPS = [" ++ appsInterior rs ++ "];" := by
  have key : ∀ rs : List AppRecord,
      sepcat "\n" ((rs.map recordDict).foldr (fun a acc => recordLines a ++ acc) [] ++ ["];"])
        = appsInterior rs ++ "];" := by
    intro rs
    induction rs with
    | nil =>
        show sepcat "\n" ["];"] = appsInterior [] ++ "];"
        have h1 : appsInterior [] = "\n" := rfl
        rw [h1]
        simp [sepcat, String.append_assoc]
    | cons r rs ih =>
        have happ : appsInterior (r :: rs) = recordBlockSpec r ++ appsInterior rs := by
          apply strEq_of_data
          show chunksTR "true" "false" (r :: rs) = _
          rw [String.data_append, recordBlock_data]
          show chunkBR "true" "false" r ++ ',' :: chunksTR "true" "false" rs
            = (chunkBR "true" "false" r ++ [',']) ++ chunksTR "true" "false" rs
          simp [List.append_assoc]
        show sepcat "\n" ((recordLines (recordDict r)
            ++ (rs.map recordDict).foldr (fun a acc => recordLines a ++ acc) []) ++ ["];"]) = _
        rw [List.append_assoc, sepcat_append, sepcat_recordLines, ih, happ]
        simp [String.append_assoc]
  show String.intercalate "\n"
      ("const APPS = [" :: ((rs.map recordDict).foldr (fun a acc => recordLines a ++ acc) []
        ++ ["];"]))
      = "const APPS = [" ++ appsInterior rs ++ "];"
  rw [intercalate_eq_sepcat, key rs]
  simp [String.append_assoc]

set_option maxRecDepth 20000 in
/-- **C2 counterexample.**  The record named `true` lies inside the domain
the claim states — its strings contain no double quote, backslash or
newline — yet decoding the encoded interior yields the name `True`: the
fallback decoder's word rewrite `\btrue\b → True` fires inside the quoted
string value, so decode of the encoded text differs from the original
records on the claimed domain. -/
theorem claim_C2_counterexample :
    "true".data.all (fun c => !(c == '"') && !(c == '\\') && !(c == '\n')) = true
      ∧ decodeApps (appsInterior [AppRecord.mk "true" "" "" [] false false])
          = Except.ok [AppRecord.mk "True" "" "" [] false false]
      ∧ AppRecord.mk "True" "" "" [] false false
          ≠ AppRecord.mk "true" "" "" [] false false :=
  ⟨by decide, rfl, by decide⟩

/-- **C2** (amended domain).  For records whose string fields (name, icon,
locker_id, every platform entry) contain no double quote, backslash,
newline or colon, and no occurrence of `true`, `false` or `null` as a
substring (`goodRec`), the round trip holds: `encode` produces exactly
`const APPS = [` ++ interior ++ `];`, and decoding that interior through
the fallback `js_apps_to_python` path yields the original record list,
element-wise and in order. -/
theorem claim_C2_decode_encode_roundtrip (rs : List AppRecord)
    (hgood : rs.all goodRec = true) :
    encodeApps rs = "const APPS = [" ++ appsInterior rs ++ "];"
      ∧ decodeApps (appsInterior rs) = Except.ok rs :=
  ⟨encode_interior rs, decodeApps_good rs hgood⟩

theorem claim_C2_decode_encode_roundtrip_witness :
    ([AppRecord.mk "Foo" "i.png" "L1" ["android", "ios"] true false]
        : List AppRecord).all goodRec = true
      ∧ (encodeApps [AppRecord.mk "Foo" "i.png" "L1" ["android", "ios"] true false]
          = "const APPS = ["
            ++ appsInterior [AppRecord.mk "Foo" "i.png" "L1" ["android", "ios"] true false]
            ++ "];"
        ∧ decodeApps
            (appsInterior [AppRecord.mk "Foo" "i.png" "L1" ["android", "ios"] true false])
          = Except.ok [AppRecord.mk "Foo" "i.png" "L1" ["android", "ios"] true false]) :=
  ⟨by decide, claim_C2_decode_encode_roundtrip
    [AppRecord.mk "Foo" "i.png" "L1" ["android", "ios"] true false] (by decide)⟩

end LP
